import Mathlib

/-!
# I/O dispatcher value types: a shallow embedding of `IO/IoDispatcher.h`

The definitions follow `Engine/Source/Runtime/Core/Public/IO/IoDispatcher.h`.
Fixed-size byte arrays (`uint8 Id[12]`, `uint8 Hash[32]`) are functions from
`Fin n` to bytes, machine integers are natural numbers reduced explicitly
where the source truncates, and a failed `check` or a call of the fatal
`StatusOrCrash` ends a computation with a `Fault`.
-/

namespace IoDispatcher

/-! ## Bytes and raw memory helpers -/

/-- One byte (`uint8`). -/
abbrev uint8 := Fin 256

/-- A fixed-size byte array `uint8 X[n]`. -/
abbrev Bytes (n : Nat) := Fin n → uint8

/-- Byte number `k` (counted from the least significant one) of an unsigned value. -/
def byteOf (Value k : Nat) : uint8 :=
  ⟨Value / 256 ^ k % 256, Nat.mod_lt _ (by decide)⟩

/-- Byte order of the target platform; it decides how `reinterpret_cast` stores lay
out a multi-byte integer in memory. -/
inductive ByteOrder where
  | LittleEndian
  | BigEndian
  deriving DecidableEq

/-- The store `*reinterpret_cast<uintW*>(&Data[Offset]) = Value` for a `Width`-byte
unsigned integer: the bytes `Offset .. Offset + Width - 1` receive the object
representation of `Value` (which only depends on `Value % 256 ^ Width`), every other
byte keeps its content. -/
def storeUInt {n : Nat} (Order : ByteOrder) (Width : Nat) (Data : Bytes n) (Offset Value : Nat) :
    Bytes n :=
  fun i =>
    if Offset ≤ i.val ∧ i.val < Offset + Width then
      match Order with
      | .LittleEndian => byteOf Value (i.val - Offset)
      | .BigEndian => byteOf Value (Width - 1 - (i.val - Offset))
    else Data i

/-- Reads `Buf[i]`, giving `0` past the end of the array (never reached by a loop
whose bound is the array size). -/
def byteAt {n : Nat} (Buf : Bytes n) (i : Nat) : uint8 :=
  if h : i < n then Buf ⟨i, h⟩ else 0

/-- Modelled from the spec: `FMemory::Memcpy` is declared outside the given sources;
it copies the first `Count` bytes of `Src` over those of `Dest`. -/
def Memcpy {n : Nat} (Dest Src : Bytes n) (Count : Nat) : Bytes n :=
  fun i => if i.val < Count then Src i else Dest i

/-- Modelled from the spec: `FMemory::Memset` is declared outside the given sources;
it fills `Count` bytes starting at `Dest + Offset` with `Value`. -/
def Memset {n : Nat} (Dest : Bytes n) (Offset : Nat) (Value : uint8) (Count : Nat) : Bytes n :=
  fun i => if Offset ≤ i.val ∧ i.val < Offset + Count then Value else Dest i

/-- The comparison loop of `Memcmp`: `Remaining` bytes are still to be compared,
starting at index `i`. -/
def Memcmp.loop {n : Nat} (Buf1 Buf2 : Bytes n) : (Remaining : Nat) → (i : Nat) → Int
  | 0, _ => 0
  | Remaining + 1, i =>
    if byteAt Buf1 i = byteAt Buf2 i then Memcmp.loop Buf1 Buf2 Remaining (i + 1)
    else ((byteAt Buf1 i).val : Int) - ((byteAt Buf2 i).val : Int)

/-- Modelled from the spec: `FMemory::Memcmp` is declared outside the given sources
("Equality is byte-exact"); it compares the first `Count` bytes and returns `0` when
they all agree, otherwise the difference of the first pair of bytes that differ. -/
def Memcmp {n : Nat} (Buf1 Buf2 : Bytes n) (Count : Nat) : Int :=
  Memcmp.loop Buf1 Buf2 Count 0

/-! ## `EIoErrorCode`, `FIoStatus` -/

/-- I/O error code (`enum class EIoErrorCode`). -/
inductive EIoErrorCode where
  | Ok
  | Unknown
  | InvalidCode
  | Cancelled
  | FileOpenFailed
  | FileNotOpen
  | WriteError
  | NotFound
  | CorruptToc
  | UnknownChunkID
  | InvalidParameter
  | SignatureError
  deriving DecidableEq

/-- I/O status with error code and message (`class FIoStatus`). The message is the
text held in `TCHAR ErrorMessage[128]` up to its terminator. -/
structure FIoStatus where
  ErrorCode : EIoErrorCode
  ErrorMessage : String
  deriving DecidableEq

namespace FIoStatus

/-- Member `FIoStatus::IsOk`: `ErrorCode == EIoErrorCode::Ok`. -/
def IsOk (self : FIoStatus) : Bool := self.ErrorCode == EIoErrorCode.Ok

/-- Member `FIoStatus::IsCompleted`: `ErrorCode != EIoErrorCode::Unknown`. -/
def IsCompleted (self : FIoStatus) : Bool := self.ErrorCode != EIoErrorCode.Unknown

/-- Member `FIoStatus::GetErrorCode`. -/
def GetErrorCode (self : FIoStatus) : EIoErrorCode := self.ErrorCode

/-- Modelled from the spec: the constructor `FIoStatus(EIoErrorCode Code)` is defined
outside the given sources; it gives a status with that code and no message text. -/
def ofCode (Code : EIoErrorCode) : FIoStatus := ⟨Code, ""⟩

/-- Modelled from the spec: the static constant `FIoStatus::Ok` is defined outside
the given sources; its code is `Ok` (its message text is not specified and nothing
below depends on it). -/
def Ok : FIoStatus := ofCode EIoErrorCode.Ok

/-- Modelled from the spec: the static constant `FIoStatus::Unknown` is defined
outside the given sources; it is the "not yet completed" sentinel with code
`Unknown` (its message text is not specified and nothing below depends on it). -/
def Unknown : FIoStatus := ofCode EIoErrorCode.Unknown

/-- Modelled from the spec: the static constant `FIoStatus::Invalid` is defined
outside the given sources; its code is `InvalidCode`. -/
def Invalid : FIoStatus := ofCode EIoErrorCode.InvalidCode

/-- Modelled from the spec: `FIoStatus::operator=(const FIoStatus&)` is defined
outside the given sources; the destination receives the code and the message of
`Other`. -/
def assign (_self Other : FIoStatus) : FIoStatus := Other

/-- Modelled from the spec: `FIoStatus::operator=(const EIoErrorCode)` is defined
outside the given sources; the destination receives the code and its message is
cleared. -/
def assignCode (_self : FIoStatus) (InErrorCode : EIoErrorCode) : FIoStatus :=
  ofCode InErrorCode

end FIoStatus

/-- How a computation ends when it does not return normally. -/
inductive Fault where
  /-- A `check(...)` assertion did not hold. -/
  | CheckFailed
  /-- The fatal `StatusOrCrash(Status)` was called. -/
  | StatusOrCrash (Status : FIoStatus)
  /-- The `TTypeCompatibleBytes` storage was read while it held no constructed object. -/
  | InvalidStorageRead
  deriving DecidableEq

/-! ## `FIoChunkId` -/

/-- Addressable chunk types (`enum class EIoChunkType : uint8`). -/
inductive EIoChunkType where
  | Invalid
  | InstallManifest
  | ExportBundleData
  | BulkData
  | OptionalBulkData
  | MemoryMappedBulkData
  | LoaderGlobalMeta
  | LoaderInitialLoadMeta
  | LoaderGlobalNames
  | LoaderGlobalNameHashes
  | ContainerHeader
  deriving DecidableEq

/-- The enumerator value, `static_cast<uint8>(IoChunkType)`. -/
def EIoChunkType.toUInt8 : EIoChunkType → uint8
  | .Invalid => 0
  | .InstallManifest => 1
  | .ExportBundleData => 2
  | .BulkData => 3
  | .OptionalBulkData => 4
  | .MemoryMappedBulkData => 5
  | .LoaderGlobalMeta => 6
  | .LoaderInitialLoadMeta => 7
  | .LoaderGlobalNames => 8
  | .LoaderGlobalNameHashes => 9
  | .ContainerHeader => 10

/-- Identifier to a chunk of data (`class FIoChunkId`, member `uint8 Id[12]`). -/
structure FIoChunkId where
  Id : Bytes 12

namespace FIoChunkId

/-- The loop of `GetTypeHash(FIoChunkId)`: `Remaining` iterations are left, the next
one reads `Id[i]`. `Hash` is a `uint32`, so every update is reduced modulo `2 ^ 32`. -/
def GetTypeHash.loop (Id : Bytes 12) : (Remaining : Nat) → (i : Nat) → (Hash : Nat) → Nat
  | 0, _, Hash => Hash
  | Remaining + 1, i, Hash =>
    GetTypeHash.loop Id Remaining (i + 1) ((Hash * 33 + (byteAt Id i).val) % 2 ^ 32)

/-- The friend function `uint32 GetTypeHash(FIoChunkId InId)`: `Hash = 5381`, then
`Hash = Hash * 33 + InId.Id[i]` for `i = 0 .. sizeof Id - 1`. -/
def GetTypeHash (InId : FIoChunkId) : Nat :=
  GetTypeHash.loop InId.Id 12 0 5381

/-- Member `FIoChunkId::operator==`: `0 == FMemory::Memcmp(Id, Rhs.Id, sizeof Id)`. -/
def eq (self Rhs : FIoChunkId) : Bool :=
  decide (0 = Memcmp self.Id Rhs.Id 12)

/-- Member `FIoChunkId::operator!=`: `!(*this == Rhs)`. -/
def ne (self Rhs : FIoChunkId) : Bool :=
  !(self.eq Rhs)

/-- Member `FIoChunkId::Set`: `check(InSize == sizeof Id)`, then the twelve bytes at
`InIdPtr` are copied into `Id`. -/
def Set (self : FIoChunkId) (InIdPtr : Bytes 12) (InSize : Nat) : Except Fault FIoChunkId :=
  if InSize = 12 then .ok { self with Id := Memcpy self.Id InIdPtr 12 }
  else .error Fault.CheckFailed

/-- Static member `FIoChunkId::CreateEmptyId`. The local `ChunkId` is declared without an
initialiser, so its bytes before `Set` are whatever `Uninit` holds. -/
def CreateEmptyId (Uninit : FIoChunkId) : Except Fault FIoChunkId :=
  let ChunkId : FIoChunkId := Uninit
  let Data : Bytes 12 := fun _ => 0
  ChunkId.Set Data 12

/-- Modelled from the spec: the initialiser of the static `FIoChunkId::InvalidChunkId`
is outside the given sources; the spec reserves the all-zero 12-byte pattern as the
invalid sentinel (the id that `CreateEmptyId` builds). -/
def InvalidChunkId : FIoChunkId := ⟨fun _ => 0⟩

/-- Member `FIoChunkId::IsValid`: `*this != InvalidChunkId`. -/
def IsValid (self : FIoChunkId) : Bool :=
  self.ne InvalidChunkId

end FIoChunkId

/-- The function `CreateIoChunkId`: `Data` starts as twelve zero bytes, receives `ChunkId` as a
`uint64` at offset 0, `ChunkIndex` as a `uint16` at offset 8 and the chunk type as a
`uint8` at offset 11, and is then copied into a local `IoChunkId` declared without an
initialiser (`Uninit`). -/
def CreateIoChunkId (Order : ByteOrder) (Uninit : FIoChunkId)
    (ChunkId ChunkIndex : Nat) (IoChunkType : EIoChunkType) : Except Fault FIoChunkId :=
  let Data : Bytes 12 := fun _ => 0
  let Data := storeUInt Order 8 Data 0 ChunkId
  let Data := storeUInt Order 2 Data 8 ChunkIndex
  let Data := storeUInt Order 1 Data 11 IoChunkType.toUInt8.val
  let IoChunkId : FIoChunkId := Uninit
  IoChunkId.Set Data 12


/-! ## `FIoChunkHash` -/

/-- Chunk hash (`class FIoChunkHash`, member `uint8 Hash[32]`). -/
structure FIoChunkHash where
  Hash : Bytes 32

/-- Modelled from the spec: `FSHA1::HashBuffer(Data, DataSize, OutHash)` is declared
outside the given sources. The digest function `SHA1` is a parameter (a 20-byte
cryptographic hash of the `DataSize` bytes at `Data`); the call writes the digest to
the first 20 bytes of the output and leaves the bytes after them as they were. -/
def FSHA1.HashBuffer {n : Nat} (SHA1 : List uint8 → Bytes 20) (Data : List uint8)
    (DataSize : Nat) (OutHash : Bytes n) : Bytes n :=
  fun i => if h : i.val < 20 then SHA1 (Data.take DataSize) ⟨i.val, h⟩ else OutHash i

namespace FIoChunkHash

/-- Member `FIoChunkHash::operator==`: `0 == FMemory::Memcmp(Hash, Rhs.Hash, sizeof Hash)`. -/
def eq (self Rhs : FIoChunkHash) : Bool :=
  decide (0 = Memcmp self.Hash Rhs.Hash 32)

/-- Member `FIoChunkHash::operator!=`: `!(*this == Rhs)`. -/
def ne (self Rhs : FIoChunkHash) : Bool :=
  !(self.eq Rhs)

/-- Static member `FIoChunkHash::HashBuffer`. The local `Result` is declared without
an initialiser, so its bytes before the two writes are whatever `Uninit` holds. -/
def HashBuffer (SHA1 : List uint8 → Bytes 20) (Uninit : FIoChunkHash) (Data : List uint8)
    (DataSize : Nat) : FIoChunkHash :=
  let Result : FIoChunkHash := Uninit
  let Result : FIoChunkHash := { Result with Hash := FSHA1.HashBuffer SHA1 Data DataSize Result.Hash }
  let Result : FIoChunkHash := { Result with Hash := Memset Result.Hash 20 0 12 }
  Result

end FIoChunkHash

/-! ## `TIoStatusOr<T>` -/

/-- What a reference parameter of a member function refers to: an object that is not
part of `*this`, given by its value, or the corresponding member of `*this` itself. -/
inductive Ref (β : Type) where
  | Other (Value : β)
  | Self

/-- Optional I/O result or error status (`class TIoStatusOr<T>`). `Value` is the
`TTypeCompatibleBytes<T>` storage: `some v` while it holds a constructed object with
value `v`, `none` while it holds none (never constructed, destroyed, or moved from). -/
structure TIoStatusOr (T : Type) where
  StatusValue : FIoStatus
  Value : Option T

namespace TIoStatusOr

variable {T : Type}

/-- The default constructor, `TIoStatusOr() : StatusValue(FIoStatus::Unknown) { }`. -/
def default : TIoStatusOr T :=
  { StatusValue := FIoStatus.Unknown, Value := none }

/-- Member `TIoStatusOr::IsOk`. -/
def IsOk (self : TIoStatusOr T) : Bool := self.StatusValue.IsOk

/-- Member `TIoStatusOr::Status`. -/
def Status (self : TIoStatusOr T) : FIoStatus := self.StatusValue

/-- Member `TIoStatusOr::Reset`: the status becomes `Unknown`, and the stored object is
destroyed when the status was `Ok`. -/
def Reset (self : TIoStatusOr T) : TIoStatusOr T :=
  let ErrorCode := self.StatusValue.GetErrorCode
  let StatusValue := self.StatusValue.assignCode EIoErrorCode.Unknown
  if ErrorCode = EIoErrorCode.Ok then { StatusValue := StatusValue, Value := none }
  else { StatusValue := StatusValue, Value := self.Value }

/-- Member `TIoStatusOr::ValueOrDie`: calls `StatusOrCrash(StatusValue)` unless the
status is `Ok`, then returns the object in the storage. -/
def ValueOrDie (self : TIoStatusOr T) : Except Fault T :=
  if !self.StatusValue.IsOk then .error (Fault.StatusOrCrash self.StatusValue)
  else
    match self.Value with
    | some v => .ok v
    | none => .error Fault.InvalidStorageRead

/-- Member `TIoStatusOr::ConsumeValueOrDie`: calls `StatusOrCrash(StatusValue)` unless
the status is `Ok`, then sets the status to `FIoStatus::Unknown` and returns the
stored object by move. The result is the returned value and the object afterwards. -/
def ConsumeValueOrDie (self : TIoStatusOr T) : Except Fault (T × TIoStatusOr T) :=
  if !self.StatusValue.IsOk then .error (Fault.StatusOrCrash self.StatusValue)
  else
    match self.Value with
    | some v => .ok (v, { StatusValue := self.StatusValue.assign FIoStatus.Unknown, Value := none })
    | none => .error Fault.InvalidStorageRead

/-- The constructor `TIoStatusOr(FIoStatus InStatus)`:
`check(!InStatus.IsOk()); StatusValue = InStatus;`. -/
def ofStatus (InStatus : FIoStatus) : Except Fault (TIoStatusOr T) :=
  if InStatus.IsOk then .error Fault.CheckFailed
  else .ok { StatusValue := InStatus, Value := none }

/-- The constructors `TIoStatusOr(const T& InValue)` and `TIoStatusOr(T&& InValue)`:
`StatusValue = FIoStatus::Ok;` and the storage receives a copy of (or the moved)
`InValue`. -/
def ofValue (InValue : T) : TIoStatusOr T :=
  { StatusValue := FIoStatus.Ok, Value := some InValue }

/-- Member `operator=(const FIoStatus& OtherStatus)`:
`check(!OtherStatus.IsOk()); Reset(); StatusValue = OtherStatus;`. The reference is
read where the source reads it: `Ref.Self` stands for a reference to this object's
own `StatusValue` (as `Status()` returns), which `Reset()` has changed by then. -/
def assignStatus (self : TIoStatusOr T) (OtherStatus : Ref FIoStatus) :
    Except Fault (TIoStatusOr T) :=
  let read : TIoStatusOr T → FIoStatus := fun x =>
    match OtherStatus with
    | .Other s => s
    | .Self => x.StatusValue
  if (read self).IsOk then .error Fault.CheckFailed
  else
    let x := self.Reset
    .ok { x with StatusValue := x.StatusValue.assign (read x) }

/-- Members `operator=(const T& OtherValue)` and `operator=(T&& OtherValue)`: nothing
happens when `&OtherValue == (T*)&Value` (`Ref.Self`); otherwise `Reset()`, the
storage receives the value and `StatusValue = EIoErrorCode::Ok`. -/
def assignValue (self : TIoStatusOr T) (OtherValue : Ref T) : TIoStatusOr T :=
  match OtherValue with
  | .Self => self
  | .Other v =>
    let x := self.Reset
    { StatusValue := x.StatusValue.assignCode EIoErrorCode.Ok, Value := some v }

/-- The class invariant: the storage holds a constructed object exactly when the
status is `Ok`. -/
def Valid (self : TIoStatusOr T) : Prop :=
  self.IsOk = true ↔ self.Value.isSome = true

end TIoStatusOr

/-! ## `FIoBuffer` -/

/-- Core buffer object (`struct FIoBuffer::BufCore`): data pointer (`0` is `nullptr`),
the 40-bit size split into `DataSizeLow` (`uint32`) and `DataSizeHigh` (`uint8`), the
flag byte, and the pointer to the outer core of a view (`0` when there is none). -/
structure BufCore where
  DataPtr : Nat
  DataSizeLow : Nat
  DataSizeHigh : Nat
  Flags : Nat
  OuterCore : Nat
  deriving DecidableEq

namespace BufCore

/-- Flag `OwnsMemory = 1 << 0`: buffer memory is owned by this instance. -/
def OwnsMemory : Nat := 1 <<< 0

/-- The default member initialisers of `BufCore`. -/
def init : BufCore :=
  { DataPtr := 0, DataSizeLow := 0, DataSizeHigh := 0, Flags := 0, OuterCore := 0 }

/-- Member `BufCore::Data`. -/
def Data (self : BufCore) : Nat := self.DataPtr

/-- Member `BufCore::DataSize`: `DataSizeLow | (uint64(DataSizeHigh) << 32)`. -/
def DataSize (self : BufCore) : Nat :=
  (self.DataSizeLow ||| (self.DataSizeHigh <<< 32)) % 2 ^ 64

/-- Member `BufCore::IsMemoryOwned`: `Flags & OwnsMemory`, converted to `bool`. -/
def IsMemoryOwned (self : BufCore) : Bool :=
  (self.Flags &&& OwnsMemory) != 0

/-- Member `BufCore::SetIsOwned`: `Flags |= OwnsMemory` or `Flags &= ~OwnsMemory` on the
`uint8` flag byte. -/
def SetIsOwned (self : BufCore) (InOwnsMemory : Bool) : BufCore :=
  if InOwnsMemory then { self with Flags := (self.Flags ||| OwnsMemory) % 256 }
  else { self with Flags := (self.Flags &&& (255 ^^^ OwnsMemory)) % 256 }

/-- Member `BufCore::ClearFlags`. -/
def ClearFlags (self : BufCore) : BufCore := { self with Flags := 0 }

/-- Modelled from the spec: `BufCore::SetDataAndSize` is defined outside the given
sources; it stores the pointer and the size, the size in its 32 low and 8 high bits. -/
def SetDataAndSize (self : BufCore) (InData InSize : Nat) : BufCore :=
  { self with DataPtr := InData, DataSizeLow := InSize % 2 ^ 32,
              DataSizeHigh := InSize / 2 ^ 32 % 256 }

/-- Modelled from the spec: the constructor `BufCore(InData, InSize, InOwnsMemory)` is
defined outside the given sources; it records the data, the size and the ownership. -/
def ofData (InData InSize : Nat) (InOwnsMemory : Bool) : BufCore :=
  (init.SetDataAndSize InData InSize).SetIsOwned InOwnsMemory

/-- Modelled from the spec: the constructor `BufCore(InData, InSize, InOuter)` is
defined outside the given sources; a view records the data, the size and the outer
core it keeps alive, and does not own its memory. -/
def ofOuter (InData InSize InOuter : Nat) : BufCore :=
  { init with OuterCore := InOuter }.SetDataAndSize InData InSize

/-- Modelled from the spec: `BufCore::ReleaseMemory` is defined outside the given
sources. When the memory is owned the pointer is handed to the caller and removed
from the buffer; when it is not owned the call "will return a failed FIoStatus
instead", which the `TIoStatusOr(FIoStatus)` constructor converts to the result, and
leaves the buffer as it is. `Failure` is that failed status: neither the header nor the
specification names its code, so it is any status that is not Ok. The result is the
returned `TIoStatusOr<uint8*>` and the core afterwards. -/
def ReleaseMemory (Failure : { Status : FIoStatus // Status.IsOk = false }) (self : BufCore) :
    Except Fault (TIoStatusOr Nat × BufCore) :=
  if self.IsMemoryOwned then
    let BufferPtr := self.Data
    .ok (TIoStatusOr.ofValue BufferPtr, (self.SetDataAndSize 0 0).ClearFlags)
  else
    match TIoStatusOr.ofStatus Failure.val with
    | .ok Result => .ok (Result, self)
    | .error f => .error f

end BufCore

/-- Reference to buffer data (`class FIoBuffer`): the state of the core that `CorePtr`
points to. -/
structure FIoBuffer where
  Core : BufCore
  deriving DecidableEq

namespace FIoBuffer

/-- Modelled from the spec: the constructor `FIoBuffer(EWrapTag, Data, InSize)` is
defined outside the given sources; a wrapping buffer is a view that never owns its
memory. -/
def Wrap (Data InSize : Nat) : FIoBuffer :=
  ⟨BufCore.ofData Data InSize false⟩

/-- Modelled from the spec: the constructor `FIoBuffer(Data, InSize, OuterBuffer)` is
defined outside the given sources; a sub-view into another buffer does not own its
memory and keeps the outer buffer (whose core is at `OuterCore`) alive. -/
def View (Data InSize OuterCore : Nat) : FIoBuffer :=
  ⟨BufCore.ofOuter Data InSize OuterCore⟩

/-- Member `FIoBuffer::Data`. -/
def Data (self : FIoBuffer) : Nat := self.Core.Data

/-- Member `FIoBuffer::DataSize`. -/
def DataSize (self : FIoBuffer) : Nat := self.Core.DataSize

/-- Member `FIoBuffer::IsMemoryOwned`. -/
def IsMemoryOwned (self : FIoBuffer) : Bool := self.Core.IsMemoryOwned

/-- Modelled from the spec: `FIoBuffer::Release` is defined outside the given sources;
it relinquishes the core's memory to the caller (`BufCore::ReleaseMemory`). The
result is the returned `TIoStatusOr<uint8*>` and the buffer afterwards. -/
def Release (Failure : { Status : FIoStatus // Status.IsOk = false }) (self : FIoBuffer) :
    Except Fault (TIoStatusOr Nat × FIoBuffer) :=
  match self.Core.ReleaseMemory Failure with
  | .ok (Result, Core) => .ok (Result, ⟨Core⟩)
  | .error f => .error f

end FIoBuffer

/-! ## The specification's wording of the hash -/

/-- The hash as the specification words it: start from `h = 5381` and, for each byte
in order, replace `h` by `(h * 33 + byte) mod 2 ^ 32`. -/
def rollingHash (bytes : List uint8) : Nat :=
  bytes.foldl (fun h b => (h * 33 + b.val) % 2 ^ 32) 5381

/-- The twelve bytes that `CreateIoChunkId` assembles in its local `Data`. -/
def chunkIdData (Order : ByteOrder) (ChunkId ChunkIndex : Nat) (IoChunkType : EIoChunkType) :
    Bytes 12 :=
  storeUInt Order 1 (storeUInt Order 2 (storeUInt Order 8 (fun _ => 0) 0 ChunkId) 8 ChunkIndex)
    11 IoChunkType.toUInt8.val


/-! ## `FIoReadOptions` -/

/-- Read options of one request (`class FIoReadOptions`): the requested offset and size
(`uint64`), the target address (`void*`, `0` is `nullptr`) and the flags. -/
structure FIoReadOptions where
  RequestedOffset : Nat
  RequestedSize : Nat
  TargetVa : Nat
  Flags : Nat
  deriving DecidableEq

namespace FIoReadOptions

/-- The defaulted constructor `FIoReadOptions() = default` with the default member
initialisers `RequestedOffset = 0`, `RequestedSize = ~uint64(0)`, `TargetVa = nullptr`,
`Flags = 0`. -/
def default : FIoReadOptions :=
  { RequestedOffset := 0, RequestedSize := 2 ^ 64 - 1 - 0, TargetVa := 0, Flags := 0 }

/-- The constructor `FIoReadOptions(uint64 InOffset, uint64 InSize)`: offset and size
come from the arguments, the other members from their default initialisers. -/
def ofRange (InOffset InSize : Nat) : FIoReadOptions :=
  { default with RequestedOffset := InOffset, RequestedSize := InSize }

/-- Member `FIoReadOptions::SetRange`. -/
def SetRange (self : FIoReadOptions) (Offset Size : Nat) : FIoReadOptions :=
  { self with RequestedOffset := Offset, RequestedSize := Size }

/-- Member `FIoReadOptions::SetTargetVa`. -/
def SetTargetVa (self : FIoReadOptions) (InTargetVa : Nat) : FIoReadOptions :=
  { self with TargetVa := InTargetVa }

/-- Member `FIoReadOptions::GetOffset`. -/
def GetOffset (self : FIoReadOptions) : Nat := self.RequestedOffset

/-- Member `FIoReadOptions::GetSize`. -/
def GetSize (self : FIoReadOptions) : Nat := self.RequestedSize

/-- Member `FIoReadOptions::GetTargetVa`. -/
def GetTargetVa (self : FIoReadOptions) : Nat := self.TargetVa

end FIoReadOptions

/-! ## `EIoContainerFlags`, `FIoContainerSettings` -/

/-- Container flags (`enum class EIoContainerFlags : uint8`); a value of the enumeration
is its underlying byte. -/
structure EIoContainerFlags where
  Value : uint8
  deriving DecidableEq

namespace EIoContainerFlags

/-- Enumerator `None`. -/
def None : EIoContainerFlags := ⟨0⟩

/-- Enumerator `Compressed = (1 << 0)`. -/
def Compressed : EIoContainerFlags := ⟨1⟩

/-- Enumerator `Encrypted = (1 << 1)`. -/
def Encrypted : EIoContainerFlags := ⟨2⟩

/-- Enumerator `Signed = (1 << 2)`. -/
def Signed : EIoContainerFlags := ⟨4⟩

/-- Modelled from the spec: the macro `ENUM_CLASS_FLAGS(EIoContainerFlags)` is defined
outside the given sources; it gives the enumeration the bitwise operators of a bitmask
("flags (bitmask: Compressed, Encrypted, Signed — independently combinable)"). This is
`operator&`, computed on the underlying bytes. -/
def and (Lhs Rhs : EIoContainerFlags) : EIoContainerFlags :=
  ⟨⟨(Lhs.Value.val &&& Rhs.Value.val) % 256, Nat.mod_lt _ (by decide)⟩⟩

/-- Modelled from the spec: `operator|` of `ENUM_CLASS_FLAGS(EIoContainerFlags)`,
computed on the underlying bytes. -/
def or (Lhs Rhs : EIoContainerFlags) : EIoContainerFlags :=
  ⟨⟨(Lhs.Value.val ||| Rhs.Value.val) % 256, Nat.mod_lt _ (by decide)⟩⟩

/-- Modelled from the spec: `operator!` of `ENUM_CLASS_FLAGS(EIoContainerFlags)`, true
exactly for the value with no bit set. -/
def not (E : EIoContainerFlags) : Bool :=
  E.Value.val == 0

end EIoContainerFlags

/-- Container settings (`struct FIoContainerSettings`): the container id, the flags, the
GUID of the encryption key, the key bytes and the handle of the signing key. -/
structure FIoContainerSettings where
  ContainerId : Nat
  ContainerFlags : EIoContainerFlags
  EncryptionKeyGuid : Nat
  EncryptionKey : List uint8
  SigningKey : Nat

namespace FIoContainerSettings

/-- Member `IsCompressed`: `!!(ContainerFlags & EIoContainerFlags::Compressed)`. -/
def IsCompressed (self : FIoContainerSettings) : Bool :=
  !(self.ContainerFlags.and EIoContainerFlags.Compressed).not

/-- Member `IsEncrypted`: `!!(ContainerFlags & EIoContainerFlags::Encrypted)`. -/
def IsEncrypted (self : FIoContainerSettings) : Bool :=
  !(self.ContainerFlags.and EIoContainerFlags.Encrypted).not

/-- Member `IsSigned`: `!!(ContainerFlags & EIoContainerFlags::Signed)`. -/
def IsSigned (self : FIoContainerSettings) : Bool :=
  !(self.ContainerFlags.and EIoContainerFlags.Signed).not

end FIoContainerSettings

/-- The bitwise OR of the members of a subset of `{Compressed, Encrypted, Signed}`, the
subset given by three membership flags. -/
def containerFlagsOf (c e s : Bool) : EIoContainerFlags :=
  ((if c then EIoContainerFlags.Compressed else EIoContainerFlags.None).or
    (if e then EIoContainerFlags.Encrypted else EIoContainerFlags.None)).or
    (if s then EIoContainerFlags.Signed else EIoContainerFlags.None)

/-! ## Memory, buffer contents and `MakeOwned` -/

/-- The bytes of the address space, by address. -/
abbrev Memory := Nat → uint8

/-- The `Size` bytes found at address `Ptr`. -/
def readMemory (Heap : Memory) (Ptr Size : Nat) : List uint8 :=
  (List.range Size).map (fun i => Heap (Ptr + i))

/-- The memory after the bytes `Data` have been copied to address `Ptr`. -/
def writeMemory (Heap : Memory) (Ptr : Nat) (Data : List uint8) : Memory :=
  fun a => if Ptr ≤ a ∧ a < Ptr + Data.length then Data.getD (a - Ptr) 0 else Heap a

namespace BufCore

/-- The contents of a buffer: the `DataSize()` bytes at `Data()`. -/
def Contents (Heap : Memory) (self : BufCore) : List uint8 :=
  readMemory Heap self.Data self.DataSize

/-- Modelled from the spec: `BufCore::MakeOwned` is defined outside the given sources
("if not already owning memory, allocate new storage and copy; idempotent"). An owning
core is left as it is; otherwise the contents are copied to the new allocation at
`NewBuffer`, which becomes the data pointer, and the core owns its memory. The result is
the memory and the core afterwards. -/
def MakeOwned (NewBuffer : Nat) (Heap : Memory) (self : BufCore) : Memory × BufCore :=
  if self.IsMemoryOwned then (Heap, self)
  else
    let BufferSize := self.DataSize
    let Heap := writeMemory Heap NewBuffer (readMemory Heap self.Data BufferSize)
    (Heap, ({ self with DataPtr := NewBuffer }).SetIsOwned true)

end BufCore

namespace FIoBuffer

/-- The contents of a buffer: the `DataSize()` bytes at `Data()`. -/
def Contents (Heap : Memory) (self : FIoBuffer) : List uint8 :=
  self.Core.Contents Heap

/-- Modelled from the spec: `FIoBuffer::MakeOwned` is defined outside the given sources;
it makes the core own its memory (`BufCore::MakeOwned`). `NewBuffer` is the address an
allocation made by the call returns. -/
def MakeOwned (NewBuffer : Nat) (Heap : Memory) (self : FIoBuffer) : Memory × FIoBuffer :=
  ((self.Core.MakeOwned NewBuffer Heap).1, ⟨(self.Core.MakeOwned NewBuffer Heap).2⟩)

/-- Member `FIoBuffer::EnsureOwned`: `if (!CorePtr->IsMemoryOwned()) { MakeOwned(); }`. -/
def EnsureOwned (NewBuffer : Nat) (Heap : Memory) (self : FIoBuffer) : Memory × FIoBuffer :=
  if !self.Core.IsMemoryOwned then self.MakeOwned NewBuffer Heap else (Heap, self)

end FIoBuffer

/-! ## `FIoBatch` -/

/-- Batch read options (`class FIoBatchReadOptions`): the target address of the batch
output (`0` is `nullptr`). -/
structure FIoBatchReadOptions where
  TargetVa : Nat
  deriving DecidableEq

/-- The defaulted constructor of `FIoBatchReadOptions`: `TargetVa = nullptr`. -/
def FIoBatchReadOptions.default : FIoBatchReadOptions := { TargetVa := 0 }

/-- Member `FIoBatchReadOptions::SetTargetVa`. -/
def FIoBatchReadOptions.SetTargetVa (_self : FIoBatchReadOptions) (InTargetVa : Nat) :
    FIoBatchReadOptions :=
  { TargetVa := InTargetVa }

/-- Member `FIoBatchReadOptions::GetTargetVa`. -/
def FIoBatchReadOptions.GetTargetVa (self : FIoBatchReadOptions) : Nat := self.TargetVa

/-- Dispatcher priorities (`enum EIoDispatcherPriority : uint8`). -/
inductive EIoDispatcherPriority where
  | IoDispatcherPriority_Low
  | IoDispatcherPriority_Medium
  | IoDispatcherPriority_High
  | IoDispatcherPriority_Count
  deriving DecidableEq

/-- Modelled from the spec: `FIoRequestImpl` is only forward-declared in the given
sources; a request is "one pending chunk read — target chunk id, read options". -/
structure FIoRequestImpl where
  ChunkId : FIoChunkId
  Options : FIoReadOptions

/-- Modelled from the spec: `FIoBatchImpl` is only forward-declared in the given sources;
a batch is "an ordered set of Requests", here in the order they were added. -/
structure FIoBatch where
  Requests : List FIoRequestImpl

/-- Modelled from the spec: `FIoDispatcherImpl` is only forward-declared in the given
sources; of the dispatcher the model keeps the requests submitted for I/O, in
submission order. -/
structure FIoDispatcherImpl where
  Submitted : List FIoRequestImpl

namespace FIoBatch

/-- Modelled from the spec: `FIoBatch::Read` is defined outside the given sources; it
"appends a new Request to the batch, returns a lightweight handle". The result is the
request and the batch afterwards. -/
def Read (self : FIoBatch) (Chunk : FIoChunkId) (Options : FIoReadOptions) :
    FIoRequestImpl × FIoBatch :=
  (⟨Chunk, Options⟩, { Requests := self.Requests ++ [⟨Chunk, Options⟩] })

/-- Modelled from the spec: `FIoBatch::IssueWithCallback` is defined outside the given
sources. It "fails immediately (before doing any I/O) with InvalidParameter if any
request was configured with a per-request target address" (the header comment says the
same); otherwise it submits the requests, in the order they were added, to be read
into one contiguous output buffer. The result is the returned status and the dispatcher
afterwards. -/
def IssueWithCallback (self : FIoBatch) (Dispatcher : FIoDispatcherImpl)
    (_Options : FIoBatchReadOptions) (_Priority : EIoDispatcherPriority) :
    FIoStatus × FIoDispatcherImpl :=
  if self.Requests.any (fun r => r.Options.GetTargetVa != 0) then
    (FIoStatus.ofCode EIoErrorCode.InvalidParameter, Dispatcher)
  else
    (FIoStatus.Ok, { Submitted := Dispatcher.Submitted ++ self.Requests })

/-- The chunk range a request asks for: of the bytes of its chunk, the `GetSize()` bytes
from `GetOffset()` on, as far as the chunk has them. `Chunks` gives the bytes of every
chunk of the mounted containers. -/
def RequestedRange (Chunks : FIoChunkId → List uint8) (r : FIoRequestImpl) : List uint8 :=
  ((Chunks r.ChunkId).drop r.Options.GetOffset).take r.Options.GetSize

/-- Modelled from the spec: "workers write into pre-computed offsets of the shared output
buffer, not by append order of completion". The layout gives every request, in the order
the requests were added, the address of its range in the output buffer that starts at
`Base`, together with the bytes its read yields. -/
def OutputLayout (Chunks : FIoChunkId → List uint8) (Base : Nat) :
    List FIoRequestImpl → List (Nat × List uint8)
  | [] => []
  | r :: rs =>
    (Base, RequestedRange Chunks r)
      :: OutputLayout Chunks (Base + (RequestedRange Chunks r).length) rs

/-- The size of the output buffer of a batch: the sum of the sizes of the requested
ranges. -/
def OutputSize (Chunks : FIoChunkId → List uint8) (self : FIoBatch) : Nat :=
  ((self.Requests.map (RequestedRange Chunks)).map List.length).sum

/-- Modelled from the spec: the completion of one read writes its bytes to its
pre-computed place in the output buffer. -/
def CompleteRead (Heap : Memory) (Write : Nat × List uint8) : Memory :=
  writeMemory Heap Write.1 Write.2

/-- The memory after the reads have completed in the order `Order`. -/
def CompleteReads (Heap : Memory) (Order : List (Nat × List uint8)) : Memory :=
  Order.foldl CompleteRead Heap

/-- Modelled from the spec: once every read of the batch has completed, the callback
receives the output buffer of the batch, here by its contents. `OutputPtr` is the
address of the output buffer and `Order` the order in which the reads completed. -/
def CallbackBuffer (Chunks : FIoChunkId → List uint8) (self : FIoBatch) (Heap : Memory)
    (OutputPtr : Nat) (Order : List (Nat × List uint8)) : List uint8 :=
  readMemory (CompleteReads Heap Order) OutputPtr (self.OutputSize Chunks)

end FIoBatch

/-- Sample chunk contents: the chunk whose id starts with the byte `k` consists of `k`
bytes of value `k`. -/
def sampleChunks : FIoChunkId → List uint8 :=
  fun Id => List.replicate (Id.Id 0).val (Id.Id 0)

/-- A sample batch of three requests, for the chunks whose ids start with 2, 3 and 1,
each with default read options. -/
def sampleBatch : FIoBatch :=
  { Requests := [⟨⟨fun _ => 2⟩, FIoReadOptions.default⟩, ⟨⟨fun _ => 3⟩, FIoReadOptions.default⟩,
      ⟨⟨fun _ => 1⟩, FIoReadOptions.default⟩] }

/-! ## Container writer and reader -/

/-- Settings shared by the writers of one context (`struct FIoStoreWriterSettings`);
`CompressionMethod` is the name, `0` for `NAME_None`. -/
structure FIoStoreWriterSettings where
  CompressionMethod : Nat
  CompressionBlockSize : Nat
  CompressionBlockAlignment : Nat
  MemoryMappingAlignment : Nat
  WriterMemoryLimit : Nat
  bEnableCsvOutput : Bool
  deriving DecidableEq

/-- The default member initialisers of `FIoStoreWriterSettings`. -/
def FIoStoreWriterSettings.default : FIoStoreWriterSettings :=
  { CompressionMethod := 0, CompressionBlockSize := 0, CompressionBlockAlignment := 0,
    MemoryMappingAlignment := 0, WriterMemoryLimit := 0, bEnableCsvOutput := false }

/-- Write options of one chunk (`struct FIoWriteOptions`); `DebugName` is the address of
the name, `0` for `nullptr`. -/
structure FIoWriteOptions where
  DebugName : Nat
  bForceUncompressed : Bool
  bIsMemoryMapped : Bool
  deriving DecidableEq

/-- The default member initialisers of `FIoWriteOptions`. -/
def FIoWriteOptions.default : FIoWriteOptions :=
  { DebugName := 0, bForceUncompressed := false, bIsMemoryMapped := false }

/-- Metadata of one chunk of a container (`struct FIoStoreTocChunkInfo`); `Offset` and
`Size` are `uint64`. -/
structure FIoStoreTocChunkInfo where
  Id : FIoChunkId
  Hash : FIoChunkHash
  Offset : Nat
  Size : Nat
  bForceUncompressed : Bool
  bIsMemoryMapped : Bool

/-- Statistics that `Flush` returns (`struct FIoStoreWriterResult`); of its members the
model keeps the container id, the number of entries, the padding, the uncompressed size
and the container flags. -/
structure FIoStoreWriterResult where
  ContainerId : Nat
  TocEntryCount : Int
  PaddingSize : Int
  UncompressedContainerSize : Int
  ContainerFlags : EIoContainerFlags
  deriving DecidableEq

/-- Modelled from the spec: the state of an initialised `FIoStoreWriterContext` (its
implementation `FIoStoreWriterContextImpl` is only forward-declared in the given
sources), the "global writer settings". -/
structure FIoStoreWriterContext where
  WriterSettings : FIoStoreWriterSettings

/-- Modelled from the spec: `FIoStoreWriterContext::Initialize` is defined outside the
given sources; it takes the writer settings. -/
def FIoStoreWriterContext.Initialize (InWriterSettings : FIoStoreWriterSettings) :
    FIoStatus × FIoStoreWriterContext :=
  (FIoStatus.Ok, { WriterSettings := InWriterSettings })

/-- Modelled from the spec: a container, "an on-disk package bundling many chunks plus a
table of contents": the container id and flags, the table of contents "enumerating chunk
id → (offset, size, hash, force-uncompressed flag, memory-mapped flag)" in append order,
and the chunk data that the offsets of the table address, padding included. The optional
compression and encryption of the file are "pluggable primitives" beneath these offsets,
which the model leaves out. -/
structure FIoStoreContainer where
  ContainerId : Nat
  ContainerFlags : EIoContainerFlags
  Toc : List FIoStoreTocChunkInfo
  Data : List uint8

/-- Modelled from the spec: the state of an `FIoStoreWriter` (its implementation
`FIoStoreWriterImpl` is only forward-declared in the given sources): the settings it was
initialised with, the table of contents and the chunk data written so far ("sequential
append-only writing with per-chunk metadata"), and the number of padding bytes among
them. -/
structure FIoStoreWriter where
  WriterSettings : FIoStoreWriterSettings
  ContainerSettings : FIoContainerSettings
  Toc : List FIoStoreTocChunkInfo
  Data : List uint8
  PaddingSize : Nat

/-- Modelled from the spec: the state of an initialised `FIoStoreReader` (its
implementation `FIoStoreReaderImpl` is only forward-declared in the given sources): the
table of contents it loaded and the chunk data of the container it opened. -/
structure FIoStoreReader where
  ContainerId : Nat
  ContainerFlags : EIoContainerFlags
  Toc : List FIoStoreTocChunkInfo
  Data : List uint8

/-- Modelled from the spec: the helper `Align(Val, Alignment)` is defined outside the
given sources; it gives the least multiple of `Alignment` that is not below `Val`, and
`Val` itself when there is no alignment. -/
def Align (Val Alignment : Nat) : Nat :=
  if Alignment = 0 then Val else (Val + Alignment - 1) / Alignment * Alignment

namespace FIoStoreWriter

/-- Modelled from the spec: `FIoStoreWriter::Initialize(Context, ContainerSettings)` is
defined outside the given sources; it takes the "global writer settings" of the context
and the settings of the container, and starts a container to which nothing has been
appended. -/
def Initialize (Context : FIoStoreWriterContext) (ContainerSettings : FIoContainerSettings) :
    FIoStatus × FIoStoreWriter :=
  (FIoStatus.Ok,
    { WriterSettings := Context.WriterSettings, ContainerSettings := ContainerSettings,
      Toc := [], Data := [], PaddingSize := 0 })

/-- Modelled from the spec: `FIoStoreWriter::Append(ChunkId, ChunkHash, Chunk,
WriteOptions)` is defined outside the given sources; it "appends a chunk" with its
"precomputed hash", "honoring `bForceUncompressed`/`bIsMemoryMapped` overrides per chunk":
the bytes go to the end of the chunk data ("Append order defines on-disk order"), a
memory mapped chunk after the padding that brings it to a multiple of
`MemoryMappingAlignment`, and the table of contents receives the id, the hash, the
offset, the size and the two flags of the chunk. A precomputed hash is the
`FIoChunkHash::HashBuffer` of the chunk that the caller computed beforehand
(`Precomputed`); the model says nothing of a call that passes any other hash. The
result is the returned status and the writer afterwards. -/
def AppendWithHash (SHA1 : List uint8 → Bytes 20) (self : FIoStoreWriter)
    (ChunkId : FIoChunkId) (ChunkHash : FIoChunkHash) (Chunk : List uint8)
    (WriteOptions : FIoWriteOptions)
    (_Precomputed : ∃ Uninit : FIoChunkHash,
      ChunkHash = FIoChunkHash.HashBuffer SHA1 Uninit Chunk Chunk.length) :
    FIoStatus × FIoStoreWriter :=
  let Alignment :=
    if WriteOptions.bIsMemoryMapped then self.WriterSettings.MemoryMappingAlignment else 0
  let Offset := Align self.Data.length Alignment
  let Padding := Offset - self.Data.length
  (FIoStatus.Ok,
    { self with
      Toc := self.Toc ++
        [{ Id := ChunkId, Hash := ChunkHash, Offset := Offset % 2 ^ 64,
           Size := Chunk.length % 2 ^ 64,
           bForceUncompressed := WriteOptions.bForceUncompressed,
           bIsMemoryMapped := WriteOptions.bIsMemoryMapped }]
      Data := self.Data ++ List.replicate Padding 0 ++ Chunk
      PaddingSize := self.PaddingSize + Padding })

/-- Modelled from the spec: `FIoStoreWriter::Append(ChunkId, Chunk, WriteOptions)` is
defined outside the given sources; it appends the chunk, "computing its hash if not
supplied", with `FIoChunkHash::HashBuffer` over the bytes of the chunk (`Uninit` is the
content of the uninitialised local of `HashBuffer`). -/
def Append (SHA1 : List uint8 → Bytes 20) (Uninit : FIoChunkHash) (self : FIoStoreWriter)
    (ChunkId : FIoChunkId) (Chunk : List uint8) (WriteOptions : FIoWriteOptions) :
    FIoStatus × FIoStoreWriter :=
  self.AppendWithHash SHA1 ChunkId (FIoChunkHash.HashBuffer SHA1 Uninit Chunk Chunk.length)
    Chunk WriteOptions ⟨Uninit, rfl⟩

/-- Modelled from the spec: `FIoStoreWriter::Flush` is defined outside the given sources;
it "finalizes the table-of-contents, returns aggregate statistics (chunk count,
compressed/uncompressed totals, padding overhead)" and "fails with WriteError on I/O
failure" (`bIoFailed`). The result is what `Flush` returns and the container written, if
any. -/
def Flush (self : FIoStoreWriter) (bIoFailed : Bool) :
    TIoStatusOr FIoStoreWriterResult × Option FIoStoreContainer :=
  if bIoFailed then
    ({ StatusValue := FIoStatus.ofCode EIoErrorCode.WriteError, Value := none }, none)
  else
    (TIoStatusOr.ofValue
        { ContainerId := self.ContainerSettings.ContainerId,
          TocEntryCount := (self.Toc.length : Int),
          PaddingSize := (self.PaddingSize : Int),
          UncompressedContainerSize := ((self.Toc.map (fun e => e.Size)).sum : Nat),
          ContainerFlags := self.ContainerSettings.ContainerFlags },
      some { ContainerId := self.ContainerSettings.ContainerId,
             ContainerFlags := self.ContainerSettings.ContainerFlags,
             Toc := self.Toc, Data := self.Data })

end FIoStoreWriter

namespace FIoStoreReader

/-- Modelled from the spec: `FIoStoreReader::Initialize` is defined outside the given
sources; it "opens the container, loads its table of contents". `Container` is the
container found at the path of the environment, if any. -/
def Initialize (Container : Option FIoStoreContainer) : FIoStatus × FIoStoreReader :=
  match Container with
  | some c =>
    (FIoStatus.Ok,
      { ContainerId := c.ContainerId, ContainerFlags := c.ContainerFlags, Toc := c.Toc,
        Data := c.Data })
  | none =>
    (FIoStatus.ofCode EIoErrorCode.FileOpenFailed,
      { ContainerId := 0, ContainerFlags := EIoContainerFlags.None, Toc := [], Data := [] })

/-- Modelled from the spec: `FIoStoreReader::Read` is defined outside the given sources;
it looks the chunk up in the table of contents ("random-access lookup by chunk id"),
"fails with UnknownChunkID if absent, NotFound if the underlying file region is missing",
and otherwise returns the bytes of the region at the offset and of the size of the entry,
within the window of the read options. The buffer returned is given by its contents. -/
def Read (self : FIoStoreReader) (Chunk : FIoChunkId) (Options : FIoReadOptions) :
    TIoStatusOr (List uint8) :=
  match self.Toc.find? (fun e => e.Id.eq Chunk) with
  | none => { StatusValue := FIoStatus.ofCode EIoErrorCode.UnknownChunkID, Value := none }
  | some e =>
    if e.Offset + e.Size ≤ self.Data.length then
      let Region := (self.Data.drop e.Offset).take e.Size
      TIoStatusOr.ofValue ((Region.drop Options.GetOffset).take Options.GetSize)
    else { StatusValue := FIoStatus.ofCode EIoErrorCode.NotFound, Value := none }

end FIoStoreReader

/-- One call of `FIoStoreWriter::Append`, through one of its two overloads: with a
precomputed hash, or without one (`Uninit` is then the content of the uninitialised local
of `HashBuffer`). -/
inductive FIoStoreAppendCall (SHA1 : List uint8 → Bytes 20) where
  | WithHash (ChunkId : FIoChunkId) (ChunkHash : FIoChunkHash) (Chunk : List uint8)
      (WriteOptions : FIoWriteOptions)
      (Precomputed : ∃ Uninit : FIoChunkHash,
        ChunkHash = FIoChunkHash.HashBuffer SHA1 Uninit Chunk Chunk.length)
  | WithoutHash (Uninit : FIoChunkHash) (ChunkId : FIoChunkId) (Chunk : List uint8)
      (WriteOptions : FIoWriteOptions)

namespace FIoStoreAppendCall

variable {SHA1 : List uint8 → Bytes 20}

/-- The chunk id that the call passes. -/
def ChunkId : FIoStoreAppendCall SHA1 → FIoChunkId
  | .WithHash ChunkId _ _ _ _ => ChunkId
  | .WithoutHash _ ChunkId _ _ => ChunkId

/-- The bytes of the buffer that the call passes. -/
def Chunk : FIoStoreAppendCall SHA1 → List uint8
  | .WithHash _ _ Chunk _ _ => Chunk
  | .WithoutHash _ _ Chunk _ => Chunk

/-- The write options that the call passes. -/
def WriteOptions : FIoStoreAppendCall SHA1 → FIoWriteOptions
  | .WithHash _ _ _ WriteOptions _ => WriteOptions
  | .WithoutHash _ _ _ WriteOptions => WriteOptions

end FIoStoreAppendCall

/-- The status that one call of `Append` returns and the writer afterwards. -/
def FIoStoreWriter.AppendCall {SHA1 : List uint8 → Bytes 20} (self : FIoStoreWriter) :
    FIoStoreAppendCall SHA1 → FIoStatus × FIoStoreWriter
  | .WithHash ChunkId ChunkHash Chunk WriteOptions Precomputed =>
    self.AppendWithHash SHA1 ChunkId ChunkHash Chunk WriteOptions Precomputed
  | .WithoutHash Uninit ChunkId Chunk WriteOptions =>
    self.Append SHA1 Uninit ChunkId Chunk WriteOptions

/-- The writer after a sequence of calls of `Append`. -/
def FIoStoreWriter.AppendAll {SHA1 : List uint8 → Bytes 20} (self : FIoStoreWriter)
    (Calls : List (FIoStoreAppendCall SHA1)) : FIoStoreWriter :=
  Calls.foldl (fun w c => (w.AppendCall c).2) self

/-- A stand-in digest for evaluation: twenty bytes that each hold the length of the
input modulo 256. -/
def sampleDigest : List uint8 → Bytes 20 :=
  fun Data _ => ⟨Data.length % 256, Nat.mod_lt _ (by decide)⟩

/-- A sample call of `Append` without a precomputed hash: the chunk whose id starts with
1, with the bytes `[10, 20, 30]`. -/
def sampleCallComputed : FIoStoreAppendCall sampleDigest :=
  .WithoutHash ⟨fun _ => 5⟩ ⟨fun _ => 1⟩ [10, 20, 30] FIoWriteOptions.default

/-- A sample call of `Append` with a precomputed hash: the memory mapped chunk whose id
starts with 2, with the bytes `[7, 8]` and their `HashBuffer`. -/
def sampleCallPrecomputed : FIoStoreAppendCall sampleDigest :=
  .WithHash ⟨fun _ => 2⟩ (FIoChunkHash.HashBuffer sampleDigest ⟨fun _ => 9⟩ [7, 8] 2) [7, 8]
    { FIoWriteOptions.default with bIsMemoryMapped := true } ⟨⟨fun _ => 9⟩, rfl⟩

/-- A sample call of `Append` without a precomputed hash: the chunk whose id starts with
3, with the byte `[40]`. -/
def sampleCallLast : FIoStoreAppendCall sampleDigest :=
  .WithoutHash ⟨fun _ => 6⟩ ⟨fun _ => 3⟩ [40] FIoWriteOptions.default

/-- A sample writer context, whose settings align memory mapped chunks to 4 bytes. -/
def sampleWriterContext : FIoStoreWriterContext :=
  { WriterSettings := { FIoStoreWriterSettings.default with MemoryMappingAlignment := 4 } }

/-- Sample container settings: container 1 with no flag set. -/
def sampleContainerSettings : FIoContainerSettings :=
  { ContainerId := 1, ContainerFlags := EIoContainerFlags.None, EncryptionKeyGuid := 0,
    EncryptionKey := [], SigningKey := 0 }

/-! ## Copy and move of `TIoStatusOr<T>` -/

namespace TIoStatusOr

variable {T : Type}

/-- The copy constructor `TIoStatusOr(const TIoStatusOr& Other)`:
`StatusValue = Other.StatusValue;` and, when that status is `Ok`, the storage receives a
copy of the object in the storage of `Other`. -/
def ofCopy (Other : TIoStatusOr T) : Except Fault (TIoStatusOr T) :=
  let StatusValue := Other.StatusValue
  if StatusValue.IsOk then
    match Other.Value with
    | some v => .ok { StatusValue := StatusValue, Value := some v }
    | none => .error Fault.InvalidStorageRead
  else .ok { StatusValue := StatusValue, Value := none }

/-- The move constructor `TIoStatusOr(TIoStatusOr&& Other)`:
`StatusValue = Other.StatusValue;` and, when that status is `Ok`, the storage receives
the object moved out of the storage of `Other` and
`Other.StatusValue = EIoErrorCode::Unknown`. The result is the new object and `Other`
afterwards. -/
def ofMove (Other : TIoStatusOr T) : Except Fault (TIoStatusOr T × TIoStatusOr T) :=
  let StatusValue := Other.StatusValue
  if StatusValue.IsOk then
    match Other.Value with
    | some v =>
      .ok ({ StatusValue := StatusValue, Value := some v },
        { StatusValue := Other.StatusValue.assignCode EIoErrorCode.Unknown, Value := none })
    | none => .error Fault.InvalidStorageRead
  else .ok ({ StatusValue := StatusValue, Value := none }, Other)

/-- Member `operator=(const TIoStatusOr<T>& Other)`: nothing happens when
`&Other == this` (`Ref.Self`); otherwise `Reset()`, and then either the storage receives
a copy of the object of `Other` and `StatusValue = EIoErrorCode::Ok` (when the status of
`Other` is `Ok`), or `StatusValue = Other.StatusValue`. -/
def assignCopy (self : TIoStatusOr T) (Other : Ref (TIoStatusOr T)) :
    Except Fault (TIoStatusOr T) :=
  match Other with
  | .Self => .ok self
  | .Other o =>
    let x := self.Reset
    if o.StatusValue.IsOk then
      match o.Value with
      | some v => .ok { StatusValue := x.StatusValue.assignCode EIoErrorCode.Ok, Value := some v }
      | none => .error Fault.InvalidStorageRead
    else .ok { x with StatusValue := x.StatusValue.assign o.StatusValue }

/-- Member `operator=(TIoStatusOr<T>&& Other)`: nothing happens when `&Other == this`
(`Ref.Self`); otherwise `Reset()`, and then either the storage receives the object moved
out of `Other`, `Other.StatusValue = EIoErrorCode::Unknown` and
`StatusValue = EIoErrorCode::Ok` (when the status of `Other` is `Ok`), or
`StatusValue = Other.StatusValue`. The result is this object afterwards and, for a
distinct `Other`, that object afterwards. -/
def assignMove (self : TIoStatusOr T) (Other : Ref (TIoStatusOr T)) :
    Except Fault (TIoStatusOr T × Option (TIoStatusOr T)) :=
  match Other with
  | .Self => .ok (self, none)
  | .Other o =>
    let x := self.Reset
    if o.StatusValue.IsOk then
      match o.Value with
      | some v =>
        .ok ({ StatusValue := x.StatusValue.assignCode EIoErrorCode.Ok, Value := some v },
          some { StatusValue := o.StatusValue.assignCode EIoErrorCode.Unknown, Value := none })
      | none => .error Fault.InvalidStorageRead
    else .ok ({ x with StatusValue := x.StatusValue.assign o.StatusValue }, some o)

end TIoStatusOr

end IoDispatcher

/-!
# Slate widgets: a shallow embedding of `SSpinBox.h` and `SlateDebugging.cpp`

The spin box is modelled for an integral `NumericType`: its values are integers, the
limits of the type are a field of the widget. Delegates are modelled by the list of
calls a function makes on the bound ones; a failed `check` ends a computation with
`Fault.CheckFailed`.
-/

namespace Slate

/-- How a computation ends when it does not return normally. -/
inductive Fault where
  /-- A `check(...)` assertion did not hold. -/
  | CheckFailed
  deriving DecidableEq

/-- A `float` or `double` value, given by its IEEE-754 bit pattern; the functions
modelled here only store, copy and return such values. -/
abbrev float := Nat

/-- The attribute template `TAttribute<T>` (declared outside the given sources): it holds
a value or is bound to a getter. `Value` is the held value, or what the bound getter
returns; `bIsSet` records that a value or getter was ever assigned. -/
structure TAttribute (α : Type) where
  Value : α
  bIsSet : Bool
  Bound : Bool
  deriving DecidableEq

namespace TAttribute

variable {α : Type}

/-- The converting constructor from a plain value: set, not bound. -/
def ofValue (InValue : α) : TAttribute α :=
  { Value := InValue, bIsSet := true, Bound := false }

/-- Member `TAttribute::Get`. -/
def Get (self : TAttribute α) : α := self.Value

/-- Member `TAttribute::IsSet`. -/
def IsSet (self : TAttribute α) : Bool := self.bIsSet

/-- Member `TAttribute::IsBound`. -/
def IsBound (self : TAttribute α) : Bool := self.Bound

/-- Member `TAttribute::Set`: the attribute holds the new value and is no longer bound. -/
def Set (_self : TAttribute α) (InNewValue : α) : TAttribute α :=
  ofValue InNewValue

end TAttribute

/-- The limits `TNumericLimits<NumericType>` of the integral type the spin box is
instantiated with. -/
structure TNumericLimits where
  Min : Int
  Max : Int
  Lowest : Int
  deriving DecidableEq

/-- The limits of `int32`. -/
def TNumericLimits.int32 : TNumericLimits :=
  { Min := -2147483648, Max := 2147483647, Lowest := -2147483648 }

/-- The conversion of a `float` or `double` with an integral value to `NumericType`: the
value itself when the type can hold it. Otherwise the conversion is undefined in C++; the
conversion instruction of the target gives the lowest value of the type (the "integer
indefinite" of x86-64). -/
def TNumericLimits.FromFloatingPoint (Limits : TNumericLimits) (Value : Int) : Int :=
  if Limits.Lowest ≤ Value ∧ Value ≤ Limits.Max then Value else Limits.Lowest

/-- The result of an addition or subtraction computed in `NumericType`: the exact result
when the type can hold it. Otherwise signed overflow is undefined in C++; the arithmetic
of the target wraps around (two's complement). -/
def TNumericLimits.Wrap (Limits : TNumericLimits) (Value : Int) : Int :=
  Limits.Lowest + (Value - Limits.Lowest) % (Limits.Max - Limits.Lowest + 1)

/-- The distance between neighbouring `float` values at an integral magnitude: 1 below
`2 ^ 24`, and from there on twice the distance at half the magnitude. `Fuel` bounds the
halvings; the magnitude itself is enough. -/
def FloatSpacing : (Fuel : Nat) → (Magnitude : Nat) → Nat
  | 0, _ => 1
  | Fuel + 1, Magnitude =>
    if Magnitude < 2 ^ 24 then 1 else 2 * FloatSpacing Fuel (Magnitude / 2)

/-- The conversion of an integer to `float`, and the rounding of an exact integral result
to `float`: the nearest value with a 24-bit significand, a tie going to the even
significand (every integer below `2 ^ 24` in magnitude is kept). The result is given by
its value, again an integer; the magnitudes of the integer types are far below the
largest `float`. -/
def RoundToFloat (Value : Int) : Int :=
  let Magnitude := Value.natAbs
  let Unit := FloatSpacing Magnitude Magnitude
  let Significand := Magnitude / Unit
  let Remainder := Magnitude % Unit
  let Rounded :=
    if 2 * Remainder > Unit ∨ (2 * Remainder = Unit ∧ Significand % 2 = 1) then Significand + 1
    else Significand
  Int.sign Value * ((Rounded * Unit : Nat) : Int)

/-- The helper `FMath::Clamp(X, Min, Max)` (declared outside the given sources):
`X < Min ? Min : X < Max ? X : Max`. -/
def FMath.Clamp (X Min Max : Int) : Int :=
  if X < Min then Min else if X < Max then X else Max

/-- The helper `FMath::GridSnap(Location, Grid)` on `double` (declared outside the given
sources), which the source calls to "snap numeric point value to nearest Delta": the
multiple of `Grid` nearest to `Location`, computed as
`floor((Location + Grid / 2) / Grid) * Grid`, and `Location` itself when `Grid` is zero.
On integral values within the `int32` range the `double` arithmetic of the helper is
exact; the result is a `double` with an integral value, given by that value. -/
def FMath.GridSnap (Location Grid : Int) : Int :=
  if Grid = 0 then Location else Int.fdiv (2 * Location + Grid) (2 * Grid) * Grid

/-- The constant `INDEX_NONE`. -/
def INDEX_NONE : Int := -1

/-- Commit sources `ETextCommit::Type` (declared outside the given sources, which name
`Default` and `OnEnter`). -/
inductive ETextCommit where
  | Default
  | OnEnter
  | OnUserMovedFocus
  | OnCleared
  deriving DecidableEq

/-- Widget visibility `EVisibility` (declared outside the given sources, which name
`Visible` and `Collapsed`). -/
inductive EVisibility where
  | Visible
  | Collapsed
  deriving DecidableEq

/-- How the user changed the value in the spin box (`enum ECommitMethod`). -/
inductive ECommitMethod where
  | CommittedViaSpin
  | CommittedViaTypeIn
  | CommittedViaArrowKey
  | CommittedViaCode
  deriving DecidableEq

/-- A call that the spin box makes on one of its delegates, with the arguments passed
(the widget pointer handed to the slider delegates is left out). -/
inductive DelegateCall where
  | OnValueCommitted (Value : Int) (CommitInfo : ETextCommit)
  | OnValueChanged (Value : Int)
  | OnDynamicSliderMaxValueChanged (Value : Int) (bIsMax : Bool) (UpdateOnlyIfHigher : Bool)
  | OnDynamicSliderMinValueChanged (Value : Int) (bIsMin : Bool) (UpdateOnlyIfLower : Bool)
  deriving DecidableEq

/-- The members of `SSpinBox<NumericType>` that the functions below read or write, for an
integral `NumericType`. The four `...Bound` flags say whether the delegate of that name
is bound, `MouseCapture` is what `HasMouseCapture()` returns, the two visibilities are
those of the `TextBlock` and `EditableText` child widgets, and `bIsTextChanging` is the
guard that `TextField_OnTextChanged` sets while it runs. -/
structure SSpinBox where
  Limits : TNumericLimits
  ValueAttribute : TAttribute Int
  OnValueChangedBound : Bool
  OnValueCommittedBound : Bool
  OnDynamicSliderMaxValueChangedBound : Bool
  OnDynamicSliderMinValueChangedBound : Bool
  MinValue : TAttribute (Option Int)
  MaxValue : TAttribute (Option Int)
  MinSliderValue : TAttribute (Option Int)
  MaxSliderValue : TAttribute (Option Int)
  AlwaysUsesDeltaSnap : TAttribute Bool
  Delta : TAttribute Int
  SupportDynamicSliderMaxValue : TAttribute Bool
  SupportDynamicSliderMinValue : TAttribute Bool
  SliderExponent : TAttribute float
  MinDesiredWidth : TAttribute float
  bUnlimitedSpinRange : Bool
  CachedExternalValue : Int
  IntermediateDragFractionalValue : float
  bDragging : Bool
  PointerDraggingSliderIndex : Int
  MouseCapture : Bool
  TextBlockVisibility : EVisibility
  EditableTextVisibility : EVisibility
  bIsTextChanging : Bool
  deriving DecidableEq

namespace SSpinBox

/-- Member `GetMinValue`: `MinValue.Get().Get(TNumericLimits<NumericType>::Lowest())`. -/
def GetMinValue (self : SSpinBox) : Int := self.MinValue.Get.getD self.Limits.Lowest

/-- Member `GetMaxValue`: `MaxValue.Get().Get(TNumericLimits<NumericType>::Max())`. -/
def GetMaxValue (self : SSpinBox) : Int := self.MaxValue.Get.getD self.Limits.Max

/-- Member `GetMinSliderValue`. -/
def GetMinSliderValue (self : SSpinBox) : Int := self.MinSliderValue.Get.getD self.Limits.Lowest

/-- Member `GetMaxSliderValue`. -/
def GetMaxSliderValue (self : SSpinBox) : Int := self.MaxSliderValue.Get.getD self.Limits.Max

/-- Member `UpdateIsSpinRangeUnlimited`. -/
def UpdateIsSpinRangeUnlimited (self : SSpinBox) : SSpinBox :=
  { self with bUnlimitedSpinRange :=
      !((self.MinValue.Get.isSome && self.MaxValue.Get.isSome) ||
        (self.MinSliderValue.Get.isSome && self.MaxSliderValue.Get.isSome)) }

/-- Member `SetMinSliderValue`. -/
def SetMinSliderValue (self : SSpinBox) (InMinSliderValue : TAttribute (Option Int)) : SSpinBox :=
  let self := { self with MinSliderValue :=
    if InMinSliderValue.Get.isSome then InMinSliderValue else self.MinValue }
  self.UpdateIsSpinRangeUnlimited

/-- Member `SetMaxSliderValue`. -/
def SetMaxSliderValue (self : SSpinBox) (InMaxSliderValue : TAttribute (Option Int)) : SSpinBox :=
  let self := { self with MaxSliderValue :=
    if InMaxSliderValue.Get.isSome then InMaxSliderValue else self.MaxValue }
  self.UpdateIsSpinRangeUnlimited

/-- Member `GetAlwaysUsesDeltaSnap`. -/
def GetAlwaysUsesDeltaSnap (self : SSpinBox) : Bool := self.AlwaysUsesDeltaSnap.Get

/-- Member `GetSliderExponent`: `return SliderExponent.Get();`. -/
def GetSliderExponent (self : SSpinBox) : float := self.SliderExponent.Get

/-- Member `SetSliderExponent`. -/
def SetSliderExponent (self : SSpinBox) (InSliderExponent : TAttribute float) : SSpinBox :=
  { self with SliderExponent := InSliderExponent }

/-- Member `GetMinDesiredWidth`: `return SliderExponent.Get();`. -/
def GetMinDesiredWidth (self : SSpinBox) : float := self.SliderExponent.Get

/-- Member `SetMinDesiredWidth`: `MinDesiredWidth = InMinDesiredWidth;`. -/
def SetMinDesiredWidth (self : SSpinBox) (InMinDesiredWidth : TAttribute float) : SSpinBox :=
  { self with MinDesiredWidth := InMinDesiredWidth }

/-- Member `EnterTextMode`. -/
def EnterTextMode (self : SSpinBox) : SSpinBox :=
  { self with TextBlockVisibility := EVisibility.Collapsed,
              EditableTextVisibility := EVisibility.Visible }

/-- Member `ExitTextMode`. -/
def ExitTextMode (self : SSpinBox) : SSpinBox :=
  { self with TextBlockVisibility := EVisibility.Visible,
              EditableTextVisibility := EVisibility.Collapsed }

/-- Member `ApplySliderMaxValueChanged`, which begins with
`check(SupportDynamicSliderMaxValue.Get())`. `SliderDeltaToAdd` is a `float`; the model
covers the floats with an integral value, given by that value, among them every delta
that `Construct` and `CommitValue` pass (an integer that `float` cannot hold stands for
the `float` that the conversion at the call gives). `NewMaxSliderValue + SliderDeltaToAdd` is a
`float` addition (the integer is converted first and the sum is rounded), the comparison
converts `GetMaxSliderValue()` to `float`, and `+=` converts the sum back to
`NumericType`. The result is the widget afterwards and the delegate calls made. -/
def ApplySliderMaxValueChanged (self : SSpinBox) (SliderDeltaToAdd : Int)
    (UpdateOnlyIfHigher : Bool) : Except Fault (SSpinBox × List DelegateCall) :=
  if !self.SupportDynamicSliderMaxValue.Get then .error Fault.CheckFailed
  else
    let SliderDeltaToAdd := RoundToFloat SliderDeltaToAdd
    let NewMaxSliderValue : Int := self.Limits.Min
    let (self, NewMaxSliderValue) :=
      if self.MaxSliderValue.IsSet && self.MaxSliderValue.Get.isSome then
        let NewMaxSliderValue := self.GetMaxSliderValue
        if (decide (RoundToFloat (RoundToFloat NewMaxSliderValue + SliderDeltaToAdd)
              > RoundToFloat self.GetMaxSliderValue)
            && UpdateOnlyIfHigher) || !UpdateOnlyIfHigher then
          let NewMaxSliderValue := self.Limits.FromFloatingPoint
            (RoundToFloat (RoundToFloat NewMaxSliderValue + SliderDeltaToAdd))
          if !self.MaxSliderValue.IsBound then
            (self.SetMaxSliderValue (TAttribute.ofValue (some NewMaxSliderValue)),
              NewMaxSliderValue)
          else (self, NewMaxSliderValue)
        else (self, NewMaxSliderValue)
      else (self, NewMaxSliderValue)
    if self.OnDynamicSliderMaxValueChangedBound then
      .ok (self, [DelegateCall.OnDynamicSliderMaxValueChanged NewMaxSliderValue true
        UpdateOnlyIfHigher])
    else .ok (self, [])

/-- Member `ApplySliderMinValueChanged`, which begins with
`check(SupportDynamicSliderMaxValue.Get())`. `SliderDeltaToAdd` is a `float`; the model
covers the floats with an integral value, given by that value, among them every delta
that `Construct` and `CommitValue` pass (an integer that `float` cannot hold stands for
the `float` that the conversion at the call gives). `NewMinSliderValue + SliderDeltaToAdd` is a
`float` addition (the integer is converted first and the sum is rounded), the comparison
converts `GetMinSliderValue()` to `float`, and `+=` converts the sum back to
`NumericType`. The result is the widget afterwards and the delegate calls made. -/
def ApplySliderMinValueChanged (self : SSpinBox) (SliderDeltaToAdd : Int)
    (UpdateOnlyIfLower : Bool) : Except Fault (SSpinBox × List DelegateCall) :=
  if !self.SupportDynamicSliderMaxValue.Get then .error Fault.CheckFailed
  else
    let SliderDeltaToAdd := RoundToFloat SliderDeltaToAdd
    let NewMinSliderValue : Int := self.Limits.Min
    let (self, NewMinSliderValue) :=
      if self.MinSliderValue.IsSet && self.MinSliderValue.Get.isSome then
        let NewMinSliderValue := self.GetMinSliderValue
        if (decide (RoundToFloat (RoundToFloat NewMinSliderValue + SliderDeltaToAdd)
              < RoundToFloat self.GetMinSliderValue)
            && UpdateOnlyIfLower) || !UpdateOnlyIfLower then
          let NewMinSliderValue := self.Limits.FromFloatingPoint
            (RoundToFloat (RoundToFloat NewMinSliderValue + SliderDeltaToAdd))
          if !self.MinSliderValue.IsBound then
            (self.SetMinSliderValue (TAttribute.ofValue (some NewMinSliderValue)),
              NewMinSliderValue)
          else (self, NewMinSliderValue)
        else (self, NewMinSliderValue)
      else (self, NewMinSliderValue)
    if self.OnDynamicSliderMinValueChangedBound then
      .ok (self, [DelegateCall.OnDynamicSliderMinValueChanged NewMinSliderValue true
        UpdateOnlyIfLower])
    else .ok (self, [])

/-- The part of `CommitValue` up to the delta snap: the value that the rest of the
function commits, and the widget with `IntermediateDragFractionalValue` reset when the
commit is not a spin. The snap is computed in `double` and its result is converted back
to `NumericType`. -/
def CommitValue.valueToCommit (self : SSpinBox) (NewValue : Int) (CommitMethod : ECommitMethod) :
    Int × SSpinBox :=
  let ValueToCommit := NewValue
  let ValueToCommit :=
    if CommitMethod = .CommittedViaSpin ∨ CommitMethod = .CommittedViaArrowKey then
      FMath.Clamp ValueToCommit self.GetMinSliderValue self.GetMaxSliderValue
    else ValueToCommit
  let ValueToCommit := FMath.Clamp ValueToCommit self.GetMinValue self.GetMaxValue
  let (ValueToCommit, self) :=
    if CommitMethod = .CommittedViaSpin then
      let CurrentValue := self.ValueAttribute.Get
      (if CurrentValue ≠ self.CachedExternalValue then CurrentValue else ValueToCommit, self)
    else (ValueToCommit, { self with IntermediateDragFractionalValue := 0 })
  let bAlwaysUsesDeltaSnap := self.GetAlwaysUsesDeltaSnap
  let ValueToCommit :=
    if CommitMethod = .CommittedViaSpin ∨ CommitMethod = .CommittedViaArrowKey
        ∨ bAlwaysUsesDeltaSnap = true then
      let CurrentDelta := self.Delta.Get
      if CurrentDelta ≠ 0 then
        self.Limits.FromFloatingPoint (FMath.GridSnap ValueToCommit CurrentDelta)
      else ValueToCommit
    else ValueToCommit
  (ValueToCommit, self)

/-- The dynamic slider update of `CommitValue`: the maximum (or else the minimum) of the
slider follows a value that lies beyond it, when the matching `SupportDynamicSlider...`
attribute is true. The difference is computed in `NumericType` and converted to the
`float` parameter. -/
def CommitValue.applyDynamicSlider (self : SSpinBox) (ValueToCommit : Int) :
    Except Fault (SSpinBox × List DelegateCall) :=
  if self.SupportDynamicSliderMaxValue.Get = true ∧ ValueToCommit > self.GetMaxSliderValue then
    self.ApplySliderMaxValueChanged
      (RoundToFloat (self.Limits.Wrap (ValueToCommit - self.GetMaxSliderValue))) true
  else if self.SupportDynamicSliderMinValue.Get = true
      ∧ ValueToCommit < self.GetMinSliderValue then
    self.ApplySliderMinValueChanged
      (RoundToFloat (self.Limits.Wrap (ValueToCommit - self.GetMinSliderValue))) true
  else .ok (self, [])

/-- The end of `CommitValue`: the store into an unbound `Value` attribute, the refresh of
`CachedExternalValue`, and the reset of the drag state without mouse capture. -/
def CommitValue.store (self : SSpinBox) (ValueToCommit : Int) : SSpinBox :=
  let self :=
    if !self.ValueAttribute.IsBound then
      { self with ValueAttribute := self.ValueAttribute.Set ValueToCommit }
    else self
  let self := { self with CachedExternalValue := self.ValueAttribute.Get }
  if !self.MouseCapture then
    { self with bDragging := false, PointerDraggingSliderIndex := INDEX_NONE }
  else self

/-- Member `CommitValue`: clamp and delta snap, the dynamic slider update, then the calls
of `OnValueCommitted` and `OnValueChanged`, the store into an unbound `Value` attribute
and the refresh of `CachedExternalValue`. The result is the widget afterwards and the
delegate calls made, in order. -/
def CommitValue (self : SSpinBox) (NewValue : Int) (CommitMethod : ECommitMethod)
    (OriginalCommitInfo : ETextCommit) : Except Fault (SSpinBox × List DelegateCall) :=
  let (ValueToCommit, self) := CommitValue.valueToCommit self NewValue CommitMethod
  match CommitValue.applyDynamicSlider self ValueToCommit with
  | .error f => .error f
  | .ok (self, SliderCalls) =>
    let CommittedCalls :=
      if (CommitMethod = .CommittedViaTypeIn ∨ CommitMethod = .CommittedViaArrowKey)
          ∧ self.OnValueCommittedBound = true then
        [DelegateCall.OnValueCommitted ValueToCommit OriginalCommitInfo]
      else []
    let ChangedCalls :=
      if self.OnValueChangedBound then [DelegateCall.OnValueChanged ValueToCommit] else []
    .ok (CommitValue.store self ValueToCommit, SliderCalls ++ CommittedCalls ++ ChangedCalls)

/-- Member `TextField_OnTextCommitted`. `FromString` stands for
`Interface->FromString`, the conversion of the numeric type interface (declared outside
the given sources). -/
def TextField_OnTextCommitted (FromString : String → Int → Option Int) (self : SSpinBox)
    (NewText : String) (CommitInfo : ETextCommit) :
    Except Fault (SSpinBox × List DelegateCall) :=
  let self := if CommitInfo ≠ ETextCommit.OnEnter then self.ExitTextMode else self
  let NewValue := FromString NewText self.ValueAttribute.Get
  match NewValue with
  | some v => self.CommitValue v ECommitMethod.CommittedViaTypeIn CommitInfo
  | none => .ok (self, [])

/-- A spin box as `SLATE_BEGIN_ARGS` and `Construct` leave it when no argument is given,
for `int32`: value 0, no limits, no delta, nothing bound, slider exponent 1 (bit pattern
of `1.0f`), minimum desired width 0. -/
def defaults : SSpinBox :=
  { Limits := TNumericLimits.int32
    ValueAttribute := TAttribute.ofValue 0
    OnValueChangedBound := false
    OnValueCommittedBound := false
    OnDynamicSliderMaxValueChangedBound := false
    OnDynamicSliderMinValueChangedBound := false
    MinValue := { Value := none, bIsSet := false, Bound := false }
    MaxValue := { Value := none, bIsSet := false, Bound := false }
    MinSliderValue := { Value := none, bIsSet := false, Bound := false }
    MaxSliderValue := { Value := none, bIsSet := false, Bound := false }
    AlwaysUsesDeltaSnap := TAttribute.ofValue false
    Delta := TAttribute.ofValue 0
    SupportDynamicSliderMaxValue := TAttribute.ofValue false
    SupportDynamicSliderMinValue := TAttribute.ofValue false
    SliderExponent := TAttribute.ofValue 0x3F800000
    MinDesiredWidth := TAttribute.ofValue 0
    bUnlimitedSpinRange := true
    CachedExternalValue := 0
    IntermediateDragFractionalValue := 0
    bDragging := false
    PointerDraggingSliderIndex := INDEX_NONE
    MouseCapture := false
    TextBlockVisibility := EVisibility.Visible
    EditableTextVisibility := EVisibility.Collapsed
    bIsTextChanging := false }

/-- A spin box with the limits 0 and 11 (the slider limits default to them, as in
`Construct`), delta 4, delta snapping of typed values switched on and both value
delegates bound. -/
def snapSample : SSpinBox :=
  { defaults with
    MinValue := TAttribute.ofValue (some 0)
    MaxValue := TAttribute.ofValue (some 11)
    MinSliderValue := TAttribute.ofValue (some 0)
    MaxSliderValue := TAttribute.ofValue (some 11)
    Delta := TAttribute.ofValue 4
    AlwaysUsesDeltaSnap := TAttribute.ofValue true
    OnValueCommittedBound := true
    OnValueChangedBound := true
    bUnlimitedSpinRange := false }

/-- A spin box with the limits 0 and 11 and no delta snapping, both value delegates
bound. -/
def plainSample : SSpinBox :=
  { defaults with
    MinValue := TAttribute.ofValue (some 0)
    MaxValue := TAttribute.ofValue (some 11)
    MinSliderValue := TAttribute.ofValue (some 0)
    MaxSliderValue := TAttribute.ofValue (some 11)
    OnValueCommittedBound := true
    OnValueChangedBound := true
    bUnlimitedSpinRange := false }

/-- A spin box that snaps typed values to multiples of 4 and whose maximum is the largest
`int32`. -/
def snapLimitSample : SSpinBox :=
  { snapSample with MaxValue := TAttribute.ofValue (some 2147483647) }

/-- A spin box with the slider range 0 to 16777217, a maximum that `float` cannot hold,
whose `SupportDynamicSliderMaxValue` is true. -/
def dynamicMaxSample : SSpinBox :=
  { defaults with
    MinSliderValue := TAttribute.ofValue (some 0)
    MaxSliderValue := TAttribute.ofValue (some 16777217)
    SupportDynamicSliderMaxValue := TAttribute.ofValue true
    bUnlimitedSpinRange := false }

/-- A spin box with the slider range 0 to 10 and no value limits, whose
`SupportDynamicSliderMinValue` is true and whose `SupportDynamicSliderMaxValue` is
false. -/
def dynamicMinSample : SSpinBox :=
  { defaults with
    MinSliderValue := TAttribute.ofValue (some 0)
    MaxSliderValue := TAttribute.ofValue (some 10)
    SupportDynamicSliderMinValue := TAttribute.ofValue true
    bUnlimitedSpinRange := false }

end SSpinBox

/-! ## Invalidation debugging (`SlateDebugging.cpp`) -/

/-- Handle to a widget proxy (`FWidgetProxyHandle`, declared outside the given sources):
the invalidation root it belongs to, as the address of that root, and its index. -/
structure FWidgetProxyHandle where
  InvalidationRoot : Nat
  Index : Int
  deriving DecidableEq

/-- Member `FWidgetProxyHandle::GetInvalidationRoot`. -/
def FWidgetProxyHandle.GetInvalidationRoot (self : FWidgetProxyHandle) : Nat :=
  self.InvalidationRoot

/-- Member `FWidgetProxyHandle::GetIndex`. -/
def FWidgetProxyHandle.GetIndex (self : FWidgetProxyHandle) : Int := self.Index

/-- Drawer of one invalidated widget (`struct FInvalidatedWidgetDrawer`); of its members
the functions below read the proxy handle. -/
structure FInvalidatedWidgetDrawer where
  ProxyHandle : FWidgetProxyHandle
  StartTime : Nat
  deriving DecidableEq

/-- The array operation `TArray::RemoveAtSwap(Index, 1, false)` (declared outside the
given sources): the element at `Index` is removed by moving the last element of the
array into its place, so the array gets one shorter and keeps no other order. -/
def TArray.RemoveAtSwap {α : Type} (Array : List α) (Index : Nat) : List α :=
  match Array.getLast? with
  | some Last => (Array.set Index Last).dropLast
  | none => Array

/-- The loop of `FSlateDebugging::ClearInvalidatedWidgets`, with the array and
`DrawerIdx` as loop state; `none` when `Fuel` iterations do not reach the end. -/
def ClearInvalidatedWidgets.loop (Root : Nat) :
    (Fuel : Nat) → (InvalidatedWidgetDrawers : List FInvalidatedWidgetDrawer) →
    (DrawerIdx : Nat) → Option (List FInvalidatedWidgetDrawer)
  | 0, _, _ => none
  | Fuel + 1, InvalidatedWidgetDrawers, DrawerIdx =>
    if h : DrawerIdx < InvalidatedWidgetDrawers.length then
      let Drawer := InvalidatedWidgetDrawers.get ⟨DrawerIdx, h⟩
      if Drawer.ProxyHandle.GetInvalidationRoot = Root then
        ClearInvalidatedWidgets.loop Root Fuel
          (TArray.RemoveAtSwap InvalidatedWidgetDrawers DrawerIdx) (DrawerIdx + 1)
      else
        ClearInvalidatedWidgets.loop Root Fuel InvalidatedWidgetDrawers (DrawerIdx + 1)
    else some InvalidatedWidgetDrawers

/-- The function `FSlateDebugging::ClearInvalidatedWidgets(Root)` on the static array
`InvalidatedWidgetDrawers`; the result is the array afterwards. Every iteration
increases `DrawerIdx` and none lengthens the array, so one more iteration than the
array has elements is enough fuel. -/
def ClearInvalidatedWidgets (Root : Nat)
    (InvalidatedWidgetDrawers : List FInvalidatedWidgetDrawer) :
    Option (List FInvalidatedWidgetDrawer) :=
  ClearInvalidatedWidgets.loop Root (InvalidatedWidgetDrawers.length + 1)
    InvalidatedWidgetDrawers 0

/-! ## Text validation of the spin box -/

namespace SSpinBox

/-- Member `GetValueAsString`: `Interface->ToString(ValueAttribute.Get())`. `ToString`
stands for the conversion of the numeric type interface (declared outside the given
sources). -/
def GetValueAsString (ToString : Int → String) (self : SSpinBox) : String :=
  ToString self.ValueAttribute.Get

/-- The validation loop of `TextField_OnTextChanged`: `Remaining` iterations are left,
the next one tests `Data[Index]`; the first character that is not valid ends the loop
with `NumValidChars = Index`. -/
def TextField_OnTextChanged.loop (IsCharacterValid : Char → Bool) (Data : List Char) :
    (Remaining : Nat) → (Index : Nat) → (NumValidChars : Nat) → Nat
  | 0, _, NumValidChars => NumValidChars
  | Remaining + 1, Index, NumValidChars =>
    if !IsCharacterValid (Data.getD Index (Char.ofNat 0)) then Index
    else TextField_OnTextChanged.loop IsCharacterValid Data Remaining (Index + 1) NumValidChars

/-- Member `TextField_OnTextChanged`. `IsCharacterValid` and `ToString` stand for the
functions of the numeric type interface (declared outside the given sources). The result
is the widget afterwards and the texts passed to `EditableText->SetText`, in order. The
guard `bIsTextChanging` is set while the function runs, so the change notification that
`SetText` sends back to this function does nothing, and is restored on return. -/
def TextField_OnTextChanged (IsCharacterValid : Char → Bool) (ToString : Int → String)
    (self : SSpinBox) (NewText : String) : SSpinBox × List String :=
  if !self.bIsTextChanging then
    let OldValue := self.bIsTextChanging
    let self := { self with bIsTextChanging := true }
    let Data := NewText.toList
    let NumValidChars := Data.length
    let NumValidChars :=
      TextField_OnTextChanged.loop IsCharacterValid Data Data.length 0 NumValidChars
    let SetTextCalls :=
      if NumValidChars < Data.length then
        let ValidData :=
          if NumValidChars > 0 then String.mk (Data.take NumValidChars)
          else self.GetValueAsString ToString
        [ValidData]
      else []
    ({ self with bIsTextChanging := OldValue }, SetTextCalls)
  else (self, [])

end SSpinBox

/-! ## Drawing the invalidated widgets -/

/-- The element access `Array[Index]` of `TArray` for an `int` index (declared outside
the given sources): `none` for an index outside the array, which the range check of the
array rejects. -/
def TArray.getElem {α : Type} (Array : List α) (Index : Int) : Option α :=
  if Index < 0 then none else Array[Index.toNat]?

/-- The loop of `FSlateDebugging::DrawInvalidatedWidgets`, with the array, `DrawerIdx`
(an `int`), the element list and the record of the `Draw` calls made so far as loop
state. `Draw` stands for `FInvalidatedWidgetDrawer::Draw`: its result depends on the
fade curve and the widget proxy of the drawer (declared outside the given sources), and
it adds to the element list; it does not write to the drawer. A call is recorded with
the drawer it was made on and the result it returned. The result is `none` when `Fuel`
iterations do not reach the end or an index outside the array is read. The member
function of the source is `FInvalidatedWidgetDrawer.Draw` below, for a given context. -/
def DrawInvalidatedWidgets.loop {FPaintArgs FSlateWindowElementList : Type}
    (Draw : FInvalidatedWidgetDrawer → FPaintArgs → FSlateWindowElementList →
      Bool × FSlateWindowElementList)
    (Root : Nat) (PaintArgs : FPaintArgs) :
    (Fuel : Nat) → (InvalidatedWidgetDrawers : List FInvalidatedWidgetDrawer) →
    (DrawerIdx : Int) → (OutDrawElements : FSlateWindowElementList) →
    (Calls : List (FInvalidatedWidgetDrawer × Bool)) →
    Option (List FInvalidatedWidgetDrawer × FSlateWindowElementList ×
      List (FInvalidatedWidgetDrawer × Bool))
  | 0, _, _, _, _ => none
  | Fuel + 1, InvalidatedWidgetDrawers, DrawerIdx, OutDrawElements, Calls =>
    if DrawerIdx < InvalidatedWidgetDrawers.length then
      match TArray.getElem InvalidatedWidgetDrawers DrawerIdx with
      | none => none
      | some Drawer =>
        if Drawer.ProxyHandle.GetInvalidationRoot = Root then
          let Drawn := Draw Drawer PaintArgs OutDrawElements
          let OutDrawElements := Drawn.2
          let Calls := Calls ++ [(Drawer, Drawn.1)]
          if !Drawn.1 then
            let InvalidatedWidgetDrawers :=
              TArray.RemoveAtSwap InvalidatedWidgetDrawers DrawerIdx.toNat
            let DrawerIdx := DrawerIdx - 1
            DrawInvalidatedWidgets.loop Draw Root PaintArgs Fuel InvalidatedWidgetDrawers
              (DrawerIdx + 1) OutDrawElements Calls
          else
            DrawInvalidatedWidgets.loop Draw Root PaintArgs Fuel InvalidatedWidgetDrawers
              (DrawerIdx + 1) OutDrawElements Calls
        else
          DrawInvalidatedWidgets.loop Draw Root PaintArgs Fuel InvalidatedWidgetDrawers
            (DrawerIdx + 1) OutDrawElements Calls
    else some (InvalidatedWidgetDrawers, OutDrawElements, Calls)

/-- What `FInvalidatedWidgetDrawer::Draw` reads and calls outside the given sources:
the validity of a proxy handle, whether the fade curve of a drawer is at its end, the
widget of a proxy (`0` is `nullptr`), whether the persistent state of a widget has an
initial clip state, and the three changes made to the element list. -/
structure FDrawContext (FSlateWindowElementList : Type) where
  IsValid : FWidgetProxyHandle → Bool
  IsAtEnd : FInvalidatedWidgetDrawer → Bool
  Widget : FWidgetProxyHandle → Nat
  InitialClipStateIsSet : Nat → Bool
  PushClippingState : Nat → FSlateWindowElementList → FSlateWindowElementList
  MakeBox : FInvalidatedWidgetDrawer → Nat → FSlateWindowElementList → FSlateWindowElementList
  PopClip : FSlateWindowElementList → FSlateWindowElementList

/-- Member `FInvalidatedWidgetDrawer::Draw(PaintArgs, ElementList)`: when the proxy handle
is valid, the fade curve is not at its end and the proxy has a widget, a box is added to
the element list (inside the initial clip state of the widget, if set) and the result is
true; otherwise nothing is drawn and the result is false. -/
def FInvalidatedWidgetDrawer.Draw {FPaintArgs FSlateWindowElementList : Type}
    (Context : FDrawContext FSlateWindowElementList) (self : FInvalidatedWidgetDrawer)
    (_PaintArgs : FPaintArgs) (ElementList : FSlateWindowElementList) :
    Bool × FSlateWindowElementList :=
  if Context.IsValid self.ProxyHandle && !Context.IsAtEnd self
      && Context.Widget self.ProxyHandle != 0 then
    let Widget := Context.Widget self.ProxyHandle
    let ElementList :=
      if Context.InitialClipStateIsSet Widget then Context.PushClippingState Widget ElementList
      else ElementList
    let ElementList := Context.MakeBox self Widget ElementList
    let ElementList :=
      if Context.InitialClipStateIsSet Widget then Context.PopClip ElementList
      else ElementList
    (true, ElementList)
  else (false, ElementList)

/-- The function `FSlateDebugging::DrawInvalidatedWidgets(Root, PaintArgs,
OutDrawElements)` on the static array `InvalidatedWidgetDrawers`; the result is the
array and the element list afterwards and the `Draw` calls made, in order. Every
iteration deals with one more drawer of the array, so one more iteration than the array
has elements is enough fuel. -/
def DrawInvalidatedWidgets {FPaintArgs FSlateWindowElementList : Type}
    (Draw : FInvalidatedWidgetDrawer → FPaintArgs → FSlateWindowElementList →
      Bool × FSlateWindowElementList)
    (Root : Nat) (PaintArgs : FPaintArgs) (OutDrawElements : FSlateWindowElementList)
    (InvalidatedWidgetDrawers : List FInvalidatedWidgetDrawer) :
    Option (List FInvalidatedWidgetDrawer × FSlateWindowElementList ×
      List (FInvalidatedWidgetDrawer × Bool)) :=
  DrawInvalidatedWidgets.loop Draw Root PaintArgs (InvalidatedWidgetDrawers.length + 1)
    InvalidatedWidgetDrawers 0 OutDrawElements []

/-- A `Draw` that succeeds for the drawers with an even proxy index and counts its calls
in the element list. -/
def sampleDraw (Drawer : FInvalidatedWidgetDrawer) (_PaintArgs : Unit) (Count : Nat) :
    Bool × Nat :=
  (decide (Drawer.ProxyHandle.GetIndex % 2 = 0), Count + 1)

/-- Five drawers: four of the root at address 1 (proxy indices 0 to 3) and one of the
root at address 2. -/
def sampleDrawers : List FInvalidatedWidgetDrawer :=
  [⟨⟨1, 0⟩, 0⟩, ⟨⟨1, 1⟩, 0⟩, ⟨⟨2, 0⟩, 0⟩, ⟨⟨1, 2⟩, 0⟩, ⟨⟨1, 3⟩, 0⟩]

/-- A context in which every proxy handle is valid and has the widget at address 1, no
widget has an initial clip state, and the fade curve is at its end for the drawers with
an odd proxy index; the element list counts the boxes made. -/
def sampleContext : FDrawContext Nat :=
  { IsValid := fun _ => true
    IsAtEnd := fun Drawer => decide (Drawer.ProxyHandle.GetIndex % 2 = 1)
    Widget := fun _ => 1
    InitialClipStateIsSet := fun _ => false
    PushClippingState := fun _ ElementList => ElementList
    MakeBox := fun _ _ ElementList => ElementList + 1
    PopClip := fun ElementList => ElementList }

end Slate

/-!
# Ray tracing entry points: a shallow embedding of `ParseRayTracingEntryPoint`
(`D3DShaderCompilerDXC.cpp`)

Strings are lists of characters (the characters before the terminating zero). The
string helpers `FString::Find`, `FString::Mid`, `FCString::Stristr` and `TChar::ToUpper`
are declared outside the given sources and are modelled from their documented
behaviour; lengths and indices are `int32` values far below the limit of that type and
are modelled by integers.
-/

namespace ShaderFormatD3D

/-- One character (`TCHAR`). -/
abbrev TCHAR := Char

/-- A string (`FString`, or a zero-terminated `const TCHAR*`): its characters in order. -/
abbrev FString := List TCHAR

/-- The literal `TEXT("...")`. -/
def TEXT (Literal : String) : FString := Literal.toList

/-- The constant `INDEX_NONE`. -/
def INDEX_NONE : Int := -1

/-- The helper `FMath::Clamp(X, Min, Max)` (declared outside the given sources):
`X < Min ? Min : X < Max ? X : Max`. -/
def FMath.Clamp (X Min Max : Int) : Int :=
  if X < Min then Min else if X < Max then X else Max

/-- The helper `TChar<TCHAR>::ToUpper` (declared outside the given sources): the letters
`a` to `z` become `A` to `Z`, every other character is kept. -/
def TChar.ToUpper (Char : TCHAR) : TCHAR := Char.toUpper

/-- The test `FCString::Strnicmp(Str, Find, Length) == 0` for a `Find` of `Length`
characters: the first `Length` characters of `Str` agree with those of `Find` up to
case; a `Str` that ends earlier does not agree. -/
def FCString.StartsWithIgnoreCase : (Str Find : FString) → Bool
  | _, [] => true
  | [], _ :: _ => false
  | StrChar :: Str, FindChar :: Find =>
    TChar.ToUpper StrChar == TChar.ToUpper FindChar && FCString.StartsWithIgnoreCase Str Find

/-- The helper `FCString::Stristr(Str, Find)` (declared outside the given sources): the
offset in `Str` of the first place where `Find` occurs up to case, `none` (a null
pointer) when there is no such place or `Find` is empty. -/
def FCString.Stristr : (Str Find : FString) → Option Nat
  | [], _ => none
  | StrChar :: Str, Find =>
    if Find ≠ [] ∧ FCString.StartsWithIgnoreCase (StrChar :: Str) Find = true then some 0
    else (FCString.Stristr Str Find).map (fun Offset => Offset + 1)

/-- Member `FString::Len`. -/
def FString.Len (self : FString) : Int := self.length

/-- Member `FString::IsEmpty`. -/
def FString.IsEmpty (self : FString) : Bool := self.isEmpty

/-- Member `FString::Find(SubStr, ESearchCase::IgnoreCase, ESearchDir::FromStart,
StartPosition)` (declared outside the given sources): the search starts at
`StartPosition` clamped into the string (at the first character for `INDEX_NONE`) and
returns the index of the first occurrence from there, or `INDEX_NONE`. -/
def FString.Find (self SubStr : FString) (StartPosition : Int) : Int :=
  let Start : Int :=
    if StartPosition ≠ INDEX_NONE then FMath.Clamp StartPosition 0 (FString.Len self - 1) else 0
  match FCString.Stristr (self.drop Start.toNat) SubStr with
  | some Offset => Start + Offset
  | none => INDEX_NONE

/-- Member `FString::Mid(Start, Count)` (declared outside the given sources): the
substring of `Count` characters from index `Start`, both clamped to the string. -/
def FString.Mid (self : FString) (Start Count : Int) : FString :=
  if Count ≥ 0 then
    let Length := FString.Len self
    let RequestedStart := Start
    let Start := FMath.Clamp Start 0 Length
    let End := FMath.Clamp (Count + RequestedStart) Start Length
    (self.drop Start.toNat).take (End - Start).toNat
  else []

/-- The helper `FCString::Strlen`. -/
def FCString.Strlen (String : FString) : Int := String.length

/-- The lambda `ParseEntry` of `ParseRayTracingEntryPoint`, which captures `Input`:
the text between the end of the first occurrence of `Marker` and the first space from
that occurrence on (or the end of the input); the empty string without an occurrence. -/
def ParseRayTracingEntryPoint.ParseEntry (Input : FString) (Marker : FString) : FString :=
  let Result : FString := []
  let BeginIndex := FString.Find Input Marker INDEX_NONE
  if BeginIndex ≠ INDEX_NONE then
    let EndIndex := FString.Find Input (TEXT " ") BeginIndex
    let EndIndex := if EndIndex = INDEX_NONE then FString.Len Input + 1 else EndIndex
    let MarkerLen := FCString.Strlen Marker
    let Count := EndIndex - BeginIndex
    FString.Mid Input (BeginIndex + MarkerLen) (Count - MarkerLen)
  else Result

/-- The function `ParseRayTracingEntryPoint(Input, OutMain, OutAnyHit, OutIntersection)`.
The three outputs are assigned on every path, so the result does not depend on what
they held; it is the triple `(OutMain, OutAnyHit, OutIntersection)` afterwards. -/
def ParseRayTracingEntryPoint (Input : FString) : FString × FString × FString :=
  let OutMain := ParseRayTracingEntryPoint.ParseEntry Input (TEXT "closesthit=")
  let OutAnyHit := ParseRayTracingEntryPoint.ParseEntry Input (TEXT "anyhit=")
  let OutIntersection := ParseRayTracingEntryPoint.ParseEntry Input (TEXT "intersection=")
  let OutMain :=
    if FString.IsEmpty OutMain && FString.IsEmpty OutAnyHit && FString.IsEmpty OutIntersection
    then Input else OutMain
  (OutMain, OutAnyHit, OutIntersection)

/-- The three markers of a complex hit group entry point. -/
def Markers : List FString :=
  [TEXT "closesthit=", TEXT "anyhit=", TEXT "intersection="]

/-- The specification's "contains (case-insensitively) none of the markers": at no
position of `Text` does a marker occur up to case. -/
def ContainsNoMarker (Text : FString) : Prop :=
  ∀ Marker ∈ Markers, ∀ k, k < Text.length →
    FCString.StartsWithIgnoreCase (Text.drop k) Marker = false

instance (Text : FString) : Decidable (ContainsNoMarker Text) := by
  unfold ContainsNoMarker
  infer_instance

/-- An entry-point name as the specification admits it: not empty, without a space and
without a marker. -/
def IsEntryPointName (Name : FString) : Prop :=
  Name ≠ [] ∧ ' ' ∉ Name ∧ ContainsNoMarker Name

instance (Name : FString) : Decidable (IsEntryPointName Name) := by
  unfold IsEntryPointName
  infer_instance

end ShaderFormatD3D


/-!
# D3D12 pipeline state names: a shallow embedding of `FastHashName`
(`WindowsD3D12PipelineState.cpp`)
-/

namespace D3D12RHI

/-- One `wchar_t` (a 16-bit code unit on Windows), by its value. -/
abbrev wchar_t := Nat

/-- The store `Name[i] = Value` into the array `wchar_t Name[17]`. -/
def setAt (Name : Fin 17 → wchar_t) (i : Nat) (Value : wchar_t) : Fin 17 → wchar_t :=
  fun j => if j.val = i then Value else Name j

/-- The rotation `(Hash << 4) | (Hash >> 60)` of a `uint64` (the source's "rol"): the
left shift drops the bits beyond bit 63. -/
def FastHashName.rol (Hash : Nat) : Nat :=
  ((Hash <<< 4) % 2 ^ 64) ||| (Hash >>> 60)

/-- The character stored for a rotated hash: `Ch = Hash & 0xF`, then
`Ch + ((Ch < 10) ? '0' : 'A' - 10)`, computed in `uint64` and narrowed to `wchar_t`. -/
def FastHashName.digit (Hash : Nat) : wchar_t :=
  let Ch := Hash &&& 0xF
  ((Ch + (if Ch < 10 then '0'.toNat else 'A'.toNat - 10)) % 2 ^ 64) % 2 ^ 16

/-- The loop of `FastHashName`: `Remaining` iterations are left, the next one writes
`Name[i]`. -/
def FastHashName.loop :
    (Remaining : Nat) → (i : Nat) → (Name : Fin 17 → wchar_t) → (Hash : Nat) → Fin 17 → wchar_t
  | 0, _, Name, _ => Name
  | Remaining + 1, i, Name, Hash =>
    let Hash := FastHashName.rol Hash
    let Name := setAt Name i (FastHashName.digit Hash)
    FastHashName.loop Remaining (i + 1) Name Hash

/-- The function `FastHashName(wchar_t Name[17], uint64 Hash)`: sixteen iterations of
rotate, mask and store, then `Name[16] = 0`. The result is the array afterwards; the
array on entry is whatever the caller's uninitialised local holds. -/
def FastHashName (Name : Fin 17 → wchar_t) (Hash : Nat) : Fin 17 → wchar_t :=
  let Name := FastHashName.loop 16 0 Name Hash
  setAt Name 16 0

/-- The sixteen uppercase hexadecimal digits, as the specification words them. -/
def upperHexDigits : List Char :=
  ['0', '1', '2', '3', '4', '5', '6', '7', '8', '9', 'A', 'B', 'C', 'D', 'E', 'F']

/-- The uppercase hexadecimal digit of a nibble, as a `wchar_t`. -/
def upperHexDigit (Nibble : Nat) : wchar_t :=
  (upperHexDigits.getD Nibble '0').toNat

/-- Nibble number `k` of a 64-bit value, counted from the most significant one. -/
def nibbleFromTop (Hash k : Nat) : Nat :=
  Hash / 16 ^ (15 - k) % 16

end D3D12RHI


namespace IoDispatcher

/-! ## Auxiliary lemmas -/

theorem Memcmp.loop_eq_zero_iff {n : Nat} (a b : Bytes n) (r i : Nat) :
    Memcmp.loop a b r i = 0 ↔ ∀ j, i ≤ j → j < i + r → byteAt a j = byteAt b j := by
  induction r generalizing i with
  | zero =>
    simp only [Memcmp.loop, true_iff]
    intro j h1 h2
    omega
  | succ r ih =>
    simp only [Memcmp.loop]
    by_cases h : byteAt a i = byteAt b i
    · rw [if_pos h, ih]
      constructor
      · intro H j h1 h2
        rcases Nat.eq_or_lt_of_le h1 with h3 | h3
        · subst h3; exact h
        · exact H j h3 (by omega)
      · intro H j h1 h2
        exact H j (by omega) (by omega)
    · rw [if_neg h]
      constructor
      · intro H
        exfalso
        apply h
        apply Fin.ext
        omega
      · intro H
        exact absurd (H i (Nat.le_refl i) (by omega)) h

theorem Memcmp_eq_zero_iff {n : Nat} (a b : Bytes n) : Memcmp a b n = 0 ↔ a = b := by
  unfold Memcmp
  rw [Memcmp.loop_eq_zero_iff]
  constructor
  · intro H
    funext i
    have := H i.val (Nat.zero_le _) (by have := i.isLt; omega)
    simpa [byteAt, i.isLt] using this
  · intro H j _ _
    rw [H]

theorem Memcpy_full {n : Nat} (Dest Src : Bytes n) : Memcpy Dest Src n = Src := by
  funext i
  simp [Memcpy, i.isLt]

theorem FIoChunkId.eq_iff_Id (a b : FIoChunkId) : a.eq b = true ↔ a.Id = b.Id := by
  unfold FIoChunkId.eq
  rw [decide_eq_true_iff, eq_comm, Memcmp_eq_zero_iff]

theorem FIoChunkId.ne_iff_Id (a b : FIoChunkId) : a.ne b = true ↔ a.Id ≠ b.Id := by
  unfold FIoChunkId.ne
  rw [Bool.not_eq_true', ← Bool.not_eq_true, FIoChunkId.eq_iff_Id]

theorem FIoChunkHash.eq_iff_Hash (a b : FIoChunkHash) : a.eq b = true ↔ a.Hash = b.Hash := by
  unfold FIoChunkHash.eq
  rw [decide_eq_true_iff, eq_comm, Memcmp_eq_zero_iff]

theorem CreateIoChunkId_ok (Order : ByteOrder) (Uninit : FIoChunkId) (ChunkId ChunkIndex : Nat)
    (IoChunkType : EIoChunkType) :
    CreateIoChunkId Order Uninit ChunkId ChunkIndex IoChunkType
      = .ok ⟨chunkIdData Order ChunkId ChunkIndex IoChunkType⟩ := by
  simp [CreateIoChunkId, FIoChunkId.Set, Memcpy_full, chunkIdData]

theorem FIoChunkId.CreateEmptyId_ok (Uninit : FIoChunkId) :
    FIoChunkId.CreateEmptyId Uninit = .ok FIoChunkId.InvalidChunkId := by
  simp [FIoChunkId.CreateEmptyId, FIoChunkId.Set, Memcpy_full, FIoChunkId.InvalidChunkId]

theorem EIoChunkType.toUInt8_inj (s t : EIoChunkType) (h : s.toUInt8 = t.toUInt8) : s = t := by
  cases s <;> cases t <;> first | rfl | exact absurd h (by decide)

theorem byteOf_toUInt8 (t : EIoChunkType) : byteOf t.toUInt8.val 0 = t.toUInt8 := by
  cases t <;> decide

theorem chunkIdData_inj (Order : ByteOrder) (a a' b b' : Nat) (t t' : EIoChunkType)
    (ha : a < 2 ^ 64) (ha' : a' < 2 ^ 64) (hb : b < 2 ^ 16) (hb' : b' < 2 ^ 16)
    (h : chunkIdData Order a b t = chunkIdData Order a' b' t') : a = a' ∧ b = b' ∧ t = t' := by
  have e0 := congrFun h ⟨0, by decide⟩
  have e1 := congrFun h ⟨1, by decide⟩
  have e2 := congrFun h ⟨2, by decide⟩
  have e3 := congrFun h ⟨3, by decide⟩
  have e4 := congrFun h ⟨4, by decide⟩
  have e5 := congrFun h ⟨5, by decide⟩
  have e6 := congrFun h ⟨6, by decide⟩
  have e7 := congrFun h ⟨7, by decide⟩
  have e8 := congrFun h ⟨8, by decide⟩
  have e9 := congrFun h ⟨9, by decide⟩
  have e11 := congrFun h ⟨11, by decide⟩
  have ht : t = t' := by
    apply EIoChunkType.toUInt8_inj
    cases Order <;> simpa [chunkIdData, storeUInt, byteOf_toUInt8] using e11
  refine ⟨?_, ?_, ht⟩
  · cases Order <;>
      simp only [chunkIdData, storeUInt, byteOf, Fin.mk.injEq] at e0 e1 e2 e3 e4 e5 e6 e7 <;>
      norm_num at e0 e1 e2 e3 e4 e5 e6 e7 ha ha' <;>
      omega
  · cases Order <;>
      simp only [chunkIdData, storeUInt, byteOf, Fin.mk.injEq] at e8 e9 <;>
      norm_num at e8 e9 hb hb' <;>
      omega

theorem chunkIdData_zero (Order : ByteOrder) :
    chunkIdData Order 0 0 EIoChunkType.Invalid = fun _ => 0 := by
  funext i
  cases Order <;>
    simp only [chunkIdData, storeUInt, byteOf, EIoChunkType.toUInt8] <;>
    split_ifs <;> simp

theorem chunkIdData_type (Order : ByteOrder) (a b : Nat) (t : EIoChunkType) :
    chunkIdData Order a b t ⟨11, by decide⟩ = t.toUInt8 := by
  cases Order <;> simp [chunkIdData, storeUInt, byteOf_toUInt8]

/-! ## Chunk ids -/

/-- C1: for every byte order, every (base id, index, chunk type) triple and every
content of the uninitialised locals, two calls of `CreateIoChunkId` with the same
triple both return, and the two ids compare equal under `operator==` and have the
same `GetTypeHash`. -/
theorem C1_CreateIoChunkId_same_triple (Order : ByteOrder) (Uninit₁ Uninit₂ : FIoChunkId)
    (ChunkId ChunkIndex : Nat) (IoChunkType : EIoChunkType) :
    ∃ a b, CreateIoChunkId Order Uninit₁ ChunkId ChunkIndex IoChunkType = .ok a ∧
      CreateIoChunkId Order Uninit₂ ChunkId ChunkIndex IoChunkType = .ok b ∧
      a.eq b = true ∧ a.GetTypeHash = b.GetTypeHash := by
  refine ⟨_, _, CreateIoChunkId_ok Order Uninit₁ ChunkId ChunkIndex IoChunkType,
    CreateIoChunkId_ok Order Uninit₂ ChunkId ChunkIndex IoChunkType, ?_, rfl⟩
  rw [FIoChunkId.eq_iff_Id]

/-- C2: `CreateIoChunkId` is injective. For every byte order and every two triples
(base id below `2 ^ 64`, index below `2 ^ 16`, chunk type) that differ in at least
one field, both calls return and the two ids compare unequal: `operator!=` is true
and `operator==` is false. -/
theorem C2_CreateIoChunkId_injective (Order : ByteOrder) (Uninit₁ Uninit₂ : FIoChunkId)
    (ChunkId₁ ChunkId₂ ChunkIndex₁ ChunkIndex₂ : Nat) (IoChunkType₁ IoChunkType₂ : EIoChunkType)
    (h₁ : ChunkId₁ < 2 ^ 64) (h₂ : ChunkId₂ < 2 ^ 64)
    (k₁ : ChunkIndex₁ < 2 ^ 16) (k₂ : ChunkIndex₂ < 2 ^ 16)
    (hne : (ChunkId₁, ChunkIndex₁, IoChunkType₁) ≠ (ChunkId₂, ChunkIndex₂, IoChunkType₂)) :
    ∃ a b, CreateIoChunkId Order Uninit₁ ChunkId₁ ChunkIndex₁ IoChunkType₁ = .ok a ∧
      CreateIoChunkId Order Uninit₂ ChunkId₂ ChunkIndex₂ IoChunkType₂ = .ok b ∧
      a.ne b = true ∧ a.eq b = false := by
  have hId : chunkIdData Order ChunkId₁ ChunkIndex₁ IoChunkType₁
      ≠ chunkIdData Order ChunkId₂ ChunkIndex₂ IoChunkType₂ := by
    intro h
    obtain ⟨e₁, e₂, e₃⟩ := chunkIdData_inj Order _ _ _ _ _ _ h₁ h₂ k₁ k₂ h
    exact hne (by rw [e₁, e₂, e₃])
  refine ⟨_, _, CreateIoChunkId_ok Order Uninit₁ ChunkId₁ ChunkIndex₁ IoChunkType₁,
    CreateIoChunkId_ok Order Uninit₂ ChunkId₂ ChunkIndex₂ IoChunkType₂, ?_, ?_⟩
  · rw [FIoChunkId.ne_iff_Id]
    exact hId
  · rw [← Bool.not_eq_true, FIoChunkId.eq_iff_Id]
    exact hId

/-- Witness for C2: base id 1 with index 0 against base id 1 with index 1, both of
type `BulkData`, on a little-endian layout and with different garbage in the locals. -/
theorem C2_CreateIoChunkId_injective_witness :
    ∃ a b, CreateIoChunkId .LittleEndian ⟨fun _ => 0⟩ 1 0 .BulkData = .ok a ∧
      CreateIoChunkId .LittleEndian ⟨fun _ => 255⟩ 1 1 .BulkData = .ok b ∧
      a.ne b = true ∧ a.eq b = false :=
  C2_CreateIoChunkId_injective .LittleEndian ⟨fun _ => 0⟩ ⟨fun _ => 255⟩ 1 1 0 1 .BulkData .BulkData
    (by decide) (by decide) (by decide) (by decide) (by decide)

/-- C3: with `InvalidChunkId` the all-zero id that `CreateEmptyId` builds, for every
byte order and every triple (base id below `2 ^ 64`, index below `2 ^ 16`, chunk
type) `CreateIoChunkId` returns an id whose `IsValid()` is false if and only if the
base id is 0, the index is 0 and the type is `Invalid`; an id built with any other
chunk type is valid and does not equal the invalid sentinel. -/
theorem C3_IsValid_iff (Order : ByteOrder) (Uninit Uninit₀ : FIoChunkId)
    (ChunkId ChunkIndex : Nat) (IoChunkType : EIoChunkType)
    (h : ChunkId < 2 ^ 64) (k : ChunkIndex < 2 ^ 16) :
    FIoChunkId.CreateEmptyId Uninit₀ = .ok FIoChunkId.InvalidChunkId ∧
    ∃ a, CreateIoChunkId Order Uninit ChunkId ChunkIndex IoChunkType = .ok a ∧
      (a.IsValid = false ↔ ChunkId = 0 ∧ ChunkIndex = 0 ∧ IoChunkType = .Invalid) ∧
      (IoChunkType ≠ .Invalid →
        a.IsValid = true ∧ a.eq FIoChunkId.InvalidChunkId = false ∧
          a.ne FIoChunkId.InvalidChunkId = true) := by
  refine ⟨FIoChunkId.CreateEmptyId_ok Uninit₀, _,
    CreateIoChunkId_ok Order Uninit ChunkId ChunkIndex IoChunkType, ?_, ?_⟩
  · unfold FIoChunkId.IsValid
    rw [← Bool.not_eq_true, FIoChunkId.ne_iff_Id, not_not]
    show chunkIdData Order ChunkId ChunkIndex IoChunkType = (fun _ => 0) ↔ _
    constructor
    · intro e
      rw [← chunkIdData_zero Order] at e
      exact chunkIdData_inj Order _ _ _ _ _ _ h (by decide) k (by decide) e
    · rintro ⟨rfl, rfl, rfl⟩
      exact chunkIdData_zero Order
  · intro hty
    have hId : chunkIdData Order ChunkId ChunkIndex IoChunkType ≠ (fun _ => 0) := by
      intro e
      have e11 := congrFun e ⟨11, by decide⟩
      rw [chunkIdData_type] at e11
      exact hty (EIoChunkType.toUInt8_inj _ _ e11)
    refine ⟨?_, ?_, ?_⟩
    · unfold FIoChunkId.IsValid
      rw [FIoChunkId.ne_iff_Id]
      exact hId
    · rw [← Bool.not_eq_true, FIoChunkId.eq_iff_Id]
      exact hId
    · rw [FIoChunkId.ne_iff_Id]
      exact hId

/-- Witness for C3: base id 0, index 0 and type `ExportBundleData` on a big-endian
layout. -/
theorem C3_IsValid_iff_witness :
    FIoChunkId.CreateEmptyId ⟨fun _ => 9⟩ = .ok FIoChunkId.InvalidChunkId ∧
    ∃ a, CreateIoChunkId .BigEndian ⟨fun _ => 7⟩ 0 0 .ExportBundleData = .ok a ∧
      (a.IsValid = false ↔ (0 : Nat) = 0 ∧ (0 : Nat) = 0 ∧
        EIoChunkType.ExportBundleData = .Invalid) ∧
      (EIoChunkType.ExportBundleData ≠ .Invalid →
        a.IsValid = true ∧ a.eq FIoChunkId.InvalidChunkId = false ∧
          a.ne FIoChunkId.InvalidChunkId = true) :=
  C3_IsValid_iff .BigEndian ⟨fun _ => 7⟩ ⟨fun _ => 9⟩ 0 0 .ExportBundleData (by decide) (by decide)

/-- C4: for every `FIoChunkId`, `GetTypeHash` equals the value obtained by starting
from `h = 5381` and, for each of the 12 id bytes in index order 0..11, replacing `h`
by `(h * 33 + byte) mod 2 ^ 32`. -/
theorem C4_GetTypeHash_rolling (InId : FIoChunkId) :
    InId.GetTypeHash = rollingHash (List.ofFn InId.Id) ∧
    List.ofFn InId.Id = [InId.Id 0, InId.Id 1, InId.Id 2, InId.Id 3, InId.Id 4, InId.Id 5,
      InId.Id 6, InId.Id 7, InId.Id 8, InId.Id 9, InId.Id 10, InId.Id 11] :=
  ⟨rfl, rfl⟩

/-! ## Chunk hashes -/

/-- C5: for every digest function standing for SHA-1, every byte sequence (the
`DataSize` bytes at `Data`) and every content of the uninitialised local,
`FIoChunkHash::HashBuffer` returns a hash whose bytes 0..19 are the digest of the
input and whose bytes 20..31 are all zero; hence two calls on equal inputs return
hashes that are equal under `FIoChunkHash::operator==`. -/
theorem C5_HashBuffer_layout (SHA1 : List uint8 → Bytes 20) (Uninit₁ Uninit₂ : FIoChunkHash)
    (Data : List uint8) (DataSize : Nat) :
    (∀ i : Fin 32, ∀ h : i.val < 20,
      (FIoChunkHash.HashBuffer SHA1 Uninit₁ Data DataSize).Hash i
        = SHA1 (Data.take DataSize) ⟨i.val, h⟩) ∧
    (∀ i : Fin 32, 20 ≤ i.val →
      (FIoChunkHash.HashBuffer SHA1 Uninit₁ Data DataSize).Hash i = 0) ∧
    (FIoChunkHash.HashBuffer SHA1 Uninit₁ Data DataSize).eq
      (FIoChunkHash.HashBuffer SHA1 Uninit₂ Data DataSize) = true ∧
    (FIoChunkHash.HashBuffer SHA1 Uninit₁ Data DataSize).ne
      (FIoChunkHash.HashBuffer SHA1 Uninit₂ Data DataSize) = false := by
  have hlow : ∀ (U : FIoChunkHash) (i : Fin 32) (h : i.val < 20),
      (FIoChunkHash.HashBuffer SHA1 U Data DataSize).Hash i
        = SHA1 (Data.take DataSize) ⟨i.val, h⟩ := by
    intro U i h
    have h' : ¬ (20 ≤ i.val ∧ i.val < 20 + 12) := by omega
    simp [FIoChunkHash.HashBuffer, Memset, FSHA1.HashBuffer, h, h']
  have hhigh : ∀ (U : FIoChunkHash) (i : Fin 32), 20 ≤ i.val →
      (FIoChunkHash.HashBuffer SHA1 U Data DataSize).Hash i = 0 := by
    intro U i h
    have h' : 20 ≤ i.val ∧ i.val < 20 + 12 := ⟨h, by have := i.isLt; omega⟩
    simp [FIoChunkHash.HashBuffer, Memset, h']
  have heq : (FIoChunkHash.HashBuffer SHA1 Uninit₁ Data DataSize).Hash
      = (FIoChunkHash.HashBuffer SHA1 Uninit₂ Data DataSize).Hash := by
    funext i
    by_cases h : i.val < 20
    · rw [hlow Uninit₁ i h, hlow Uninit₂ i h]
    · rw [hhigh Uninit₁ i (by omega), hhigh Uninit₂ i (by omega)]
  refine ⟨hlow Uninit₁, hhigh Uninit₁, ?_, ?_⟩
  · rw [FIoChunkHash.eq_iff_Hash]
    exact heq
  · unfold FIoChunkHash.ne
    rw [Bool.not_eq_false', FIoChunkHash.eq_iff_Hash]
    exact heq

/-! ## Status and `TIoStatusOr` -/

theorem TIoStatusOr.ValueOrDie_of_not_ok {T : Type} (x : TIoStatusOr T) (h : x.IsOk = false) :
    x.ValueOrDie = .error (Fault.StatusOrCrash x.Status) := by
  unfold TIoStatusOr.IsOk at h
  simp [TIoStatusOr.ValueOrDie, TIoStatusOr.Status, h]

theorem TIoStatusOr.ConsumeValueOrDie_of_not_ok {T : Type} (x : TIoStatusOr T)
    (h : x.IsOk = false) :
    x.ConsumeValueOrDie = .error (Fault.StatusOrCrash x.Status) := by
  unfold TIoStatusOr.IsOk at h
  simp [TIoStatusOr.ConsumeValueOrDie, TIoStatusOr.Status, h]

theorem TIoStatusOr.ValueOrDie_of_ok {T : Type} (x : TIoStatusOr T) (v : T)
    (h : x.IsOk = true) (hv : x.Value = some v) : x.ValueOrDie = .ok v := by
  unfold TIoStatusOr.IsOk at h
  simp [TIoStatusOr.ValueOrDie, h, hv]

theorem TIoStatusOr.ConsumeValueOrDie_of_ok {T : Type} (x : TIoStatusOr T) (v : T)
    (h : x.IsOk = true) (hv : x.Value = some v) :
    x.ConsumeValueOrDie = .ok (v, { StatusValue := FIoStatus.Unknown, Value := none }) := by
  unfold TIoStatusOr.IsOk at h
  simp [TIoStatusOr.ConsumeValueOrDie, h, hv, FIoStatus.assign]

theorem TIoStatusOr.Reset_status {T : Type} (x : TIoStatusOr T) :
    x.Reset.StatusValue = FIoStatus.Unknown := by
  simp only [TIoStatusOr.Reset]
  split_ifs <;> rfl

theorem TIoStatusOr.Reset_value {T : Type} (x : TIoStatusOr T) (hx : x.Valid) :
    x.Reset.Value = none := by
  simp only [TIoStatusOr.Reset]
  split_ifs with h
  · rfl
  · have hok : x.IsOk = false := by
      simpa [TIoStatusOr.IsOk, FIoStatus.IsOk, FIoStatus.GetErrorCode] using h
    have : ¬ (x.Value.isSome = true) := fun hs => by
      have := hx.mpr hs
      rw [hok] at this
      exact Bool.false_ne_true this
    simpa using this

theorem TIoStatusOr.default_valid {T : Type} : (TIoStatusOr.default : TIoStatusOr T).Valid := by
  simp [TIoStatusOr.Valid, TIoStatusOr.default, TIoStatusOr.IsOk, FIoStatus.IsOk,
    FIoStatus.Unknown, FIoStatus.ofCode]

theorem TIoStatusOr.ofValue_valid {T : Type} (v : T) : (TIoStatusOr.ofValue v).Valid := by
  simp [TIoStatusOr.Valid, TIoStatusOr.ofValue, TIoStatusOr.IsOk, FIoStatus.IsOk,
    FIoStatus.Ok, FIoStatus.ofCode]

theorem TIoStatusOr.ofStatus_valid {T : Type} (s : FIoStatus) (y : TIoStatusOr T)
    (h : TIoStatusOr.ofStatus s = .ok y) : y.Valid := by
  unfold TIoStatusOr.ofStatus at h
  split_ifs at h with hs
  injection h with h
  subst h
  simpa [TIoStatusOr.Valid, TIoStatusOr.IsOk] using hs

theorem TIoStatusOr.Reset_valid {T : Type} (x : TIoStatusOr T) (hx : x.Valid) :
    x.Reset.Valid := by
  unfold TIoStatusOr.Valid
  rw [TIoStatusOr.Reset_value x hx]
  simp [TIoStatusOr.IsOk, TIoStatusOr.Reset_status, FIoStatus.IsOk, FIoStatus.Unknown,
    FIoStatus.ofCode]

theorem TIoStatusOr.assignValue_valid {T : Type} (x : TIoStatusOr T) (r : Ref T)
    (hx : x.Valid) : (x.assignValue r).Valid := by
  cases r with
  | Self => exact hx
  | Other v =>
    simp [TIoStatusOr.Valid, TIoStatusOr.assignValue, TIoStatusOr.IsOk, FIoStatus.IsOk,
      FIoStatus.assignCode, FIoStatus.ofCode]

theorem TIoStatusOr.assignStatus_valid {T : Type} (x y : TIoStatusOr T) (r : Ref FIoStatus)
    (hx : x.Valid) (h : x.assignStatus r = .ok y) : y.Valid := by
  unfold TIoStatusOr.assignStatus at h
  cases r with
  | Self =>
    simp only at h
    split_ifs at h
    injection h with h
    subst h
    simp [TIoStatusOr.Valid, TIoStatusOr.IsOk, TIoStatusOr.Reset_status,
      TIoStatusOr.Reset_value x hx, FIoStatus.assign, FIoStatus.IsOk, FIoStatus.Unknown,
      FIoStatus.ofCode]
  | Other s =>
    simp only at h
    split_ifs at h with hs
    injection h with h
    subst h
    simpa [TIoStatusOr.Valid, TIoStatusOr.IsOk, TIoStatusOr.Reset_value x hx,
      FIoStatus.assign] using hs

theorem TIoStatusOr.ConsumeValueOrDie_valid {T : Type} (x y : TIoStatusOr T) (v : T)
    (h : x.ConsumeValueOrDie = .ok (v, y)) : y.Valid := by
  unfold TIoStatusOr.ConsumeValueOrDie at h
  split_ifs at h
  split at h
  · injection h with h
    injection h with _ h
    subst h
    simp [TIoStatusOr.Valid, TIoStatusOr.IsOk, FIoStatus.assign, FIoStatus.IsOk,
      FIoStatus.Unknown, FIoStatus.ofCode]
  · cases h

/-- C6: for every `TIoStatusOr<T>` (in a state of the class invariant), `ValueOrDie`
and `ConsumeValueOrDie` reach the fatal `StatusOrCrash` if and only if the status is
not `Ok`, and then it is called with the object's status; when the status is `Ok`
both return the stored value without a crash. -/
theorem C6_ValueOrDie_crash_iff {T : Type} (x : TIoStatusOr T) (hx : x.Valid) :
    ((∃ s, x.ValueOrDie = .error (Fault.StatusOrCrash s)) ↔ x.IsOk = false) ∧
    ((∃ s, x.ConsumeValueOrDie = .error (Fault.StatusOrCrash s)) ↔ x.IsOk = false) ∧
    (x.IsOk = false →
      x.ValueOrDie = .error (Fault.StatusOrCrash x.Status) ∧
      x.ConsumeValueOrDie = .error (Fault.StatusOrCrash x.Status)) ∧
    (x.IsOk = true →
      ∃ v, x.Value = some v ∧ x.ValueOrDie = .ok v ∧
        ∃ y, x.ConsumeValueOrDie = .ok (v, y)) := by
  have hok : x.IsOk = true → ∃ v, x.Value = some v ∧ x.ValueOrDie = .ok v ∧
      ∃ y, x.ConsumeValueOrDie = .ok (v, y) := by
    intro h
    obtain ⟨v, hv⟩ := Option.isSome_iff_exists.mp (hx.mp h)
    exact ⟨v, hv, TIoStatusOr.ValueOrDie_of_ok x v h hv, _,
      TIoStatusOr.ConsumeValueOrDie_of_ok x v h hv⟩
  refine ⟨⟨?_, ?_⟩, ⟨?_, ?_⟩, ?_, hok⟩
  · rintro ⟨s, hs⟩
    by_contra hne
    obtain ⟨v, _, hv, _⟩ := hok (by simpa using hne)
    rw [hv] at hs
    cases hs
  · intro h
    exact ⟨_, TIoStatusOr.ValueOrDie_of_not_ok x h⟩
  · rintro ⟨s, hs⟩
    by_contra hne
    obtain ⟨v, _, _, y, hy⟩ := hok (by simpa using hne)
    rw [hy] at hs
    cases hs
  · intro h
    exact ⟨_, TIoStatusOr.ConsumeValueOrDie_of_not_ok x h⟩
  · intro h
    exact ⟨TIoStatusOr.ValueOrDie_of_not_ok x h, TIoStatusOr.ConsumeValueOrDie_of_not_ok x h⟩

/-- Witness for C6: the object built from the value 5. -/
theorem C6_ValueOrDie_crash_iff_witness :
    ((∃ s, (TIoStatusOr.ofValue (5 : Nat)).ValueOrDie = .error (Fault.StatusOrCrash s))
      ↔ (TIoStatusOr.ofValue (5 : Nat)).IsOk = false) ∧
    ((∃ s, (TIoStatusOr.ofValue (5 : Nat)).ConsumeValueOrDie = .error (Fault.StatusOrCrash s))
      ↔ (TIoStatusOr.ofValue (5 : Nat)).IsOk = false) ∧
    ((TIoStatusOr.ofValue (5 : Nat)).IsOk = false →
      (TIoStatusOr.ofValue (5 : Nat)).ValueOrDie
        = .error (Fault.StatusOrCrash (TIoStatusOr.ofValue (5 : Nat)).Status) ∧
      (TIoStatusOr.ofValue (5 : Nat)).ConsumeValueOrDie
        = .error (Fault.StatusOrCrash (TIoStatusOr.ofValue (5 : Nat)).Status)) ∧
    ((TIoStatusOr.ofValue (5 : Nat)).IsOk = true →
      ∃ v, (TIoStatusOr.ofValue (5 : Nat)).Value = some v ∧
        (TIoStatusOr.ofValue (5 : Nat)).ValueOrDie = .ok v ∧
        ∃ y, (TIoStatusOr.ofValue (5 : Nat)).ConsumeValueOrDie = .ok (v, y)) :=
  C6_ValueOrDie_crash_iff (TIoStatusOr.ofValue (5 : Nat))
    (by simp [TIoStatusOr.Valid, TIoStatusOr.ofValue, TIoStatusOr.IsOk, FIoStatus.IsOk,
      FIoStatus.Ok, FIoStatus.ofCode])

/-- Construction from and assignment of a status: for every non-Ok `FIoStatus` `s`
(`Unknown` included), constructing `TIoStatusOr<T>(s)`, or assigning to an existing
`TIoStatusOr<T>` an `s` that is not part of the object, yields an object with `IsOk()`
false, `Status()` equal to `s` and no exposed value (`ValueOrDie` and
`ConsumeValueOrDie` crash); a status whose code is `Ok` violates the `check(!IsOk())` of
that constructor and of that assignment. When the assigned reference is the object's
own status, the object ends not Ok with no exposed value, and its status is the
`Unknown` that `Reset()` leaves. -/
theorem TIoStatusOr.status_construct_assign {T : Type} (s : FIoStatus) (x : TIoStatusOr T)
    (hs : s.IsOk = false) :
    (∃ y : TIoStatusOr T, TIoStatusOr.ofStatus s = .ok y ∧
      y.IsOk = false ∧ y.Status = s ∧
      y.ValueOrDie = .error (Fault.StatusOrCrash s) ∧
      y.ConsumeValueOrDie = .error (Fault.StatusOrCrash s)) ∧
    (∃ y, x.assignStatus (.Other s) = .ok y ∧
      y.IsOk = false ∧ y.Status = s ∧
      y.ValueOrDie = .error (Fault.StatusOrCrash s) ∧
      y.ConsumeValueOrDie = .error (Fault.StatusOrCrash s)) ∧
    (x.IsOk = false → ∃ y, x.assignStatus .Self = .ok y ∧
      y.IsOk = false ∧ y.Status = FIoStatus.Unknown ∧
      y.ValueOrDie = .error (Fault.StatusOrCrash y.Status) ∧
      y.ConsumeValueOrDie = .error (Fault.StatusOrCrash y.Status)) ∧
    (∀ s' : FIoStatus, s'.IsOk = true →
      (TIoStatusOr.ofStatus s' : Except Fault (TIoStatusOr T)) = .error Fault.CheckFailed ∧
      x.assignStatus (.Other s') = .error Fault.CheckFailed) ∧
    (x.IsOk = true → x.assignStatus .Self = .error Fault.CheckFailed) := by
  refine ⟨?_, ?_, ?_, ?_, ?_⟩
  · have hy : (TIoStatusOr.ofStatus s : Except Fault (TIoStatusOr T))
        = .ok { StatusValue := s, Value := none } := by
      simp [TIoStatusOr.ofStatus, hs]
    have hno : ({ StatusValue := s, Value := none } : TIoStatusOr T).IsOk = false := hs
    exact ⟨_, hy, hno, rfl, TIoStatusOr.ValueOrDie_of_not_ok _ hno,
      TIoStatusOr.ConsumeValueOrDie_of_not_ok _ hno⟩
  · have hy : x.assignStatus (.Other s)
        = .ok { x.Reset with StatusValue := s } := by
      simp [TIoStatusOr.assignStatus, hs, FIoStatus.assign]
    have hno : ({ x.Reset with StatusValue := s } : TIoStatusOr T).IsOk = false := hs
    exact ⟨_, hy, hno, rfl, TIoStatusOr.ValueOrDie_of_not_ok _ hno,
      TIoStatusOr.ConsumeValueOrDie_of_not_ok _ hno⟩
  · intro hx
    have hx' : x.StatusValue.IsOk = false := hx
    have hy : x.assignStatus .Self
        = .ok { x.Reset with StatusValue := FIoStatus.Unknown } := by
      simp [TIoStatusOr.assignStatus, hx', FIoStatus.assign, TIoStatusOr.Reset_status]
    have hno : ({ x.Reset with StatusValue := FIoStatus.Unknown } : TIoStatusOr T).IsOk
        = false := rfl
    exact ⟨_, hy, hno, rfl, TIoStatusOr.ValueOrDie_of_not_ok _ hno,
      TIoStatusOr.ConsumeValueOrDie_of_not_ok _ hno⟩
  · intro s' hs'
    constructor
    · simp [TIoStatusOr.ofStatus, hs']
    · simp [TIoStatusOr.assignStatus, hs']
  · intro hx
    have hx' : x.StatusValue.IsOk = true := hx
    simp [TIoStatusOr.assignStatus, hx']

/-- C7 (the code at the failing input): an object constructed from the status
`NotFound` is not Ok and has the status `NotFound`; assigned its own status
(`x = x.Status()`), it passes the `check`, and `Reset()` then sets the status that the
reference refers to to `Unknown` before `StatusValue = OtherStatus` reads it: the object
ends with the status code `Unknown`, not with `NotFound`, the status that was assigned.
The same status assigned from outside the object is kept. -/
theorem C7_assign_own_status_loses_status :
    ∃ x : TIoStatusOr Nat,
      TIoStatusOr.ofStatus (FIoStatus.ofCode .NotFound) = .ok x ∧
      x.IsOk = false ∧ x.Status = FIoStatus.ofCode .NotFound ∧
      (∃ y, x.assignStatus .Self = .ok y ∧
        y.Status.GetErrorCode = EIoErrorCode.Unknown ∧ y.Status ≠ x.Status) ∧
      (∃ y, x.assignStatus (.Other (FIoStatus.ofCode .NotFound)) = .ok y ∧
        y.Status = FIoStatus.ofCode .NotFound) :=
  ⟨{ StatusValue := FIoStatus.ofCode .NotFound, Value := none }, rfl, rfl, rfl,
    ⟨{ StatusValue := FIoStatus.Unknown, Value := none }, rfl, rfl, by decide⟩,
    ⟨{ StatusValue := FIoStatus.ofCode .NotFound, Value := none }, rfl, rfl⟩⟩

/-- C8: for every value `v` of `T`, the object `TIoStatusOr<T>(v)`, and any existing
`TIoStatusOr<T>` after assignment of `v`, has `IsOk()` true and status code `Ok`, and
its `ValueOrDie()` returns `v`. The assignment is covered both for a `v` held
outside the object and for the reference that the object's own `ValueOrDie()`
returned (an object that is `Ok` and holds `v`). -/
theorem C8_value_construct_assign {T : Type} (v : T) (x : TIoStatusOr T) :
    ((TIoStatusOr.ofValue v).IsOk = true ∧
      (TIoStatusOr.ofValue v).Status.GetErrorCode = EIoErrorCode.Ok ∧
      (TIoStatusOr.ofValue v).ValueOrDie = .ok v) ∧
    ((x.assignValue (.Other v)).IsOk = true ∧
      (x.assignValue (.Other v)).Status.GetErrorCode = EIoErrorCode.Ok ∧
      (x.assignValue (.Other v)).ValueOrDie = .ok v) ∧
    (x.ValueOrDie = .ok v →
      (x.assignValue .Self).IsOk = true ∧
      (x.assignValue .Self).Status.GetErrorCode = EIoErrorCode.Ok ∧
      (x.assignValue .Self).ValueOrDie = .ok v) := by
  refine ⟨⟨rfl, rfl, rfl⟩, ⟨rfl, rfl, rfl⟩, ?_⟩
  intro h
  have hok : x.StatusValue.IsOk = true := by
    by_contra hne
    have hno : x.IsOk = false := by simpa [TIoStatusOr.IsOk] using hne
    rw [TIoStatusOr.ValueOrDie_of_not_ok x hno] at h
    cases h
  refine ⟨hok, ?_, h⟩
  simpa [FIoStatus.IsOk] using hok

/-- Witness for C8: an object that is `Ok` and holds 3, assigned the reference that its
own `ValueOrDie()` returned. -/
theorem C8_value_construct_assign_witness :
    (TIoStatusOr.ofValue (3 : Nat)).ValueOrDie = .ok 3 ∧
    ((TIoStatusOr.ofValue (3 : Nat)).assignValue .Self).IsOk = true ∧
    ((TIoStatusOr.ofValue (3 : Nat)).assignValue .Self).Status.GetErrorCode
      = EIoErrorCode.Ok ∧
    ((TIoStatusOr.ofValue (3 : Nat)).assignValue .Self).ValueOrDie = .ok 3 :=
  ⟨rfl, (C8_value_construct_assign 3 (TIoStatusOr.ofValue (3 : Nat))).2.2 rfl⟩

/-- C9: for every `FIoStatus`,`IsCompleted()` is true iff its error code is not
`Unknown` and `IsOk()` is true iff its code is `Ok`; so every Ok status is completed,
a status with code `Unknown` is neither Ok nor completed, and every other error code
is completed but not Ok. A default-constructed `TIoStatusOr` has status `Unknown`,
that is, it is not yet completed. -/
theorem C9_IsCompleted_IsOk {T : Type} (s : FIoStatus) :
    (s.IsCompleted = true ↔ s.GetErrorCode ≠ EIoErrorCode.Unknown) ∧
    (s.IsOk = true ↔ s.GetErrorCode = EIoErrorCode.Ok) ∧
    (s.IsOk = true → s.IsCompleted = true) ∧
    (s.GetErrorCode = EIoErrorCode.Unknown → s.IsOk = false ∧ s.IsCompleted = false) ∧
    (s.GetErrorCode ≠ EIoErrorCode.Ok → s.GetErrorCode ≠ EIoErrorCode.Unknown →
      s.IsCompleted = true ∧ s.IsOk = false) ∧
    (FIoStatus.Unknown.GetErrorCode = EIoErrorCode.Unknown ∧
      FIoStatus.Unknown.IsOk = false ∧ FIoStatus.Unknown.IsCompleted = false) ∧
    ((TIoStatusOr.default : TIoStatusOr T).Status = FIoStatus.Unknown ∧
      (TIoStatusOr.default : TIoStatusOr T).Status.GetErrorCode = EIoErrorCode.Unknown ∧
      (TIoStatusOr.default : TIoStatusOr T).Status.IsCompleted = false ∧
      (TIoStatusOr.default : TIoStatusOr T).IsOk = false) := by
  obtain ⟨c, m⟩ := s
  refine ⟨?_, ?_, ?_, ?_, ?_, ⟨rfl, rfl, rfl⟩, ⟨rfl, rfl, rfl, rfl⟩⟩
  · simp [FIoStatus.IsCompleted, FIoStatus.GetErrorCode]
  · simp [FIoStatus.IsOk, FIoStatus.GetErrorCode]
  · cases c <;> simp [FIoStatus.IsOk, FIoStatus.IsCompleted]
  · intro h
    cases c <;> simp_all [FIoStatus.IsOk, FIoStatus.IsCompleted, FIoStatus.GetErrorCode]
  · intro h1 h2
    cases c <;> simp_all [FIoStatus.IsOk, FIoStatus.IsCompleted, FIoStatus.GetErrorCode]

/-! ## Buffers -/

theorem BufCore.ofData_not_owned (Data InSize : Nat) :
    (BufCore.ofData Data InSize false).IsMemoryOwned = false := by
  simp [BufCore.ofData, BufCore.SetIsOwned, BufCore.SetDataAndSize, BufCore.init,
    BufCore.IsMemoryOwned, BufCore.OwnsMemory]

theorem BufCore.ofOuter_not_owned (Data InSize InOuter : Nat) :
    (BufCore.ofOuter Data InSize InOuter).IsMemoryOwned = false := by
  simp [BufCore.ofOuter, BufCore.SetDataAndSize, BufCore.init,
    BufCore.IsMemoryOwned, BufCore.OwnsMemory]

/-- C10: for every `FIoBuffer` that does not own its memory, and so for every buffer
built with the `Wrap` tag or as a view into an outer buffer, `Release()` returns (it does
not stop at the `check` of the `TIoStatusOr(FIoStatus)` constructor) a
`TIoStatusOr<uint8*>` that is not Ok: it carries the failed status and exposes no
pointer. The buffer is left as it was: data pointer, size and ownership flag are
unchanged. -/
theorem C10_Release_not_owned (Failure : { Status : FIoStatus // Status.IsOk = false })
    (b : FIoBuffer) (Data InSize OuterCore : Nat)
    (hb : b.IsMemoryOwned = false) :
    (∃ r b', b.Release Failure = .ok (r, b') ∧
      r.IsOk = false ∧ r.Status = Failure.val ∧
      r.ValueOrDie = .error (Fault.StatusOrCrash Failure.val) ∧ b' = b ∧
      b'.Data = b.Data ∧ b'.DataSize = b.DataSize ∧ b'.IsMemoryOwned = b.IsMemoryOwned) ∧
    (FIoBuffer.Wrap Data InSize).IsMemoryOwned = false ∧
    (FIoBuffer.View Data InSize OuterCore).IsMemoryOwned = false ∧
    (∃ r, (FIoBuffer.Wrap Data InSize).Release Failure = .ok (r, FIoBuffer.Wrap Data InSize) ∧
      r.IsOk = false) ∧
    (∃ r, (FIoBuffer.View Data InSize OuterCore).Release Failure
        = .ok (r, FIoBuffer.View Data InSize OuterCore) ∧
      r.IsOk = false) := by
  obtain ⟨Status, hF⟩ := Failure
  have key : ∀ c : FIoBuffer, c.IsMemoryOwned = false →
      c.Release ⟨Status, hF⟩ = .ok ({ StatusValue := Status, Value := none }, c) := by
    intro c hc
    have hc' : c.Core.IsMemoryOwned = false := hc
    simp [FIoBuffer.Release, BufCore.ReleaseMemory, hc', TIoStatusOr.ofStatus, hF]
  have hno : ({ StatusValue := Status, Value := none } : TIoStatusOr Nat).IsOk = false := hF
  have hw : (FIoBuffer.Wrap Data InSize).IsMemoryOwned = false :=
    BufCore.ofData_not_owned Data InSize
  have hv : (FIoBuffer.View Data InSize OuterCore).IsMemoryOwned = false :=
    BufCore.ofOuter_not_owned Data InSize OuterCore
  exact ⟨⟨_, _, key b hb, hno, rfl, TIoStatusOr.ValueOrDie_of_not_ok _ hno, rfl, rfl, rfl, rfl⟩,
    hw, hv, ⟨_, key _ hw, hno⟩, ⟨_, key _ hv, hno⟩⟩

/-- Witness for C10: a buffer wrapping 16 bytes at address 4096, released with the
failed status `InvalidParameter`. -/
theorem C10_Release_not_owned_witness :
    (∃ r b', (FIoBuffer.Wrap 4096 16).Release ⟨FIoStatus.ofCode .InvalidParameter, rfl⟩
        = .ok (r, b') ∧
      r.IsOk = false ∧ r.Status = FIoStatus.ofCode .InvalidParameter ∧
      r.ValueOrDie = .error (Fault.StatusOrCrash (FIoStatus.ofCode .InvalidParameter)) ∧
      b' = FIoBuffer.Wrap 4096 16 ∧
      b'.Data = (FIoBuffer.Wrap 4096 16).Data ∧
      b'.DataSize = (FIoBuffer.Wrap 4096 16).DataSize ∧
      b'.IsMemoryOwned = (FIoBuffer.Wrap 4096 16).IsMemoryOwned) ∧
    (FIoBuffer.Wrap 8192 32).IsMemoryOwned = false ∧
    (FIoBuffer.View 8192 32 512).IsMemoryOwned = false ∧
    (∃ r, (FIoBuffer.Wrap 8192 32).Release ⟨FIoStatus.ofCode .InvalidParameter, rfl⟩
        = .ok (r, FIoBuffer.Wrap 8192 32) ∧
      r.IsOk = false) ∧
    (∃ r, (FIoBuffer.View 8192 32 512).Release ⟨FIoStatus.ofCode .InvalidParameter, rfl⟩
        = .ok (r, FIoBuffer.View 8192 32 512) ∧
      r.IsOk = false) :=
  C10_Release_not_owned ⟨FIoStatus.ofCode .InvalidParameter, rfl⟩ (FIoBuffer.Wrap 4096 16)
    8192 32 512 (by decide)


/-! ## Container flags and read options -/

set_option maxRecDepth 100000 in
theorem EIoContainerFlags.bit_test (v : uint8) :
    ((v.val &&& 1) % 256 == 0) = !v.val.testBit 0 ∧
    ((v.val &&& 2) % 256 == 0) = !v.val.testBit 1 ∧
    ((v.val &&& 4) % 256 == 0) = !v.val.testBit 2 := by
  revert v
  decide

theorem containerFlagsOf_predicates :
    ∀ c e s : Bool,
      (!((containerFlagsOf c e s).and EIoContainerFlags.Compressed).not) = c ∧
      (!((containerFlagsOf c e s).and EIoContainerFlags.Encrypted).not) = e ∧
      (!((containerFlagsOf c e s).and EIoContainerFlags.Signed).not) = s := by
  decide

/-- C15: for every `EIoContainerFlags` value `f` (with any other settings),
`IsCompressed`, `IsEncrypted` and `IsSigned` return true iff bit 0, bit 1 and bit 2 of
`f` is set respectively; and for each of the 8 subsets of
`{Compressed, Encrypted, Signed}` the bitwise OR of its members makes exactly the
predicates of that subset true. -/
theorem C15_container_flag_predicates (f : EIoContainerFlags) (Id Guid Handle : Nat)
    (Key : List uint8) (c e s : Bool) :
    ((FIoContainerSettings.mk Id f Guid Key Handle).IsCompressed = f.Value.val.testBit 0 ∧
      (FIoContainerSettings.mk Id f Guid Key Handle).IsEncrypted = f.Value.val.testBit 1 ∧
      (FIoContainerSettings.mk Id f Guid Key Handle).IsSigned = f.Value.val.testBit 2) ∧
    ((FIoContainerSettings.mk Id (containerFlagsOf c e s) Guid Key Handle).IsCompressed = c ∧
      (FIoContainerSettings.mk Id (containerFlagsOf c e s) Guid Key Handle).IsEncrypted = e ∧
      (FIoContainerSettings.mk Id (containerFlagsOf c e s) Guid Key Handle).IsSigned = s) := by
  obtain ⟨h0, h1, h2⟩ := EIoContainerFlags.bit_test f.Value
  refine ⟨⟨?_, ?_, ?_⟩, ?_⟩
  · simp only [FIoContainerSettings.IsCompressed, EIoContainerFlags.and, EIoContainerFlags.not,
      EIoContainerFlags.Compressed]
    rw [show ((1 : uint8).val) = 1 from rfl, h0, Bool.not_not]
  · simp only [FIoContainerSettings.IsEncrypted, EIoContainerFlags.and, EIoContainerFlags.not,
      EIoContainerFlags.Encrypted]
    rw [show ((2 : uint8).val) = 2 from rfl, h1, Bool.not_not]
  · simp only [FIoContainerSettings.IsSigned, EIoContainerFlags.and, EIoContainerFlags.not,
      EIoContainerFlags.Signed]
    rw [show ((4 : uint8).val) = 4 from rfl, h2, Bool.not_not]
  · exact containerFlagsOf_predicates c e s

/-- C16: a default `FIoReadOptions` has offset 0, size `2 ^ 64 - 1` and a null target
address; `FIoReadOptions(o, s)` and `SetRange(o, s)` make `GetOffset() = o` and
`GetSize() = s` and leave `GetTargetVa()` as it was (null for the constructor);
`SetTargetVa(p)` makes `GetTargetVa() = p` and leaves offset and size unchanged. -/
theorem C16_read_options_accessors (x : FIoReadOptions) (o s p : Nat) :
    (FIoReadOptions.default.GetOffset = 0 ∧
      FIoReadOptions.default.GetSize = 2 ^ 64 - 1 ∧
      FIoReadOptions.default.GetTargetVa = 0) ∧
    ((FIoReadOptions.ofRange o s).GetOffset = o ∧
      (FIoReadOptions.ofRange o s).GetSize = s ∧
      (FIoReadOptions.ofRange o s).GetTargetVa = FIoReadOptions.default.GetTargetVa) ∧
    ((x.SetRange o s).GetOffset = o ∧
      (x.SetRange o s).GetSize = s ∧
      (x.SetRange o s).GetTargetVa = x.GetTargetVa) ∧
    ((x.SetTargetVa p).GetTargetVa = p ∧
      (x.SetTargetVa p).GetOffset = x.GetOffset ∧
      (x.SetTargetVa p).GetSize = x.GetSize) :=
  ⟨⟨rfl, rfl, rfl⟩, ⟨rfl, rfl, rfl⟩, ⟨rfl, rfl, rfl⟩, ⟨rfl, rfl, rfl⟩⟩

/-! ## Memory and `MakeOwned` -/

theorem readMemory_length (Heap : Memory) (Ptr Size : Nat) :
    (readMemory Heap Ptr Size).length = Size := by
  simp [readMemory]

theorem readMemory_add (Heap : Memory) (Ptr m n : Nat) :
    readMemory Heap Ptr (m + n) = readMemory Heap Ptr m ++ readMemory Heap (Ptr + m) n := by
  simp [readMemory, List.range_add, List.map_map, Function.comp_def, Nat.add_assoc]

theorem readMemory_congr (H₁ H₂ : Memory) (Ptr Size : Nat)
    (h : ∀ a, Ptr ≤ a → a < Ptr + Size → H₁ a = H₂ a) :
    readMemory H₁ Ptr Size = readMemory H₂ Ptr Size := by
  unfold readMemory
  apply List.map_congr_left
  intro i hi
  rw [List.mem_range] at hi
  exact h _ (Nat.le_add_right _ _) (by omega)

theorem readMemory_writeMemory_same (Heap : Memory) (Ptr : Nat) (Data : List uint8) :
    readMemory (writeMemory Heap Ptr Data) Ptr Data.length = Data := by
  apply List.ext_getElem
  · simp [readMemory]
  · intro i h₁ h₂
    simp only [readMemory, List.getElem_map, List.getElem_range, writeMemory]
    have hi : i < Data.length := h₂
    rw [if_pos ⟨Nat.le_add_right _ _, by omega⟩, Nat.add_sub_cancel_left]
    simp [List.getD_eq_getElem?_getD, hi]

theorem writeMemory_outside (Heap : Memory) (Ptr : Nat) (Data : List uint8) (a : Nat)
    (h : a < Ptr ∨ Ptr + Data.length ≤ a) : writeMemory Heap Ptr Data a = Heap a := by
  unfold writeMemory
  rw [if_neg]
  omega

theorem BufCore.SetIsOwned_true_owned (c : BufCore) : (c.SetIsOwned true).IsMemoryOwned = true := by
  have h : ((c.Flags ||| 1) % 256) % 2 = 1 := by
    rw [Nat.mod_mod_of_dvd _ (by decide : 2 ∣ 256)]
    simp
  simp [BufCore.SetIsOwned, BufCore.IsMemoryOwned, BufCore.OwnsMemory, Nat.and_one_is_mod, h]

theorem BufCore.MakeOwned_of_owned (NewBuffer : Nat) (Heap : Memory) (c : BufCore)
    (h : c.IsMemoryOwned = true) : c.MakeOwned NewBuffer Heap = (Heap, c) := by
  simp [BufCore.MakeOwned, h]

theorem BufCore.MakeOwned_owned (NewBuffer : Nat) (Heap : Memory) (c : BufCore) :
    (c.MakeOwned NewBuffer Heap).2.IsMemoryOwned = true := by
  by_cases h : c.IsMemoryOwned = true
  · rw [BufCore.MakeOwned_of_owned _ _ _ h]
    exact h
  · simp only [BufCore.MakeOwned, h, Bool.false_eq_true, if_false]
    exact BufCore.SetIsOwned_true_owned _

theorem BufCore.MakeOwned_size (NewBuffer : Nat) (Heap : Memory) (c : BufCore) :
    (c.MakeOwned NewBuffer Heap).2.DataSize = c.DataSize := by
  by_cases h : c.IsMemoryOwned = true
  · rw [BufCore.MakeOwned_of_owned _ _ _ h]
  · simp [BufCore.MakeOwned, h, BufCore.SetIsOwned, BufCore.DataSize]

theorem BufCore.MakeOwned_contents (NewBuffer : Nat) (Heap : Memory) (c : BufCore) :
    (c.MakeOwned NewBuffer Heap).2.Contents (c.MakeOwned NewBuffer Heap).1 = c.Contents Heap := by
  by_cases h : c.IsMemoryOwned = true
  · rw [BufCore.MakeOwned_of_owned _ _ _ h]
  · have hsize := BufCore.MakeOwned_size NewBuffer Heap c
    unfold BufCore.Contents
    rw [hsize]
    simp only [BufCore.MakeOwned, h, Bool.false_eq_true, if_false] at *
    have hptr : (({ c with DataPtr := NewBuffer } : BufCore).SetIsOwned true).Data = NewBuffer := by
      simp [BufCore.SetIsOwned, BufCore.Data]
    rw [hptr]
    have := readMemory_writeMemory_same Heap NewBuffer (readMemory Heap c.Data c.DataSize)
    rw [readMemory_length] at this
    exact this

/-- C11: `MakeOwned` is idempotent. For every `FIoBuffer` that already owns its memory,
`MakeOwned()` and `EnsureOwned()` leave the memory and the buffer as they were, so the
data pointer, the size and the contents are unchanged and the buffer is still owned; and
for any buffer `MakeOwned()` leaves an owned buffer of the same size and contents, on
which a second `MakeOwned()` changes nothing, so calling it twice gives the same
observable state (contents, size, `IsMemoryOwned`) as calling it once. -/
theorem C11_MakeOwned_idempotent (b : FIoBuffer) (Heap : Memory) (p₁ p₂ : Nat) :
    (b.IsMemoryOwned = true →
      b.MakeOwned p₁ Heap = (Heap, b) ∧ b.EnsureOwned p₁ Heap = (Heap, b) ∧
      (b.MakeOwned p₁ Heap).2.Data = b.Data ∧
      (b.MakeOwned p₁ Heap).2.DataSize = b.DataSize ∧
      (b.MakeOwned p₁ Heap).2.Contents (b.MakeOwned p₁ Heap).1 = b.Contents Heap ∧
      (b.MakeOwned p₁ Heap).2.IsMemoryOwned = true) ∧
    ((b.MakeOwned p₁ Heap).2.IsMemoryOwned = true ∧
      (b.MakeOwned p₁ Heap).2.DataSize = b.DataSize ∧
      (b.MakeOwned p₁ Heap).2.Contents (b.MakeOwned p₁ Heap).1 = b.Contents Heap) ∧
    ((b.MakeOwned p₁ Heap).2.MakeOwned p₂ (b.MakeOwned p₁ Heap).1 = b.MakeOwned p₁ Heap ∧
      (b.MakeOwned p₁ Heap).2.EnsureOwned p₂ (b.MakeOwned p₁ Heap).1 = b.MakeOwned p₁ Heap) := by
  have hown : (b.MakeOwned p₁ Heap).2.IsMemoryOwned = true :=
    BufCore.MakeOwned_owned p₁ Heap b.Core
  have hsize : (b.MakeOwned p₁ Heap).2.DataSize = b.DataSize :=
    BufCore.MakeOwned_size p₁ Heap b.Core
  have hcont : (b.MakeOwned p₁ Heap).2.Contents (b.MakeOwned p₁ Heap).1 = b.Contents Heap :=
    BufCore.MakeOwned_contents p₁ Heap b.Core
  have hfix : ∀ (c : FIoBuffer) (H : Memory) (p : Nat), c.IsMemoryOwned = true →
      c.MakeOwned p H = (H, c) ∧ c.EnsureOwned p H = (H, c) := by
    intro c H p hc
    have hc' : c.Core.IsMemoryOwned = true := hc
    constructor
    · simp [FIoBuffer.MakeOwned, BufCore.MakeOwned_of_owned _ _ _ hc']
    · simp [FIoBuffer.EnsureOwned, hc']
  refine ⟨?_, ⟨hown, hsize, hcont⟩, ?_⟩
  · intro hb
    obtain ⟨e₁, e₂⟩ := hfix b Heap p₁ hb
    refine ⟨e₁, e₂, ?_, ?_, ?_, ?_⟩
    · rw [e₁]
    · rw [e₁]
    · rw [e₁]
    · rw [e₁]; exact hb
  · exact hfix _ _ p₂ hown

/-- Witness for C11: a buffer that owns 16 bytes at address 4096. -/
theorem C11_MakeOwned_idempotent_witness :
    (⟨BufCore.ofData 4096 16 true⟩ : FIoBuffer).IsMemoryOwned = true ∧
    (⟨BufCore.ofData 4096 16 true⟩ : FIoBuffer).MakeOwned 8192 (fun _ => 7)
      = ((fun _ => 7), ⟨BufCore.ofData 4096 16 true⟩) ∧
    (⟨BufCore.ofData 4096 16 true⟩ : FIoBuffer).EnsureOwned 8192 (fun _ => 7)
      = ((fun _ => 7), ⟨BufCore.ofData 4096 16 true⟩) :=
  ⟨by decide,
    ((C11_MakeOwned_idempotent ⟨BufCore.ofData 4096 16 true⟩ (fun _ => 7) 8192 0).1
      (by decide)).1,
    ((C11_MakeOwned_idempotent ⟨BufCore.ofData 4096 16 true⟩ (fun _ => 7) 8192 0).1
      (by decide)).2.1⟩

/-! ## Batches -/

/-- C12: for every batch in which at least one request was added through `Read` with
options whose `TargetVa` is non-null, `IssueWithCallback` returns a status with error
code `InvalidParameter` and leaves the dispatcher as it was: no request of the batch is
submitted for I/O. -/
theorem C12_IssueWithCallback_TargetVa (b : FIoBatch) (Chunk : FIoChunkId)
    (Options : FIoReadOptions) (Later : List (FIoChunkId × FIoReadOptions))
    (Dispatcher : FIoDispatcherImpl) (BatchOptions : FIoBatchReadOptions)
    (Priority : EIoDispatcherPriority) (h : Options.GetTargetVa ≠ 0) :
    ((Later.foldl (fun acc r => (acc.Read r.1 r.2).2) (b.Read Chunk Options).2).IssueWithCallback
        Dispatcher BatchOptions Priority).1.GetErrorCode = EIoErrorCode.InvalidParameter ∧
    ((Later.foldl (fun acc r => (acc.Read r.1 r.2).2) (b.Read Chunk Options).2).IssueWithCallback
        Dispatcher BatchOptions Priority).2 = Dispatcher := by
  have hmem : ∀ (L : List (FIoChunkId × FIoReadOptions)) (c : FIoBatch),
      (∃ r ∈ c.Requests, r.Options.GetTargetVa ≠ 0) →
      ∃ r ∈ (L.foldl (fun acc r => (acc.Read r.1 r.2).2) c).Requests,
        r.Options.GetTargetVa ≠ 0 := by
    intro L
    induction L with
    | nil => intro c hc; exact hc
    | cons x xs ih =>
      intro c hc
      apply ih
      obtain ⟨r, hr, hr'⟩ := hc
      exact ⟨r, by simp [FIoBatch.Read, hr], hr'⟩
  obtain ⟨r, hr, hr'⟩ := hmem Later (b.Read Chunk Options).2
    ⟨⟨Chunk, Options⟩, by simp [FIoBatch.Read], h⟩
  have hany : (Later.foldl (fun acc r => (acc.Read r.1 r.2).2) (b.Read Chunk Options).2).Requests.any
      (fun r => r.Options.GetTargetVa != 0) = true := by
    rw [List.any_eq_true]
    exact ⟨r, hr, by simpa using hr'⟩
  simp [FIoBatch.IssueWithCallback, hany, FIoStatus.ofCode, FIoStatus.GetErrorCode]

theorem writeMemory_comm (Heap : Memory) (p q : Nat) (d e : List uint8)
    (h : p + d.length ≤ q ∨ q + e.length ≤ p) :
    writeMemory (writeMemory Heap p d) q e = writeMemory (writeMemory Heap q e) p d := by
  funext a
  simp only [writeMemory]
  split_ifs <;> first | rfl | omega

theorem FIoBatch.OutputLayout_base_le (Chunks : FIoChunkId → List uint8) (rs : List FIoRequestImpl) :
    ∀ (Base : Nat), ∀ w ∈ FIoBatch.OutputLayout Chunks Base rs, Base ≤ w.1 := by
  induction rs with
  | nil => intro Base w hw; simp [FIoBatch.OutputLayout] at hw
  | cons r rs ih =>
    intro Base w hw
    simp only [FIoBatch.OutputLayout, List.mem_cons] at hw
    rcases hw with rfl | hw
    · exact Nat.le_refl _
    · exact Nat.le_trans (Nat.le_add_right _ _) (ih _ w hw)

theorem FIoBatch.OutputLayout_pairwise (Chunks : FIoChunkId → List uint8)
    (rs : List FIoRequestImpl) :
    ∀ (Base : Nat), (FIoBatch.OutputLayout Chunks Base rs).Pairwise
      (fun x y => x.1 + x.2.length ≤ y.1 ∨ y.1 + y.2.length ≤ x.1) := by
  induction rs with
  | nil => intro Base; simp [FIoBatch.OutputLayout]
  | cons r rs ih =>
    intro Base
    simp only [FIoBatch.OutputLayout, List.pairwise_cons]
    exact ⟨fun w hw => Or.inl (FIoBatch.OutputLayout_base_le Chunks rs _ w hw), ih _⟩

theorem FIoBatch.CompleteReads_in_order (Chunks : FIoChunkId → List uint8)
    (rs : List FIoRequestImpl) :
    ∀ (Heap : Memory) (Base : Nat),
      readMemory (FIoBatch.CompleteReads Heap (FIoBatch.OutputLayout Chunks Base rs)) Base
          (((rs.map (FIoBatch.RequestedRange Chunks)).map List.length).sum)
        = (rs.map (FIoBatch.RequestedRange Chunks)).flatten ∧
      ∀ a, a < Base →
        FIoBatch.CompleteReads Heap (FIoBatch.OutputLayout Chunks Base rs) a = Heap a := by
  induction rs with
  | nil =>
    intro Heap Base
    simp [FIoBatch.OutputLayout, FIoBatch.CompleteReads, readMemory]
  | cons r rs ih =>
    intro Heap Base
    obtain ⟨ih₁, ih₂⟩ := ih (writeMemory Heap Base (FIoBatch.RequestedRange Chunks r))
      (Base + (FIoBatch.RequestedRange Chunks r).length)
    have hstep : FIoBatch.CompleteReads Heap (FIoBatch.OutputLayout Chunks Base (r :: rs))
        = FIoBatch.CompleteReads (writeMemory Heap Base (FIoBatch.RequestedRange Chunks r))
            (FIoBatch.OutputLayout Chunks (Base + (FIoBatch.RequestedRange Chunks r).length) rs) := by
      simp [FIoBatch.OutputLayout, FIoBatch.CompleteReads, FIoBatch.CompleteRead]
    rw [hstep]
    constructor
    · simp only [List.map_cons, List.sum_cons, List.flatten_cons]
      rw [readMemory_add, ih₁]
      congr 1
      rw [readMemory_congr _ (writeMemory Heap Base (FIoBatch.RequestedRange Chunks r)) _ _
        (fun a _ h₂ => ih₂ a h₂)]
      exact readMemory_writeMemory_same _ _ _
    · intro a ha
      rw [ih₂ a (by omega)]
      exact writeMemory_outside _ _ _ _ (Or.inl ha)

theorem FIoBatch.CompleteReads_perm (Heap : Memory) (l Order : List (Nat × List uint8))
    (hl : l.Pairwise (fun x y => x.1 + x.2.length ≤ y.1 ∨ y.1 + y.2.length ≤ x.1))
    (h : Order.Perm l) :
    FIoBatch.CompleteReads Heap Order = FIoBatch.CompleteReads Heap l := by
  unfold FIoBatch.CompleteReads
  symm
  apply List.Perm.foldl_eq' h.symm
  intro x hx y hy z
  by_cases hxy : x = y
  · rw [hxy]
  · have hsymm : Symmetric
        (fun x y : Nat × List uint8 => x.1 + x.2.length ≤ y.1 ∨ y.1 + y.2.length ≤ x.1) :=
      fun _ _ hr => hr.symm
    exact writeMemory_comm z x.1 y.1 x.2 y.2 (hl.forall hsymm hx hy hxy)

/-- C13: for every batch issued with `IssueWithCallback` (no request has a target
address, so the call returns `Ok` and submits the requests in the order they were
added), the buffer handed to the callback is the concatenation of the requested chunk
ranges in the order the requests were added with `Read`, for every order in which the
individual reads complete (every permutation of the reads of the batch). -/
theorem C13_callback_buffer_in_request_order (Chunks : FIoChunkId → List uint8) (b : FIoBatch)
    (Dispatcher : FIoDispatcherImpl) (BatchOptions : FIoBatchReadOptions)
    (Priority : EIoDispatcherPriority)
    (Heap : Memory) (OutputPtr : Nat) (Order : List (Nat × List uint8))
    (hva : ∀ r ∈ b.Requests, r.Options.GetTargetVa = 0)
    (h : Order.Perm (FIoBatch.OutputLayout Chunks OutputPtr b.Requests)) :
    (b.IssueWithCallback Dispatcher BatchOptions Priority).1.IsOk = true ∧
    (b.IssueWithCallback Dispatcher BatchOptions Priority).2.Submitted
      = Dispatcher.Submitted ++ b.Requests ∧
    b.CallbackBuffer Chunks Heap OutputPtr Order
      = (b.Requests.map (FIoBatch.RequestedRange Chunks)).flatten := by
  have hany : b.Requests.any (fun r => r.Options.GetTargetVa != 0) = false := by
    rw [List.any_eq_false]
    intro r hr
    simp [hva r hr]
  refine ⟨?_, ?_, ?_⟩
  · simp [FIoBatch.IssueWithCallback, hany]
    rfl
  · simp [FIoBatch.IssueWithCallback, hany]
  · unfold FIoBatch.CallbackBuffer FIoBatch.OutputSize
    rw [FIoBatch.CompleteReads_perm Heap _ Order
      (FIoBatch.OutputLayout_pairwise Chunks b.Requests OutputPtr) h]
    exact (FIoBatch.CompleteReads_in_order Chunks b.Requests Heap OutputPtr).1

/-- Witness for C13: the sample batch, whose reads complete in the order third, first,
second. -/
theorem C13_callback_buffer_in_request_order_witness :
    (sampleBatch.IssueWithCallback ⟨[]⟩ FIoBatchReadOptions.default
      .IoDispatcherPriority_Medium).1.IsOk = true ∧
    (sampleBatch.IssueWithCallback ⟨[]⟩ FIoBatchReadOptions.default
      .IoDispatcherPriority_Medium).2.Submitted = [] ++ sampleBatch.Requests ∧
    sampleBatch.CallbackBuffer sampleChunks (fun _ => 9) 4096
        [(4101, [1]), (4096, [2, 2]), (4098, [3, 3, 3])]
      = (sampleBatch.Requests.map (FIoBatch.RequestedRange sampleChunks)).flatten :=
  C13_callback_buffer_in_request_order sampleChunks sampleBatch ⟨[]⟩ FIoBatchReadOptions.default
    .IoDispatcherPriority_Medium (fun _ => 9) 4096
    [(4101, [1]), (4096, [2, 2]), (4098, [3, 3, 3])] (by decide) (by decide)

/-- Witness for C12: an empty batch to which a request with target address 4096 and then
a request with default options are added. -/
theorem C12_IssueWithCallback_TargetVa_witness :
    (([(⟨fun _ => 2⟩, FIoReadOptions.default)].foldl (fun acc r => (FIoBatch.Read acc r.1 r.2).2)
        ((FIoBatch.mk []).Read ⟨fun _ => 1⟩ (FIoReadOptions.default.SetTargetVa 4096)).2).IssueWithCallback
        ⟨[]⟩ FIoBatchReadOptions.default .IoDispatcherPriority_Medium).1.GetErrorCode
      = EIoErrorCode.InvalidParameter ∧
    (([(⟨fun _ => 2⟩, FIoReadOptions.default)].foldl (fun acc r => (FIoBatch.Read acc r.1 r.2).2)
        ((FIoBatch.mk []).Read ⟨fun _ => 1⟩ (FIoReadOptions.default.SetTargetVa 4096)).2).IssueWithCallback
        ⟨[]⟩ FIoBatchReadOptions.default .IoDispatcherPriority_Medium).2 = ⟨[]⟩ :=
  C12_IssueWithCallback_TargetVa (FIoBatch.mk []) ⟨fun _ => 1⟩
    (FIoReadOptions.default.SetTargetVa 4096) [(⟨fun _ => 2⟩, FIoReadOptions.default)] ⟨[]⟩
    FIoBatchReadOptions.default .IoDispatcherPriority_Medium (by decide)

/-! ## Container round trip -/

/-- The layout of the sample container: the three chunks in append order, the memory
mapped one at offset 4 after one byte of padding. -/
theorem FIoStoreWriter.sample_layout :
    ((FIoStoreWriter.Initialize sampleWriterContext sampleContainerSettings).2.AppendAll
        [sampleCallComputed, sampleCallPrecomputed, sampleCallLast]).Data
      = [10, 20, 30, 0, 7, 8, 40] ∧
    ((FIoStoreWriter.Initialize sampleWriterContext sampleContainerSettings).2.AppendAll
        [sampleCallComputed, sampleCallPrecomputed, sampleCallLast]).Toc.map
          (fun e => (e.Offset, e.Size, e.bIsMemoryMapped))
      = [(0, 3, false), (4, 2, true), (6, 1, false)] ∧
    (((FIoStoreWriter.Initialize sampleWriterContext sampleContainerSettings).2.AppendAll
        [sampleCallComputed, sampleCallPrecomputed, sampleCallLast]).Flush false).1.Value
      = some { ContainerId := 1, TocEntryCount := 3, PaddingSize := 1,
               UncompressedContainerSize := 6, ContainerFlags := EIoContainerFlags.None } := by
  refine ⟨by decide, by decide, by decide⟩

theorem FIoChunkId.GetTypeHash_swap_index_bytes (Id Id2 : Bytes 12) (x y x2 y2 : Nat)
    (hsame : ∀ i : Fin 12, i.val ≠ 8 → i.val ≠ 9 → Id i = Id2 i)
    (h8 : (Id ⟨8, by decide⟩).val = x) (h9 : (Id ⟨9, by decide⟩).val = y)
    (k8 : (Id2 ⟨8, by decide⟩).val = x2) (k9 : (Id2 ⟨9, by decide⟩).val = y2)
    (hxy : 33 * x + y = 33 * x2 + y2) :
    FIoChunkId.GetTypeHash ⟨Id⟩ = FIoChunkId.GetTypeHash ⟨Id2⟩ := by
  have h0 : Id 0 = Id2 0 := hsame 0 (by decide) (by decide)
  have h1 : Id 1 = Id2 1 := hsame 1 (by decide) (by decide)
  have h2 : Id 2 = Id2 2 := hsame 2 (by decide) (by decide)
  have h3 : Id 3 = Id2 3 := hsame 3 (by decide) (by decide)
  have h4 : Id 4 = Id2 4 := hsame 4 (by decide) (by decide)
  have h5 : Id 5 = Id2 5 := hsame 5 (by decide) (by decide)
  have h6 : Id 6 = Id2 6 := hsame 6 (by decide) (by decide)
  have h7 : Id 7 = Id2 7 := hsame 7 (by decide) (by decide)
  have h10 : Id 10 = Id2 10 := hsame 10 (by decide) (by decide)
  have h11 : Id 11 = Id2 11 := hsame 11 (by decide) (by decide)
  have h8 : (Id 8).val = x := h8
  have h9 : (Id 9).val = y := h9
  have k8 : (Id2 8).val = x2 := k8
  have k9 : (Id2 9).val = y2 := k9
  have e0 : byteAt Id 0 = Id 0 := rfl
  have e1 : byteAt Id 1 = Id 1 := rfl
  have e2 : byteAt Id 2 = Id 2 := rfl
  have e3 : byteAt Id 3 = Id 3 := rfl
  have e4 : byteAt Id 4 = Id 4 := rfl
  have e5 : byteAt Id 5 = Id 5 := rfl
  have e6 : byteAt Id 6 = Id 6 := rfl
  have e7 : byteAt Id 7 = Id 7 := rfl
  have e8 : byteAt Id 8 = Id 8 := rfl
  have e9 : byteAt Id 9 = Id 9 := rfl
  have e10 : byteAt Id 10 = Id 10 := rfl
  have e11 : byteAt Id 11 = Id 11 := rfl
  have f0 : byteAt Id2 0 = Id2 0 := rfl
  have f1 : byteAt Id2 1 = Id2 1 := rfl
  have f2 : byteAt Id2 2 = Id2 2 := rfl
  have f3 : byteAt Id2 3 = Id2 3 := rfl
  have f4 : byteAt Id2 4 = Id2 4 := rfl
  have f5 : byteAt Id2 5 = Id2 5 := rfl
  have f6 : byteAt Id2 6 = Id2 6 := rfl
  have f7 : byteAt Id2 7 = Id2 7 := rfl
  have f8 : byteAt Id2 8 = Id2 8 := rfl
  have f9 : byteAt Id2 9 = Id2 9 := rfl
  have f10 : byteAt Id2 10 = Id2 10 := rfl
  have f11 : byteAt Id2 11 = Id2 11 := rfl
  simp only [FIoChunkId.GetTypeHash, FIoChunkId.GetTypeHash.loop, Nat.zero_add, Nat.reduceAdd,
    e0, e1, e2, e3, e4, e5, e6, e7, e8, e9, e10, e11,
    f0, f1, f2, f3, f4, f5, f6, f7, f8, f9, f10, f11,
    ← h0, ← h1, ← h2, ← h3, ← h4, ← h5, ← h6, ← h7, ← h10, ← h11, h8, h9, k8, k9]
  generalize (((((((((5381 * 33 + (Id 0).val) % 2 ^ 32 * 33 + (Id 1).val) % 2 ^ 32 * 33
    + (Id 2).val) % 2 ^ 32 * 33 + (Id 3).val) % 2 ^ 32 * 33 + (Id 4).val) % 2 ^ 32 * 33
    + (Id 5).val) % 2 ^ 32 * 33 + (Id 6).val) % 2 ^ 32 * 33 + (Id 7).val) % 2 ^ 32) = h
  have key : ((h * 33 + x) % 2 ^ 32 * 33 + y) % 2 ^ 32
      = ((h * 33 + x2) % 2 ^ 32 * 33 + y2) % 2 ^ 32 := by
    omega
  rw [key]

/-- C21: `GetTypeHash` is not injective on ids built by `CreateIoChunkId`. On a
little-endian layout, for every base id, every chunk type and every content of the
uninitialised locals, the ids built with index 1 and with index 8448 (both calls
return) compare unequal under `operator==` and `operator!=` and have the same
`GetTypeHash`; on a big-endian layout the same holds for the indices 256 and 33. -/
theorem C21_GetTypeHash_collision (Uninit₁ Uninit₂ : FIoChunkId) (ChunkId : Nat)
    (IoChunkType : EIoChunkType) :
    (∃ a b, CreateIoChunkId .LittleEndian Uninit₁ ChunkId 1 IoChunkType = .ok a ∧
      CreateIoChunkId .LittleEndian Uninit₂ ChunkId 8448 IoChunkType = .ok b ∧
      a.eq b = false ∧ a.ne b = true ∧ a.GetTypeHash = b.GetTypeHash) ∧
    (∃ a b, CreateIoChunkId .BigEndian Uninit₁ ChunkId 256 IoChunkType = .ok a ∧
      CreateIoChunkId .BigEndian Uninit₂ ChunkId 33 IoChunkType = .ok b ∧
      a.eq b = false ∧ a.ne b = true ∧ a.GetTypeHash = b.GetTypeHash) := by
  constructor
  · have hne : chunkIdData .LittleEndian ChunkId 1 IoChunkType
        ≠ chunkIdData .LittleEndian ChunkId 8448 IoChunkType := by
      intro h
      have e8 := congrFun h ⟨8, by decide⟩
      simp [chunkIdData, storeUInt, byteOf] at e8
    refine ⟨_, _, CreateIoChunkId_ok _ Uninit₁ ChunkId 1 IoChunkType,
      CreateIoChunkId_ok _ Uninit₂ ChunkId 8448 IoChunkType, ?_, ?_, ?_⟩
    · rw [← Bool.not_eq_true, FIoChunkId.eq_iff_Id]
      exact hne
    · rw [FIoChunkId.ne_iff_Id]
      exact hne
    · apply FIoChunkId.GetTypeHash_swap_index_bytes _ _ 1 0 0 33
      · intro i h8 h9
        have hno : ¬ (8 ≤ i.val ∧ i.val < 8 + 2) := by omega
        simp [chunkIdData, storeUInt, hno]
      all_goals simp [chunkIdData, storeUInt, byteOf]
      all_goals rfl
  · have hne : chunkIdData .BigEndian ChunkId 256 IoChunkType
        ≠ chunkIdData .BigEndian ChunkId 33 IoChunkType := by
      intro h
      have e8 := congrFun h ⟨8, by decide⟩
      simp [chunkIdData, storeUInt, byteOf] at e8
    refine ⟨_, _, CreateIoChunkId_ok _ Uninit₁ ChunkId 256 IoChunkType,
      CreateIoChunkId_ok _ Uninit₂ ChunkId 33 IoChunkType, ?_, ?_, ?_⟩
    · rw [← Bool.not_eq_true, FIoChunkId.eq_iff_Id]
      exact hne
    · rw [FIoChunkId.ne_iff_Id]
      exact hne
    · apply FIoChunkId.GetTypeHash_swap_index_bytes _ _ 1 0 0 33
      · intro i h8 h9
        have hno : ¬ (8 ≤ i.val ∧ i.val < 8 + 2) := by omega
        simp [chunkIdData, storeUInt, hno]
      all_goals simp [chunkIdData, storeUInt, byteOf]
      all_goals rfl

/-! ## Consuming, copying and moving a `TIoStatusOr` -/

/-- C22: for every `TIoStatusOr<T>` with status `Ok` holding `v`, `ConsumeValueOrDie`
returns `v` and leaves the object with status `Unknown`, for which `IsOk()` is false
and `IsCompleted()` is false; a second `ConsumeValueOrDie`, and likewise `ValueOrDie`,
on the object left behind reaches `StatusOrCrash` with that status. -/
theorem C22_ConsumeValueOrDie_consumes {T : Type} (x : TIoStatusOr T) (v : T)
    (hok : x.IsOk = true) (hv : x.Value = some v) :
    ∃ y, x.ConsumeValueOrDie = .ok (v, y) ∧
      y.Status = FIoStatus.Unknown ∧
      y.Status.GetErrorCode = EIoErrorCode.Unknown ∧
      y.IsOk = false ∧ y.Status.IsCompleted = false ∧
      y.ConsumeValueOrDie = .error (Fault.StatusOrCrash FIoStatus.Unknown) ∧
      y.ValueOrDie = .error (Fault.StatusOrCrash FIoStatus.Unknown) := by
  refine ⟨_, TIoStatusOr.ConsumeValueOrDie_of_ok x v hok hv, rfl, rfl, rfl, rfl, ?_, ?_⟩
  · exact TIoStatusOr.ConsumeValueOrDie_of_not_ok _ rfl
  · exact TIoStatusOr.ValueOrDie_of_not_ok _ rfl

/-- Witness for C22: the object built from the value 5. -/
theorem C22_ConsumeValueOrDie_consumes_witness :
    ∃ y, (TIoStatusOr.ofValue (5 : Nat)).ConsumeValueOrDie = .ok (5, y) ∧
      y.Status = FIoStatus.Unknown ∧
      y.Status.GetErrorCode = EIoErrorCode.Unknown ∧
      y.IsOk = false ∧ y.Status.IsCompleted = false ∧
      y.ConsumeValueOrDie = .error (Fault.StatusOrCrash FIoStatus.Unknown) ∧
      y.ValueOrDie = .error (Fault.StatusOrCrash FIoStatus.Unknown) :=
  C22_ConsumeValueOrDie_consumes (TIoStatusOr.ofValue (5 : Nat)) 5 rfl rfl

theorem TIoStatusOr.ofMove_of_ok {T : Type} (src : TIoStatusOr T) (v : T)
    (hok : src.IsOk = true) (hv : src.Value = some v) :
    TIoStatusOr.ofMove src
      = .ok ({ StatusValue := src.StatusValue, Value := some v },
          { StatusValue := FIoStatus.ofCode EIoErrorCode.Unknown, Value := none }) := by
  unfold TIoStatusOr.IsOk at hok
  simp [TIoStatusOr.ofMove, hok, hv, FIoStatus.assignCode]

theorem TIoStatusOr.ofMove_of_not_ok {T : Type} (src : TIoStatusOr T)
    (hno : src.IsOk = false) :
    TIoStatusOr.ofMove src = .ok ({ StatusValue := src.StatusValue, Value := none }, src) := by
  unfold TIoStatusOr.IsOk at hno
  simp [TIoStatusOr.ofMove, hno]

theorem TIoStatusOr.ofCopy_of_ok {T : Type} (src : TIoStatusOr T) (v : T)
    (hok : src.IsOk = true) (hv : src.Value = some v) :
    TIoStatusOr.ofCopy src = .ok { StatusValue := src.StatusValue, Value := some v } := by
  unfold TIoStatusOr.IsOk at hok
  simp [TIoStatusOr.ofCopy, hok, hv]

theorem TIoStatusOr.ofCopy_of_not_ok {T : Type} (src : TIoStatusOr T)
    (hno : src.IsOk = false) :
    TIoStatusOr.ofCopy src = .ok { StatusValue := src.StatusValue, Value := none } := by
  unfold TIoStatusOr.IsOk at hno
  simp [TIoStatusOr.ofCopy, hno]

theorem TIoStatusOr.assignMove_of_ok {T : Type} (dst src : TIoStatusOr T) (v : T)
    (hok : src.IsOk = true) (hv : src.Value = some v) :
    dst.assignMove (.Other src)
      = .ok ({ StatusValue := FIoStatus.ofCode EIoErrorCode.Ok, Value := some v },
          some { StatusValue := FIoStatus.ofCode EIoErrorCode.Unknown, Value := none }) := by
  unfold TIoStatusOr.IsOk at hok
  simp [TIoStatusOr.assignMove, hok, hv, FIoStatus.assignCode]

theorem TIoStatusOr.assignMove_of_not_ok {T : Type} (dst src : TIoStatusOr T)
    (hno : src.IsOk = false) :
    dst.assignMove (.Other src)
      = .ok ({ dst.Reset with StatusValue := src.StatusValue }, some src) := by
  unfold TIoStatusOr.IsOk at hno
  simp [TIoStatusOr.assignMove, hno, FIoStatus.assign]

theorem TIoStatusOr.assignCopy_of_ok {T : Type} (dst src : TIoStatusOr T) (v : T)
    (hok : src.IsOk = true) (hv : src.Value = some v) :
    dst.assignCopy (.Other src)
      = .ok { StatusValue := FIoStatus.ofCode EIoErrorCode.Ok, Value := some v } := by
  unfold TIoStatusOr.IsOk at hok
  simp [TIoStatusOr.assignCopy, hok, hv, FIoStatus.assignCode]

theorem TIoStatusOr.assignCopy_of_not_ok {T : Type} (dst src : TIoStatusOr T)
    (hno : src.IsOk = false) :
    dst.assignCopy (.Other src) = .ok { dst.Reset with StatusValue := src.StatusValue } := by
  unfold TIoStatusOr.IsOk at hno
  simp [TIoStatusOr.assignCopy, hno, FIoStatus.assign]

/-- C23: copy and move of `TIoStatusOr<T>`, for every destination `dst` and every source
`src` that is a different object. If `src` is `Ok` holding `v`: the move constructor and
the move assignment give a destination that is `Ok` and holds `v` and leave the source
with status code `Unknown` (not `Ok`, not completed); the copy constructor gives a
destination with the status of `src` holding `v`, the copy assignment one with the
status code of `src` (`Ok`) holding `v`. If `src` is not `Ok`: all four give a
destination whose status equals the status of `src`, that is not `Ok` and exposes no
value, and the moves leave the source as it was. The copies take the source by a
reference to `const` and have no source afterwards to report; an assignment of an
object to itself changes nothing. -/
theorem C23_copy_and_move {T : Type} (dst src : TIoStatusOr T) :
    (∀ v, src.IsOk = true → src.Value = some v →
      (∃ y s, TIoStatusOr.ofMove src = .ok (y, s) ∧
        y.IsOk = true ∧ y.ValueOrDie = .ok v ∧
        s.Status.GetErrorCode = EIoErrorCode.Unknown ∧ s.IsOk = false ∧
        s.Status.IsCompleted = false) ∧
      (∃ y s, dst.assignMove (.Other src) = .ok (y, some s) ∧
        y.IsOk = true ∧ y.ValueOrDie = .ok v ∧
        s.Status.GetErrorCode = EIoErrorCode.Unknown ∧ s.IsOk = false ∧
        s.Status.IsCompleted = false) ∧
      (∃ y, TIoStatusOr.ofCopy src = .ok y ∧
        y.Status = src.Status ∧ y.IsOk = true ∧ y.ValueOrDie = .ok v) ∧
      (∃ y, dst.assignCopy (.Other src) = .ok y ∧
        y.Status.GetErrorCode = src.Status.GetErrorCode ∧ y.IsOk = true ∧
        y.ValueOrDie = .ok v)) ∧
    (src.IsOk = false →
      (∃ y, TIoStatusOr.ofMove src = .ok (y, src) ∧
        y.Status = src.Status ∧ y.IsOk = false ∧
        y.ValueOrDie = .error (Fault.StatusOrCrash src.Status)) ∧
      (∃ y, dst.assignMove (.Other src) = .ok (y, some src) ∧
        y.Status = src.Status ∧ y.IsOk = false ∧
        y.ValueOrDie = .error (Fault.StatusOrCrash src.Status)) ∧
      (∃ y, TIoStatusOr.ofCopy src = .ok y ∧
        y.Status = src.Status ∧ y.IsOk = false ∧
        y.ValueOrDie = .error (Fault.StatusOrCrash src.Status)) ∧
      (∃ y, dst.assignCopy (.Other src) = .ok y ∧
        y.Status = src.Status ∧ y.IsOk = false ∧
        y.ValueOrDie = .error (Fault.StatusOrCrash src.Status))) ∧
    (dst.assignMove .Self = .ok (dst, none) ∧ dst.assignCopy .Self = .ok dst) := by
  refine ⟨?_, ?_, rfl, rfl⟩
  · intro v hok hv
    have hcode : src.Status.GetErrorCode = EIoErrorCode.Ok := by
      simpa [TIoStatusOr.IsOk, TIoStatusOr.Status, FIoStatus.IsOk, FIoStatus.GetErrorCode]
        using hok
    refine ⟨⟨_, _, TIoStatusOr.ofMove_of_ok src v hok hv, hok, ?_, rfl, rfl, rfl⟩,
      ⟨_, _, TIoStatusOr.assignMove_of_ok dst src v hok hv, rfl, rfl, rfl, rfl, rfl⟩,
      ⟨_, TIoStatusOr.ofCopy_of_ok src v hok hv, rfl, hok, ?_⟩,
      ⟨_, TIoStatusOr.assignCopy_of_ok dst src v hok hv, ?_, rfl, rfl⟩⟩
    · exact TIoStatusOr.ValueOrDie_of_ok _ v hok rfl
    · exact TIoStatusOr.ValueOrDie_of_ok _ v hok rfl
    · rw [hcode]
      rfl
  · intro hno
    refine ⟨⟨_, TIoStatusOr.ofMove_of_not_ok src hno, rfl, hno, ?_⟩,
      ⟨_, TIoStatusOr.assignMove_of_not_ok dst src hno, rfl, hno, ?_⟩,
      ⟨_, TIoStatusOr.ofCopy_of_not_ok src hno, rfl, hno, ?_⟩,
      ⟨_, TIoStatusOr.assignCopy_of_not_ok dst src hno, rfl, hno, ?_⟩⟩
    · exact TIoStatusOr.ValueOrDie_of_not_ok _ hno
    · exact TIoStatusOr.ValueOrDie_of_not_ok _ hno
    · exact TIoStatusOr.ValueOrDie_of_not_ok _ hno
    · exact TIoStatusOr.ValueOrDie_of_not_ok _ hno

/-- Witness for C23: the source built from the value 4, moved and copied into new objects
and over a destination that held 9. -/
theorem C23_copy_and_move_witness :
    (∃ y s, TIoStatusOr.ofMove (TIoStatusOr.ofValue (4 : Nat)) = .ok (y, s) ∧
        y.IsOk = true ∧ y.ValueOrDie = .ok 4 ∧
        s.Status.GetErrorCode = EIoErrorCode.Unknown ∧ s.IsOk = false ∧
        s.Status.IsCompleted = false) ∧
      (∃ y s, (TIoStatusOr.ofValue (9 : Nat)).assignMove (.Other (TIoStatusOr.ofValue 4))
          = .ok (y, some s) ∧
        y.IsOk = true ∧ y.ValueOrDie = .ok 4 ∧
        s.Status.GetErrorCode = EIoErrorCode.Unknown ∧ s.IsOk = false ∧
        s.Status.IsCompleted = false) ∧
      (∃ y, TIoStatusOr.ofCopy (TIoStatusOr.ofValue (4 : Nat)) = .ok y ∧
        y.Status = (TIoStatusOr.ofValue (4 : Nat)).Status ∧ y.IsOk = true ∧
        y.ValueOrDie = .ok 4) ∧
      (∃ y, (TIoStatusOr.ofValue (9 : Nat)).assignCopy (.Other (TIoStatusOr.ofValue 4)) = .ok y ∧
        y.Status.GetErrorCode = (TIoStatusOr.ofValue (4 : Nat)).Status.GetErrorCode ∧
        y.IsOk = true ∧ y.ValueOrDie = .ok 4) :=
  (C23_copy_and_move (TIoStatusOr.ofValue (9 : Nat)) (TIoStatusOr.ofValue (4 : Nat))).1 4 rfl rfl

end IoDispatcher

namespace Slate

/-! ## Spin box -/

theorem FMath.Clamp_mem_range (X Min Max : Int) (h : Min ≤ Max) :
    Min ≤ FMath.Clamp X Min Max ∧ FMath.Clamp X Min Max ≤ Max := by
  unfold FMath.Clamp
  split_ifs <;> omega

theorem SSpinBox.valueToCommit_typeIn (s : SSpinBox) (v : Int)
    (hsnap : s.GetAlwaysUsesDeltaSnap = false ∨ s.Delta.Get = 0) :
    SSpinBox.CommitValue.valueToCommit s v .CommittedViaTypeIn
      = (FMath.Clamp v s.GetMinValue s.GetMaxValue,
          { s with IntermediateDragFractionalValue := 0 }) := by
  rcases hsnap with h | h
  · have h' : s.AlwaysUsesDeltaSnap.Get = false := h
    simp [SSpinBox.CommitValue.valueToCommit, SSpinBox.GetAlwaysUsesDeltaSnap, h',
      SSpinBox.GetMinValue, SSpinBox.GetMaxValue]
  · simp [SSpinBox.CommitValue.valueToCommit, SSpinBox.GetAlwaysUsesDeltaSnap, h,
      SSpinBox.GetMinValue, SSpinBox.GetMaxValue]

theorem SSpinBox.ApplySliderMaxValueChanged_frame (s s' : SSpinBox) (d : Int) (b : Bool)
    (Calls : List DelegateCall) (h : s.ApplySliderMaxValueChanged d b = .ok (s', Calls)) :
    s'.OnValueCommittedBound = s.OnValueCommittedBound ∧
    s'.OnValueChangedBound = s.OnValueChangedBound ∧
    s'.ValueAttribute = s.ValueAttribute ∧
    s'.MinValue = s.MinValue ∧ s'.MaxValue = s.MaxValue ∧ s'.Limits = s.Limits ∧
    (∀ x i, DelegateCall.OnValueCommitted x i ∉ Calls) ∧
    (∀ x, DelegateCall.OnValueChanged x ∉ Calls) := by
  unfold SSpinBox.ApplySliderMaxValueChanged at h
  simp only [SSpinBox.SetMaxSliderValue, SSpinBox.UpdateIsSpinRangeUnlimited] at h
  split_ifs at h <;> simp only [Except.ok.injEq, Prod.mk.injEq] at h <;>
    obtain ⟨rfl, rfl⟩ := h <;> simp

theorem SSpinBox.ApplySliderMinValueChanged_frame (s s' : SSpinBox) (d : Int) (b : Bool)
    (Calls : List DelegateCall) (h : s.ApplySliderMinValueChanged d b = .ok (s', Calls)) :
    s'.OnValueCommittedBound = s.OnValueCommittedBound ∧
    s'.OnValueChangedBound = s.OnValueChangedBound ∧
    s'.ValueAttribute = s.ValueAttribute ∧
    s'.MinValue = s.MinValue ∧ s'.MaxValue = s.MaxValue ∧ s'.Limits = s.Limits ∧
    (∀ x i, DelegateCall.OnValueCommitted x i ∉ Calls) ∧
    (∀ x, DelegateCall.OnValueChanged x ∉ Calls) := by
  unfold SSpinBox.ApplySliderMinValueChanged at h
  simp only [SSpinBox.SetMinSliderValue, SSpinBox.UpdateIsSpinRangeUnlimited] at h
  split_ifs at h <;> simp only [Except.ok.injEq, Prod.mk.injEq] at h <;>
    obtain ⟨rfl, rfl⟩ := h <;> simp

theorem SSpinBox.ApplySliderMaxValueChanged_ok (s : SSpinBox) (d : Int) (b : Bool)
    (h : s.SupportDynamicSliderMaxValue.Get = true) :
    ∃ s' Calls, s.ApplySliderMaxValueChanged d b = .ok (s', Calls) := by
  unfold SSpinBox.ApplySliderMaxValueChanged
  simp only [h, Bool.not_true, Bool.false_eq_true, if_false]
  split_ifs <;> exact ⟨_, _, rfl⟩

theorem SSpinBox.ApplySliderMinValueChanged_ok (s : SSpinBox) (d : Int) (b : Bool)
    (h : s.SupportDynamicSliderMaxValue.Get = true) :
    ∃ s' Calls, s.ApplySliderMinValueChanged d b = .ok (s', Calls) := by
  unfold SSpinBox.ApplySliderMinValueChanged
  simp only [h, Bool.not_true, Bool.false_eq_true, if_false]
  split_ifs <;> exact ⟨_, _, rfl⟩

theorem SSpinBox.ApplySliderMinValueChanged_check (s : SSpinBox) (d : Int) (b : Bool)
    (h : s.SupportDynamicSliderMaxValue.Get = false) :
    s.ApplySliderMinValueChanged d b = .error Fault.CheckFailed := by
  simp [SSpinBox.ApplySliderMinValueChanged, h]

theorem SSpinBox.applyDynamicSlider_frame (s s' : SSpinBox) (c : Int)
    (Calls : List DelegateCall)
    (h : SSpinBox.CommitValue.applyDynamicSlider s c = .ok (s', Calls)) :
    s'.OnValueCommittedBound = s.OnValueCommittedBound ∧
    s'.OnValueChangedBound = s.OnValueChangedBound ∧
    s'.ValueAttribute = s.ValueAttribute ∧
    s'.MinValue = s.MinValue ∧ s'.MaxValue = s.MaxValue ∧ s'.Limits = s.Limits ∧
    (∀ x i, DelegateCall.OnValueCommitted x i ∉ Calls) ∧
    (∀ x, DelegateCall.OnValueChanged x ∉ Calls) := by
  unfold SSpinBox.CommitValue.applyDynamicSlider at h
  split_ifs at h
  · exact SSpinBox.ApplySliderMaxValueChanged_frame s s' _ _ Calls h
  · exact SSpinBox.ApplySliderMinValueChanged_frame s s' _ _ Calls h
  · simp only [Except.ok.injEq, Prod.mk.injEq] at h
    obtain ⟨rfl, rfl⟩ := h
    simp

theorem SSpinBox.applyDynamicSlider_error_iff (s : SSpinBox) (c : Int) :
    SSpinBox.CommitValue.applyDynamicSlider s c = .error Fault.CheckFailed ↔
      (s.SupportDynamicSliderMaxValue.Get = false ∧ s.SupportDynamicSliderMinValue.Get = true
        ∧ c < s.GetMinSliderValue) := by
  unfold SSpinBox.CommitValue.applyDynamicSlider
  by_cases hmax : s.SupportDynamicSliderMaxValue.Get = true
  · have hne : ¬ (s.SupportDynamicSliderMaxValue.Get = false) := by simp [hmax]
    split_ifs with h1 h2
    · obtain ⟨s', Calls, e⟩ := SSpinBox.ApplySliderMaxValueChanged_ok s
        (RoundToFloat (s.Limits.Wrap (c - s.GetMaxSliderValue))) true hmax
      simp [e, hmax]
    · obtain ⟨s', Calls, e⟩ := SSpinBox.ApplySliderMinValueChanged_ok s
        (RoundToFloat (s.Limits.Wrap (c - s.GetMinSliderValue))) true hmax
      simp [e, hmax]
    · simp [hmax]
  · have hmax' : s.SupportDynamicSliderMaxValue.Get = false := by simpa using hmax
    split_ifs with h1 h2
    · exact absurd h1.1 hmax
    · rw [SSpinBox.ApplySliderMinValueChanged_check s _ _ hmax']
      simp [hmax', h2.1, h2.2]
    · have : ¬ (s.SupportDynamicSliderMinValue.Get = true ∧ c < s.GetMinSliderValue) := h2
      simp only [false_iff, not_and]
      intro _ h3 h4
      exact this ⟨h3, h4⟩

theorem SSpinBox.store_spec (s : SSpinBox) (c : Int) :
    (SSpinBox.CommitValue.store s c).MinValue = s.MinValue ∧
    (SSpinBox.CommitValue.store s c).MaxValue = s.MaxValue ∧
    (SSpinBox.CommitValue.store s c).Limits = s.Limits ∧
    (s.ValueAttribute.IsBound = false → (SSpinBox.CommitValue.store s c).ValueAttribute.Get = c) := by
  cases h1 : s.ValueAttribute.IsBound <;> cases h2 : s.MouseCapture <;>
    simp [SSpinBox.CommitValue.store, h1, h2, TAttribute.Set, TAttribute.Get, TAttribute.ofValue]

/-- The numeric conversions on sample values: `float` keeps the integers below `2 ^ 24`
and rounds 16777217 to 16777216 and 16777227 to 16777228 (ties to even); a `double`
outside `int32` converts to the lowest `int32`; an `int32` difference wraps around. -/
theorem RoundToFloat_samples :
    RoundToFloat 11 = 11 ∧ RoundToFloat (-5) = -5 ∧ RoundToFloat 16777215 = 16777215 ∧
    RoundToFloat 16777217 = 16777216 ∧ RoundToFloat 16777227 = 16777228 ∧
    RoundToFloat (-16777219) = -16777220 ∧ RoundToFloat 2147483647 = 2147483648 ∧
    TNumericLimits.int32.FromFloatingPoint 12 = 12 ∧
    TNumericLimits.int32.FromFloatingPoint 2147483648 = -2147483648 ∧
    TNumericLimits.int32.Wrap 7 = 7 ∧
    TNumericLimits.int32.Wrap (2147483647 - (-1)) = -2147483648 := by
  decide

/-- The delta snap is stored back into `NumericType`: with delta 4 and the largest
`int32` as maximum, the typed value 2147483647 snaps to 2147483648, which the conversion
to `int32` turns into -2147483648. -/
theorem SSpinBox.valueToCommit_snap_conversion :
    (SSpinBox.CommitValue.valueToCommit SSpinBox.snapLimitSample 2147483647
      .CommittedViaTypeIn).1 = -2147483648 := by
  decide

/-- The slider maximum is updated in `float`: from 16777217, which `float` holds as
16777216, the delta 10 gives the maximum 16777226. -/
theorem SSpinBox.ApplySliderMaxValueChanged_float :
    ∃ s' Calls, SSpinBox.dynamicMaxSample.ApplySliderMaxValueChanged 10 true = .ok (s', Calls) ∧
      s'.GetMaxSliderValue = 16777226 :=
  ⟨_, _, rfl, by decide⟩

/-- Without delta snapping the sample spin box with limits 0 and 11 commits the clamped
value: 25 typed in commits 11. -/
theorem SSpinBox.plainSample_commits_clamped :
    ∃ s', SSpinBox.plainSample.CommitValue 25 .CommittedViaTypeIn .OnEnter
        = .ok (s', [DelegateCall.OnValueCommitted 11 .OnEnter, DelegateCall.OnValueChanged 11]) ∧
      s'.ValueAttribute.Get = 11 :=
  ⟨_, rfl, rfl⟩

/-- Typed values that are not delta-snapped stay in range: for every integer-valued spin
box with `GetMinValue() <= GetMaxValue()` and `AlwaysUsesDeltaSnap` false or `Delta` zero,
and every typed value `v`, `CommitValue(v, CommittedViaTypeIn, ...)` either stops at the
`check` of `ApplySliderMinValueChanged`, or returns, and then the value it passes to
`OnValueCommitted` and `OnValueChanged` and stores in the unbound `Value` attribute is
one value `c` with `GetMinValue() <= c <= GetMaxValue()`. -/
theorem SSpinBox.CommitValue_typeIn_without_snap (s : SSpinBox) (v : Int)
    (CommitInfo : ETextCommit)
    (hrange : s.GetMinValue ≤ s.GetMaxValue)
    (hsnap : s.GetAlwaysUsesDeltaSnap = false ∨ s.Delta.Get = 0) :
    ∃ c, s.GetMinValue ≤ c ∧ c ≤ s.GetMaxValue ∧
      ((s.SupportDynamicSliderMaxValue.Get = false ∧
          s.SupportDynamicSliderMinValue.Get = true ∧ c < s.GetMinSliderValue ∧
          s.CommitValue v .CommittedViaTypeIn CommitInfo = .error Fault.CheckFailed) ∨
       (∃ s' Calls, s.CommitValue v .CommittedViaTypeIn CommitInfo = .ok (s', Calls) ∧
          (∀ x i, DelegateCall.OnValueCommitted x i ∈ Calls → x = c ∧ i = CommitInfo) ∧
          (∀ x, DelegateCall.OnValueChanged x ∈ Calls → x = c) ∧
          (s.OnValueCommittedBound = true →
            DelegateCall.OnValueCommitted c CommitInfo ∈ Calls) ∧
          (s.OnValueChangedBound = true → DelegateCall.OnValueChanged c ∈ Calls) ∧
          (s.ValueAttribute.IsBound = false → s'.ValueAttribute.Get = c) ∧
          s'.GetMinValue = s.GetMinValue ∧ s'.GetMaxValue = s.GetMaxValue)) := by
  obtain ⟨hlo, hhi⟩ := FMath.Clamp_mem_range v _ _ hrange
  refine ⟨FMath.Clamp v s.GetMinValue s.GetMaxValue, hlo, hhi, ?_⟩
  have hval := SSpinBox.valueToCommit_typeIn s v hsnap
  generalize FMath.Clamp v s.GetMinValue s.GetMaxValue = c at hval
  generalize hs0 : ({ s with IntermediateDragFractionalValue := 0 } : SSpinBox) = s0 at hval
  have f1 : s0.OnValueCommittedBound = s.OnValueCommittedBound := by rw [← hs0]
  have f2 : s0.OnValueChangedBound = s.OnValueChangedBound := by rw [← hs0]
  have f3 : s0.ValueAttribute = s.ValueAttribute := by rw [← hs0]
  have f4 : s0.MinValue = s.MinValue := by rw [← hs0]
  have f5 : s0.MaxValue = s.MaxValue := by rw [← hs0]
  have f6 : s0.Limits = s.Limits := by rw [← hs0]
  have f7 : s0.SupportDynamicSliderMaxValue = s.SupportDynamicSliderMaxValue := by rw [← hs0]
  have f8 : s0.SupportDynamicSliderMinValue = s.SupportDynamicSliderMinValue := by rw [← hs0]
  have f9 : s0.GetMinSliderValue = s.GetMinSliderValue := by rw [← hs0]; rfl
  cases hsl : SSpinBox.CommitValue.applyDynamicSlider s0 c with
  | error f =>
    cases f
    left
    obtain ⟨a, b, d⟩ := (SSpinBox.applyDynamicSlider_error_iff s0 c).mp hsl
    rw [f7] at a
    rw [f8] at b
    rw [f9] at d
    refine ⟨a, b, d, ?_⟩
    simp only [SSpinBox.CommitValue, hval, hsl]
  | ok r =>
    obtain ⟨s1, SliderCalls⟩ := r
    right
    obtain ⟨g1, g2, g3, g4, g5, g6, g7, g8⟩ :=
      SSpinBox.applyDynamicSlider_frame s0 s1 c SliderCalls hsl
    obtain ⟨k1, k2, k3, k4⟩ := SSpinBox.store_spec s1 c
    have hres : s.CommitValue v .CommittedViaTypeIn CommitInfo
        = .ok (SSpinBox.CommitValue.store s1 c,
            SliderCalls
              ++ (if s1.OnValueCommittedBound = true then
                    [DelegateCall.OnValueCommitted c CommitInfo] else [])
              ++ (if s1.OnValueChangedBound = true then
                    [DelegateCall.OnValueChanged c] else [])) := by
      simp [SSpinBox.CommitValue, hval, hsl]
    refine ⟨SSpinBox.CommitValue.store s1 c, _, hres, ?_, ?_, ?_, ?_, ?_, ?_, ?_⟩
    · intro x i hx
      simp only [List.mem_append] at hx
      rcases hx with (hx | hx) | hx
      · exact absurd hx (g7 x i)
      · split_ifs at hx
        · simp only [List.mem_singleton, DelegateCall.OnValueCommitted.injEq] at hx
          exact hx
        · simp at hx
      · split_ifs at hx <;> simp at hx
    · intro x hx
      simp only [List.mem_append] at hx
      rcases hx with (hx | hx) | hx
      · exact absurd hx (g8 x)
      · split_ifs at hx <;> simp at hx
      · split_ifs at hx
        · simp only [List.mem_singleton, DelegateCall.OnValueChanged.injEq] at hx
          exact hx
        · simp at hx
    · intro hb
      have : s1.OnValueCommittedBound = true := by rw [g1, f1, hb]
      simp [this]
    · intro hb
      have : s1.OnValueChangedBound = true := by rw [g2, f2, hb]
      simp [this]
    · intro hb
      exact k4 (by rw [g3, f3]; exact hb)
    · simp only [SSpinBox.GetMinValue, k1, k3, g4, g6, f4, f6]
    · simp only [SSpinBox.GetMaxValue, k2, k3, g5, g6, f5, f6]

/-- C17 (the code at the failing input): on the spin box with limits 0 and 11, delta 4
and `AlwaysUsesDeltaSnap` true, `CommitValue(11, CommittedViaTypeIn, OnEnter)` clamps the
typed value to 11 and then snaps it to 12 without clamping again: 12 is what
`OnValueCommitted` and `OnValueChanged` receive and what the unbound `Value` attribute
stores, above `GetMaxValue() = 11`, "the maximum value that can be entered into the text
edit box". -/
theorem C17_delta_snap_commits_above_MaxValue :
    SSpinBox.snapSample.GetMinValue ≤ SSpinBox.snapSample.GetMaxValue ∧
    SSpinBox.snapSample.GetMaxValue = 11 ∧
    SSpinBox.snapSample.ValueAttribute.IsBound = false ∧
    ∃ s', SSpinBox.snapSample.CommitValue 11 .CommittedViaTypeIn .OnEnter
        = .ok (s', [DelegateCall.OnValueCommitted 12 .OnEnter, DelegateCall.OnValueChanged 12]) ∧
      s'.ValueAttribute.Get = 12 ∧
      ¬ ((12 : Int) ≤ SSpinBox.snapSample.GetMaxValue) :=
  ⟨by decide, rfl, rfl, _, rfl, rfl, by decide⟩

/-- C18 (the code at the failing input): `GetMinDesiredWidth()` returns the value of the
`SliderExponent` attribute whatever `SetMinDesiredWidth` stored. On the default spin
box (slider exponent `1.0f`), after `SetMinDesiredWidth(50.0f)` the `MinDesiredWidth`
attribute holds `50.0f` and `GetMinDesiredWidth()` returns `1.0f`. -/
theorem C18_GetMinDesiredWidth_returns_SliderExponent :
    (∀ (s : SSpinBox) (w : TAttribute float),
      (s.SetMinDesiredWidth w).GetMinDesiredWidth = s.SliderExponent.Get ∧
      (s.SetMinDesiredWidth w).MinDesiredWidth.Get = w.Get) ∧
    (SSpinBox.defaults.SetMinDesiredWidth (TAttribute.ofValue 0x42480000)).MinDesiredWidth.Get
      = 0x42480000 ∧
    (SSpinBox.defaults.SetMinDesiredWidth (TAttribute.ofValue 0x42480000)).GetMinDesiredWidth
      = 0x3F800000 ∧
    (0x3F800000 : float) ≠ 0x42480000 :=
  ⟨fun _ _ => ⟨rfl, rfl⟩, rfl, rfl, by decide⟩

/-- C20 (the code at the failing input): the `check` at the start of
`ApplySliderMinValueChanged` tests `SupportDynamicSliderMaxValue`, so it fails exactly
when that attribute is false. On a spin box with `SupportDynamicSliderMinValue` true and
`SupportDynamicSliderMaxValue` false, committing a value below the slider minimum
reaches the call through its guard and the `check` fails. -/
theorem C20_ApplySliderMinValueChanged_check_fails :
    (∀ (s : SSpinBox) (d : Int) (b : Bool),
      s.ApplySliderMinValueChanged d b = .error Fault.CheckFailed ↔
        s.SupportDynamicSliderMaxValue.Get = false) ∧
    SSpinBox.dynamicMinSample.SupportDynamicSliderMinValue.Get = true ∧
    SSpinBox.dynamicMinSample.SupportDynamicSliderMaxValue.Get = false ∧
    (-5 : Int) < SSpinBox.dynamicMinSample.GetMinSliderValue ∧
    SSpinBox.dynamicMinSample.CommitValue (-5) .CommittedViaTypeIn .OnEnter
      = .error Fault.CheckFailed := by
  refine ⟨?_, rfl, rfl, by decide, rfl⟩
  intro s d b
  constructor
  · intro h
    by_contra hne
    obtain ⟨s', Calls, e⟩ := SSpinBox.ApplySliderMinValueChanged_ok s d b (by simpa using hne)
    rw [e] at h
    cases h
  · exact SSpinBox.ApplySliderMinValueChanged_check s d b

/-! ## Invalidation debugging -/

/-- Length after `RemoveAtSwap`: one element fewer. -/
theorem TArray.RemoveAtSwap_length {α : Type} (l : List α) (i : Nat) :
    (TArray.RemoveAtSwap l i).length = l.length - 1 := by
  unfold TArray.RemoveAtSwap
  cases h : l.getLast? with
  | none =>
    rw [List.getLast?_eq_none_iff] at h
    simp [h]
  | some last => simp

/-- Elements kept by `RemoveAtSwap`: every element other than the one at the index. -/
theorem TArray.RemoveAtSwap_mem {α : Type} (l : List α) (i : Nat) (hi : i < l.length)
    (x : α) (hx : x ∈ l) (hne : x ≠ l[i]) : x ∈ TArray.RemoveAtSwap l i := by
  obtain ⟨j, hj, rfl⟩ := List.mem_iff_getElem.mp hx
  have hji : j ≠ i := by
    rintro rfl
    exact hne rfl
  have hlast : l.getLast? = some (l[l.length - 1]) := by
    rw [List.getLast?_eq_getElem?]
    exact List.getElem?_eq_getElem (by omega)
  unfold TArray.RemoveAtSwap
  rw [hlast]
  simp only
  rw [List.mem_iff_getElem]
  by_cases hjl : j < l.length - 1
  · refine ⟨j, by simp; omega, ?_⟩
    rw [List.getElem_dropLast, List.getElem_set_ne (Ne.symm hji)]
  · have hjeq : j = l.length - 1 := by omega
    refine ⟨i, by simp; omega, ?_⟩
    rw [List.getElem_dropLast, List.getElem_set_self]
    subst hjeq
    rfl

/-- Elements after `RemoveAtSwap` are elements of the array before. -/
theorem TArray.RemoveAtSwap_subset {α : Type} (l : List α) (i : Nat) (x : α)
    (hx : x ∈ TArray.RemoveAtSwap l i) : x ∈ l := by
  unfold TArray.RemoveAtSwap at hx
  cases h : l.getLast? with
  | none => simpa [h] using hx
  | some last =>
    rw [h] at hx
    simp only at hx
    rcases List.mem_or_eq_of_mem_set (List.mem_of_mem_dropLast hx) with hm | he
    · exact hm
    · rw [he]
      exact List.mem_of_getLast?_eq_some h

/-- The loop of `ClearInvalidatedWidgets` ends within as many iterations as the array has
elements past `DrawerIdx`, plus one; the array it leaves holds only drawers it had, and
among them every drawer of another root. -/
theorem ClearInvalidatedWidgets.loop_spec (Root : Nat) :
    ∀ (Fuel : Nat) (l : List FInvalidatedWidgetDrawer) (i : Nat), l.length - i < Fuel →
      ∃ r, ClearInvalidatedWidgets.loop Root Fuel l i = some r ∧
        (∀ d ∈ r, d ∈ l) ∧
        (∀ d ∈ l, d.ProxyHandle.GetInvalidationRoot ≠ Root → d ∈ r) := by
  intro Fuel
  induction Fuel with
  | zero => intro l i h; omega
  | succ n ih =>
    intro l i h
    unfold ClearInvalidatedWidgets.loop
    by_cases hi : i < l.length
    · rw [dif_pos hi]
      simp only
      by_cases hr : (l.get ⟨i, hi⟩).ProxyHandle.GetInvalidationRoot = Root
      · rw [if_pos hr]
        obtain ⟨r, hrun, hsub, hkeep⟩ := ih (TArray.RemoveAtSwap l i) (i + 1)
          (by rw [TArray.RemoveAtSwap_length]; omega)
        refine ⟨r, hrun, fun d hd => TArray.RemoveAtSwap_subset l i d (hsub d hd), ?_⟩
        intro d hd hne
        refine hkeep d (TArray.RemoveAtSwap_mem l i hi d hd ?_) hne
        intro hEq
        apply hne
        rw [hEq]
        exact hr
      · rw [if_neg hr]
        exact ih l (i + 1) (by omega)
    · rw [dif_neg hi]
      exact ⟨l, rfl, fun _ h => h, fun _ h _ => h⟩

/-- The function `ClearInvalidatedWidgets` returns: it leaves an array of drawers that
were in the array, with every drawer of another root still in it. -/
theorem ClearInvalidatedWidgets_keeps_other_roots (Root : Nat)
    (l : List FInvalidatedWidgetDrawer) :
    ∃ r, ClearInvalidatedWidgets Root l = some r ∧
      (∀ d ∈ r, d ∈ l) ∧
      (∀ d ∈ l, d.ProxyHandle.GetInvalidationRoot ≠ Root → d ∈ r) :=
  ClearInvalidatedWidgets.loop_spec Root (l.length + 1) l 0 (by omega)

/-- C19 (the code at the failing input): with two drawers of the root at address 1 in
the array, `ClearInvalidatedWidgets` removes the first by moving the second into its
place and then steps past it, so the array still holds a drawer of that root. -/
theorem C19_ClearInvalidatedWidgets_leaves_root_drawer :
    ClearInvalidatedWidgets 1 [⟨⟨1, 0⟩, 0⟩, ⟨⟨1, 1⟩, 0⟩] = some [⟨⟨1, 1⟩, 0⟩] ∧
    (⟨⟨1, 1⟩, 0⟩ : FInvalidatedWidgetDrawer).ProxyHandle.GetInvalidationRoot = 1 :=
  ⟨by decide, rfl⟩


/-! ## Text validation -/

theorem SSpinBox.TextField_OnTextChanged.loop_valid (IsCharacterValid : Char → Bool)
    (Data : List Char) (N : Nat) :
    ∀ (Remaining Index : Nat), Index + Remaining = Data.length →
      (∀ j, Index ≤ j → j < Data.length → IsCharacterValid (Data.getD j (Char.ofNat 0)) = true) →
      SSpinBox.TextField_OnTextChanged.loop IsCharacterValid Data Remaining Index N = N := by
  intro Remaining
  induction Remaining with
  | zero =>
    intro Index _ _
    rfl
  | succ n ih =>
    intro Index hlen hvalid
    have h := hvalid Index (Nat.le_refl _) (by omega)
    simp only [SSpinBox.TextField_OnTextChanged.loop, h, Bool.not_true, Bool.false_eq_true,
      if_false]
    exact ih (Index + 1) (by omega) (fun j hj hjl => hvalid j (by omega) hjl)

theorem SSpinBox.TextField_OnTextChanged.loop_invalid (IsCharacterValid : Char → Bool)
    (Data : List Char) (N k : Nat) (hk : k < Data.length)
    (hbefore : ∀ j, j < k → IsCharacterValid (Data.getD j (Char.ofNat 0)) = true)
    (hat : IsCharacterValid (Data.getD k (Char.ofNat 0)) = false) :
    ∀ (Remaining Index : Nat), Index + Remaining = Data.length → Index ≤ k →
      SSpinBox.TextField_OnTextChanged.loop IsCharacterValid Data Remaining Index N = k := by
  intro Remaining
  induction Remaining with
  | zero =>
    intro Index hlen hle
    omega
  | succ n ih =>
    intro Index hlen hle
    by_cases hIk : Index = k
    · subst hIk
      simp only [SSpinBox.TextField_OnTextChanged.loop, hat, Bool.not_false, if_true]
    · have h := hbefore Index (by omega)
      simp only [SSpinBox.TextField_OnTextChanged.loop, h, Bool.not_true, Bool.false_eq_true,
        if_false]
      exact ih (Index + 1) (by omega) (by omega)

/-- C26: `TextField_OnTextChanged` accepts text only up to the first invalid character.
Outside of a text change that is already in progress (`bIsTextChanging` false, as
`Construct` and every return of this function leave it): for every new text whose first
character rejected by `IsCharacterValid` is at index `k`, `EditableText->SetText` is
called once, with the first `k` characters when `k > 0` and with the string of the
current value when `k = 0`; when every character is valid `SetText` is not called; in
both cases the widget itself is left as it was. During a text change in progress the
function does nothing. -/
theorem C26_TextField_OnTextChanged_first_invalid (IsCharacterValid : Char → Bool)
    (ToString : Int → String) (s : SSpinBox) (NewText : String) :
    (s.bIsTextChanging = false →
      (∀ k, k < NewText.toList.length →
        (∀ j, j < k → IsCharacterValid (NewText.toList.getD j (Char.ofNat 0)) = true) →
        IsCharacterValid (NewText.toList.getD k (Char.ofNat 0)) = false →
        s.TextField_OnTextChanged IsCharacterValid ToString NewText
          = (s, [if k > 0 then String.mk (NewText.toList.take k)
                 else ToString s.ValueAttribute.Get])) ∧
      ((∀ c ∈ NewText.toList, IsCharacterValid c = true) →
        s.TextField_OnTextChanged IsCharacterValid ToString NewText = (s, []))) ∧
    (s.bIsTextChanging = true →
      s.TextField_OnTextChanged IsCharacterValid ToString NewText = (s, [])) := by
  refine ⟨fun hs => ⟨?_, ?_⟩, ?_⟩
  · intro k hk hbefore hat
    have hloop := SSpinBox.TextField_OnTextChanged.loop_invalid IsCharacterValid
      NewText.toList NewText.toList.length k hk hbefore hat NewText.toList.length 0
      (by omega) (by omega)
    have hself : ({ ({ s with bIsTextChanging := true } : SSpinBox) with
        bIsTextChanging := s.bIsTextChanging } : SSpinBox) = s := by
      cases s
      rfl
    simp only [SSpinBox.TextField_OnTextChanged, hs, Bool.not_false, if_true, hloop, hk]
    rw [← hs, hself]
    rfl
  · intro hall
    have hloop := SSpinBox.TextField_OnTextChanged.loop_valid IsCharacterValid
      NewText.toList NewText.toList.length NewText.toList.length 0 (by omega)
      (fun j _ hj => by
        rw [List.getD_eq_getElem _ _ hj]
        exact hall _ (List.getElem_mem hj))
    have hself : ({ ({ s with bIsTextChanging := true } : SSpinBox) with
        bIsTextChanging := s.bIsTextChanging } : SSpinBox) = s := by
      cases s
      rfl
    simp only [SSpinBox.TextField_OnTextChanged, hs, Bool.not_false, if_true, hloop,
      Nat.lt_irrefl, if_false]
    rw [← hs, hself]
  · intro hs
    simp [SSpinBox.TextField_OnTextChanged, hs]

/-- Witness for C26: a spin box as `Construct` leaves it, with the digits as the valid
characters, on the texts `12x4`, `x12` and `123`. -/
theorem C26_TextField_OnTextChanged_first_invalid_witness :
    SSpinBox.defaults.TextField_OnTextChanged Char.isDigit (fun v => toString v) "12x4"
      = (SSpinBox.defaults, ["12"]) ∧
    SSpinBox.defaults.TextField_OnTextChanged Char.isDigit (fun v => toString v) "x12"
      = (SSpinBox.defaults, ["0"]) ∧
    SSpinBox.defaults.TextField_OnTextChanged Char.isDigit (fun v => toString v) "123"
      = (SSpinBox.defaults, []) :=
  ⟨((C26_TextField_OnTextChanged_first_invalid Char.isDigit (fun v => toString v)
      SSpinBox.defaults "12x4").1 rfl).1 2 (by decide) (by decide) (by decide),
    ((C26_TextField_OnTextChanged_first_invalid Char.isDigit (fun v => toString v)
      SSpinBox.defaults "x12").1 rfl).1 0 (by decide) (by decide) (by decide),
    ((C26_TextField_OnTextChanged_first_invalid Char.isDigit (fun v => toString v)
      SSpinBox.defaults "123").1 rfl).2 (by decide)⟩

/-! ## Drawing the invalidated widgets -/

theorem TArray.RemoveAtSwap_take_drop {α : Type} (l : List α) (i : Nat) (hi : i < l.length) :
    (TArray.RemoveAtSwap l i).take i = l.take i ∧
    ((TArray.RemoveAtSwap l i).drop i).Perm (l.drop (i + 1)) := by
  obtain ⟨P, d, S, rfl, rfl⟩ : ∃ P d S, l = P ++ d :: S ∧ P.length = i :=
    ⟨l.take i, l[i], l.drop (i + 1), by
      rw [← List.drop_eq_getElem_cons hi, List.take_append_drop],
      List.length_take_of_le (Nat.le_of_lt hi)⟩
  rcases List.eq_nil_or_concat S with rfl | ⟨L, b, rfl⟩
  · have h1 : TArray.RemoveAtSwap (P ++ [d]) P.length = P := by
      simp [TArray.RemoveAtSwap]
    rw [h1]
    simp
  · have h1 : TArray.RemoveAtSwap (P ++ d :: (L ++ [b])) P.length = P ++ b :: L := by
      have e : P ++ b :: (L ++ [b]) = (P ++ b :: L) ++ [b] := by simp
      have hlast : (P ++ d :: (L ++ [b])).getLast? = some b := by
        have e2 : P ++ d :: (L ++ [b]) = (P ++ d :: L) ++ [b] := by simp
        rw [e2, List.getLast?_concat]
      unfold TArray.RemoveAtSwap
      rw [hlast]
      simp only [List.set_append_right _ _ (Nat.le_refl _), Nat.sub_self, List.set_cons_zero]
      rw [e, List.dropLast_concat]
    rw [List.concat_eq_append, h1]
    constructor
    · simp
    · have e3 : (P ++ d :: (L ++ [b])).drop (P.length + 1) = L ++ [b] := by
        have e4 : P ++ d :: (L ++ [b]) = (P ++ [d]) ++ (L ++ [b]) := by simp
        rw [e4]
        exact List.drop_left' (by simp)
      rw [List.drop_left, e3]
      exact (List.perm_append_singleton b L).symm

theorem TArray.getElem_natCast {α : Type} (l : List α) (i : Nat) (hi : i < l.length) :
    TArray.getElem l (i : Int) = some l[i] := by
  have h0 : ¬ ((i : Int) < 0) := by omega
  simp [TArray.getElem, h0, List.getElem?_eq_getElem hi]

theorem DrawInvalidatedWidgets.loop_draws_once {FPaintArgs FSlateWindowElementList : Type}
    (Draw : FInvalidatedWidgetDrawer → FPaintArgs → FSlateWindowElementList →
      Bool × FSlateWindowElementList)
    (Root : Nat) (PaintArgs : FPaintArgs) :
    ∀ (Fuel : Nat) (l : List FInvalidatedWidgetDrawer) (i : Nat)
      (Out : FSlateWindowElementList) (Calls : List (FInvalidatedWidgetDrawer × Bool)),
      i ≤ l.length → l.length - i < Fuel →
      ∃ l2 Out2 New,
        DrawInvalidatedWidgets.loop Draw Root PaintArgs Fuel l (i : Int) Out Calls
          = some (l2, Out2, Calls ++ New) ∧
        (New.map Prod.fst).Perm
          ((l.drop i).filter (fun d => decide (d.ProxyHandle.GetInvalidationRoot = Root))) ∧
        l2.Perm (l.take i
          ++ (l.drop i).filter (fun d => !decide (d.ProxyHandle.GetInvalidationRoot = Root))
          ++ (New.filter Prod.snd).map Prod.fst) ∧
        (∀ c ∈ New, ∃ E, c.2 = (Draw c.1 PaintArgs E).1) := by
  intro Fuel
  induction Fuel with
  | zero =>
    intro l i Out Calls _ h
    omega
  | succ n ih =>
    intro l i Out Calls hle hfuel
    rw [DrawInvalidatedWidgets.loop]
    by_cases hi : i < l.length
    · have hcond : (i : Int) < (l.length : Int) := by exact_mod_cast hi
      have hnext : (i : Int) + 1 = ((i + 1 : Nat) : Int) := by
        push_cast
        rfl
      have hback : (i : Int) - 1 + 1 = (i : Int) := by omega
      have htoNat : ((i : Int)).toNat = i := by omega
      have hdrop : l.drop i = l[i] :: l.drop (i + 1) := List.drop_eq_getElem_cons hi
      have htake : l.take (i + 1) = l.take i ++ [l[i]] := by
        rw [List.take_succ, List.getElem?_eq_getElem hi]
        rfl
      rw [if_pos hcond, TArray.getElem_natCast l i hi]
      simp only
      by_cases hroot : l[i].ProxyHandle.GetInvalidationRoot = Root
      · rw [if_pos hroot]
        cases hdraw : (Draw l[i] PaintArgs Out).1
        · simp only [Bool.not_false, if_true, hback, htoNat]
          obtain ⟨hT, hD⟩ := TArray.RemoveAtSwap_take_drop l i hi
          obtain ⟨l2, Out2, New, hrun, hcalls, hkept, hres⟩ :=
            ih (TArray.RemoveAtSwap l i) i (Draw l[i] PaintArgs Out).2
              (Calls ++ [(l[i], false)])
              (by rw [TArray.RemoveAtSwap_length]; omega)
              (by rw [TArray.RemoveAtSwap_length]; omega)
          refine ⟨l2, Out2, (l[i], false) :: New, ?_, ?_, ?_, ?_⟩
          · rw [hrun]
            simp
          · rw [hdrop, List.filter_cons_of_pos (by simpa using hroot)]
            simp only [List.map_cons]
            exact List.Perm.cons _ (hcalls.trans (hD.filter _))
          · rw [hdrop, List.filter_cons_of_neg (by simpa using hroot)]
            rw [hT] at hkept
            simp only [List.filter_cons, Bool.false_eq_true, if_false]
            exact hkept.trans
              (List.Perm.append_right _ (List.Perm.append_left _ (hD.filter _)))
          · intro c hc
            rcases List.mem_cons.mp hc with rfl | hc
            · exact ⟨Out, hdraw.symm⟩
            · exact hres c hc
        · simp only [Bool.not_true, Bool.false_eq_true, if_false, hnext]
          obtain ⟨l2, Out2, New, hrun, hcalls, hkept, hres⟩ :=
            ih l (i + 1) (Draw l[i] PaintArgs Out).2 (Calls ++ [(l[i], true)])
              (by omega) (by omega)
          refine ⟨l2, Out2, (l[i], true) :: New, ?_, ?_, ?_, ?_⟩
          · rw [hrun]
            simp
          · rw [hdrop, List.filter_cons_of_pos (by simpa using hroot)]
            simp only [List.map_cons]
            exact List.Perm.cons _ hcalls
          · rw [hdrop, List.filter_cons_of_neg (by simpa using hroot)]
            rw [htake] at hkept
            simp only [List.filter_cons, if_true, List.map_cons]
            refine hkept.trans ?_
            simp only [List.append_assoc, List.singleton_append]
            exact List.Perm.append_left _ List.perm_middle.symm
          · intro c hc
            rcases List.mem_cons.mp hc with rfl | hc
            · exact ⟨Out, hdraw.symm⟩
            · exact hres c hc
      · rw [if_neg hroot, hnext]
        obtain ⟨l2, Out2, New, hrun, hcalls, hkept, hres⟩ :=
          ih l (i + 1) Out Calls (by omega) (by omega)
        refine ⟨l2, Out2, New, hrun, ?_, ?_, hres⟩
        · rw [hdrop, List.filter_cons_of_neg (by simpa using hroot)]
          exact hcalls
        · rw [hdrop, List.filter_cons_of_pos (by simpa using hroot)]
          rw [htake] at hkept
          refine hkept.trans (List.Perm.of_eq ?_)
          simp only [List.append_assoc, List.singleton_append]
    · have hcond : ¬ ((i : Int) < (l.length : Int)) := by
        intro h
        exact hi (by exact_mod_cast h)
      have hil : i = l.length := by omega
      rw [if_neg hcond]
      refine ⟨l, Out, [], by simp, ?_, ?_, ?_⟩
      · rw [hil, List.drop_length]
        simp
      · rw [hil, List.drop_length, List.take_length]
        simp
      · intro c hc
        cases hc

theorem List.filter_not_or_perm {α : Type} (p r : α → Bool) (l : List α) :
    (l.filter (fun x => !p x || r x)).Perm
      (l.filter (fun x => !p x) ++ (l.filter p).filter r) := by
  induction l with
  | nil => simp
  | cons x xs ih =>
    cases hp : p x <;> cases hr : r x
    · simpa [List.filter_cons, hp, hr] using ih
    · simpa [List.filter_cons, hp, hr] using ih
    · simpa [List.filter_cons, hp, hr] using ih
    · simp only [List.filter_cons, hp, hr, Bool.not_true, Bool.false_or, if_true,
        Bool.false_eq_true, if_false]
      exact (List.Perm.cons x ih).trans List.perm_middle.symm

theorem DrawInvalidatedWidgets_calls_and_keeps {FPaintArgs FSlateWindowElementList : Type}
    (Draw : FInvalidatedWidgetDrawer → FPaintArgs → FSlateWindowElementList →
      Bool × FSlateWindowElementList)
    (Root : Nat) (PaintArgs : FPaintArgs) (OutDrawElements : FSlateWindowElementList)
    (Drawers : List FInvalidatedWidgetDrawer) :
    ∃ Kept Out Calls,
      DrawInvalidatedWidgets Draw Root PaintArgs OutDrawElements Drawers
        = some (Kept, Out, Calls) ∧
      (Calls.map Prod.fst).Perm
        (Drawers.filter (fun d => decide (d.ProxyHandle.GetInvalidationRoot = Root))) ∧
      (∀ c ∈ Calls, ∃ E, c.2 = (Draw c.1 PaintArgs E).1) ∧
      Kept.Perm
        (Drawers.filter (fun d => !decide (d.ProxyHandle.GetInvalidationRoot = Root))
          ++ (Calls.filter Prod.snd).map Prod.fst) ∧
      Drawers.Perm (Kept ++ (Calls.filter (fun c => !c.2)).map Prod.fst) ∧
      (∀ Result : FInvalidatedWidgetDrawer → Bool,
        (∀ d E, (Draw d PaintArgs E).1 = Result d) →
        Kept.Perm (Drawers.filter
          (fun d => !decide (d.ProxyHandle.GetInvalidationRoot = Root) || Result d))) := by
  obtain ⟨Kept, Out, Calls, hrun, hcalls, hkept, hres⟩ :=
    DrawInvalidatedWidgets.loop_draws_once Draw Root PaintArgs (Drawers.length + 1) Drawers 0
      OutDrawElements [] (Nat.zero_le _) (by omega)
  simp only [List.nil_append, List.drop_zero, List.take_zero, Nat.cast_zero] at hrun hcalls hkept
  refine ⟨Kept, Out, Calls, hrun, hcalls, hres, hkept, ?_, ?_⟩
  · have h1 : Drawers.Perm
        (Drawers.filter (fun d => !decide (d.ProxyHandle.GetInvalidationRoot = Root))
          ++ Drawers.filter (fun d => decide (d.ProxyHandle.GetInvalidationRoot = Root))) :=
      ((List.filter_append_perm
        (fun d => decide (d.ProxyHandle.GetInvalidationRoot = Root)) Drawers).symm).trans
        List.perm_append_comm
    have h2 : (Calls.map Prod.fst).Perm
        ((Calls.filter Prod.snd).map Prod.fst
          ++ (Calls.filter (fun c => !c.2)).map Prod.fst) := by
      rw [← List.map_append]
      exact ((List.filter_append_perm Prod.snd Calls).symm).map _
    refine h1.trans ?_
    refine (List.Perm.append_left _ (hcalls.symm.trans h2)).trans ?_
    rw [← List.append_assoc]
    exact List.Perm.append_right _ hkept.symm
  · intro Result hResult
    have hsnd : ∀ c ∈ Calls, c.2 = Result c.1 := by
      intro c hc
      obtain ⟨E, hE⟩ := hres c hc
      rw [hE, hResult]
    have h3 : (Calls.filter Prod.snd).map Prod.fst = (Calls.map Prod.fst).filter Result := by
      rw [List.filter_map]
      congr 1
      apply List.filter_congr
      intro c hc
      exact hsnd c hc
    rw [h3] at hkept
    refine hkept.trans ?_
    refine (List.Perm.append_left _ (hcalls.filter Result)).trans ?_
    exact (List.filter_not_or_perm _ _ _).symm

theorem FInvalidatedWidgetDrawer.Draw_result {FPaintArgs FSlateWindowElementList : Type}
    (Context : FDrawContext FSlateWindowElementList) (d : FInvalidatedWidgetDrawer)
    (PaintArgs : FPaintArgs) (E : FSlateWindowElementList) :
    (FInvalidatedWidgetDrawer.Draw Context d PaintArgs E).1
      = (Context.IsValid d.ProxyHandle && !Context.IsAtEnd d
          && Context.Widget d.ProxyHandle != 0) := by
  unfold FInvalidatedWidgetDrawer.Draw
  split_ifs with h
  · exact h.symm
  · simpa using h

/-- C24: for every array content, every root and every `Draw` (so every pattern of
results), `DrawInvalidatedWidgets(Root, ...)` returns; it calls `Draw` exactly once on
each drawer of `Root` that the array held at entry (the drawers called are those
drawers, up to order), and the array afterwards holds, up to order, every drawer of
another root and every drawer of `Root` whose `Draw` returned true: what it removed are
exactly the drawers whose `Draw` returned false. When the result of `Draw` is a function
`Result` of the drawer, the array afterwards is, up to order, the array at entry without
the drawers of `Root` for which `Result` is false. For the `Draw` of the source
in any context, `Result` is: the proxy handle is valid, the fade curve is not at its end
and the proxy has a widget. -/
theorem C24_DrawInvalidatedWidgets_draws_once {FPaintArgs FSlateWindowElementList : Type}
    (Draw : FInvalidatedWidgetDrawer → FPaintArgs → FSlateWindowElementList →
      Bool × FSlateWindowElementList)
    (Context : FDrawContext FSlateWindowElementList)
    (Root : Nat) (PaintArgs : FPaintArgs) (OutDrawElements : FSlateWindowElementList)
    (Drawers : List FInvalidatedWidgetDrawer) :
    (∃ Kept Out Calls,
      DrawInvalidatedWidgets Draw Root PaintArgs OutDrawElements Drawers
        = some (Kept, Out, Calls) ∧
      (Calls.map Prod.fst).Perm
        (Drawers.filter (fun d => decide (d.ProxyHandle.GetInvalidationRoot = Root))) ∧
      (∀ c ∈ Calls, ∃ E, c.2 = (Draw c.1 PaintArgs E).1) ∧
      Kept.Perm
        (Drawers.filter (fun d => !decide (d.ProxyHandle.GetInvalidationRoot = Root))
          ++ (Calls.filter Prod.snd).map Prod.fst) ∧
      Drawers.Perm (Kept ++ (Calls.filter (fun c => !c.2)).map Prod.fst) ∧
      (∀ Result : FInvalidatedWidgetDrawer → Bool,
        (∀ d E, (Draw d PaintArgs E).1 = Result d) →
        Kept.Perm (Drawers.filter
          (fun d => !decide (d.ProxyHandle.GetInvalidationRoot = Root) || Result d)))) ∧
    (∃ Kept Out Calls,
      DrawInvalidatedWidgets (FInvalidatedWidgetDrawer.Draw Context) Root PaintArgs
        OutDrawElements Drawers = some (Kept, Out, Calls) ∧
      Kept.Perm (Drawers.filter
        (fun d => !decide (d.ProxyHandle.GetInvalidationRoot = Root) ||
          (Context.IsValid d.ProxyHandle && !Context.IsAtEnd d
            && Context.Widget d.ProxyHandle != 0)))) := by
  refine ⟨DrawInvalidatedWidgets_calls_and_keeps Draw Root PaintArgs OutDrawElements Drawers,
    ?_⟩
  obtain ⟨Kept, Out, Calls, hrun, _, _, _, _, hResult⟩ :=
    DrawInvalidatedWidgets_calls_and_keeps (FInvalidatedWidgetDrawer.Draw Context) Root
      PaintArgs OutDrawElements Drawers
  exact ⟨Kept, Out, Calls, hrun,
    hResult _ (fun d E => FInvalidatedWidgetDrawer.Draw_result Context d PaintArgs E)⟩

/-- Witness for C24: five drawers, four of them of the root at address 1. `Draw` fails for
the two of these with an odd proxy index (in the sample context their fade curve is at
its end), and the array keeps the other two and the drawer of the other root. -/
theorem C24_DrawInvalidatedWidgets_draws_once_witness :
    (DrawInvalidatedWidgets sampleDraw 1 () 0 sampleDrawers
      = some ([⟨⟨1, 0⟩, 0⟩, ⟨⟨1, 2⟩, 0⟩, ⟨⟨2, 0⟩, 0⟩], 4,
          [(⟨⟨1, 0⟩, 0⟩, true), (⟨⟨1, 1⟩, 0⟩, false), (⟨⟨1, 3⟩, 0⟩, false),
            (⟨⟨1, 2⟩, 0⟩, true)]) ∧
      DrawInvalidatedWidgets (FInvalidatedWidgetDrawer.Draw sampleContext) 1 () 0 sampleDrawers
        = some ([⟨⟨1, 0⟩, 0⟩, ⟨⟨1, 2⟩, 0⟩, ⟨⟨2, 0⟩, 0⟩], 2,
            [(⟨⟨1, 0⟩, 0⟩, true), (⟨⟨1, 1⟩, 0⟩, false), (⟨⟨1, 3⟩, 0⟩, false),
              (⟨⟨1, 2⟩, 0⟩, true)])) ∧
    ∃ Kept Out Calls,
      DrawInvalidatedWidgets (FInvalidatedWidgetDrawer.Draw sampleContext) 1 () 0 sampleDrawers
        = some (Kept, Out, Calls) ∧
      Kept.Perm (sampleDrawers.filter
        (fun d => !decide (d.ProxyHandle.GetInvalidationRoot = 1) ||
          (sampleContext.IsValid d.ProxyHandle && !sampleContext.IsAtEnd d
            && sampleContext.Widget d.ProxyHandle != 0))) :=
  ⟨by decide,
    (C24_DrawInvalidatedWidgets_draws_once sampleDraw sampleContext 1 () 0 sampleDrawers).2⟩

end Slate

namespace ShaderFormatD3D

/-! ## Ray tracing entry points -/

theorem TChar.ToUpper_eq_space (c : TCHAR) (h : TChar.ToUpper c = TChar.ToUpper ' ') :
    c = ' ' := by
  have e : TChar.ToUpper ' ' = ' ' := by decide
  rw [e] at h
  unfold TChar.ToUpper Char.toUpper at h
  simp only at h
  split_ifs at h with hr
  · exfalso
    generalize c.toNat = n at hr h
    obtain ⟨h1, h2⟩ := hr
    interval_cases n <;> exact absurd h (by decide)
  · exact h

theorem FCString.StartsWithIgnoreCase_nil (Str : FString) :
    FCString.StartsWithIgnoreCase Str [] = true := by
  cases Str <;> rfl

theorem FCString.StartsWithIgnoreCase_self (Find Rest : FString) :
    FCString.StartsWithIgnoreCase (Find ++ Rest) Find = true := by
  induction Find with
  | nil => exact FCString.StartsWithIgnoreCase_nil _
  | cons f fs ih => simp [FCString.StartsWithIgnoreCase, ih]

theorem FCString.StartsWithIgnoreCase_append_space (Find : FString)
    (hFind : ∀ f ∈ Find, TChar.ToUpper ' ' ≠ TChar.ToUpper f) :
    ∀ (Str Rest : FString),
      FCString.StartsWithIgnoreCase (Str ++ ' ' :: Rest) Find
        = FCString.StartsWithIgnoreCase Str Find := by
  induction Find with
  | nil =>
    intro Str Rest
    rw [FCString.StartsWithIgnoreCase_nil, FCString.StartsWithIgnoreCase_nil]
  | cons f fs ih =>
    intro Str Rest
    cases Str with
    | nil =>
      have hne := hFind f (List.mem_cons_self _ _)
      simp [FCString.StartsWithIgnoreCase, hne]
    | cons c cs =>
      rw [List.cons_append]
      simp only [FCString.StartsWithIgnoreCase]
      rw [ih (fun g hg => hFind g (List.mem_cons_of_mem _ hg))]

theorem FCString.Stristr_append (Find : FString) :
    ∀ (Str Rest : FString),
      (∀ k, k < Str.length →
        FCString.StartsWithIgnoreCase (Str.drop k ++ Rest) Find = false) →
      FCString.Stristr (Str ++ Rest) Find
        = (FCString.Stristr Rest Find).map (fun Offset => Offset + Str.length) := by
  intro Str
  induction Str with
  | nil =>
    intro Rest _
    simp
  | cons c cs ih =>
    intro Rest h
    have h0 := h 0 (by simp)
    simp only [List.drop_zero, List.cons_append] at h0
    rw [List.cons_append]
    simp only [FCString.Stristr, h0]
    rw [ih Rest (fun k hk => by
      have := h (k + 1) (by simpa using hk)
      simpa using this)]
    simp [Option.map_map, Function.comp_def, Nat.add_assoc]

theorem FCString.Stristr_none (Str Find : FString)
    (h : ∀ k, k < Str.length → FCString.StartsWithIgnoreCase (Str.drop k) Find = false) :
    FCString.Stristr Str Find = none := by
  have := FCString.Stristr_append Find Str [] (by simpa using h)
  simpa [FCString.Stristr] using this

theorem FCString.Stristr_found (Str Find : FString) (hFind : Find ≠ [])
    (h : FCString.StartsWithIgnoreCase Str Find = true) :
    FCString.Stristr Str Find = some 0 := by
  cases Str with
  | nil =>
    cases Find with
    | nil => exact absurd rfl hFind
    | cons f fs => simp [FCString.StartsWithIgnoreCase] at h
  | cons c cs => simp [FCString.Stristr, hFind, h]

theorem FCString.Stristr_space (Str Rest : FString) (hStr : ' ' ∉ Str)
    (hRest : Rest = [] ∨ ∃ Tail, Rest = ' ' :: Tail) :
    FCString.Stristr (Str ++ Rest) (TEXT " ")
      = if Rest = [] then none else some Str.length := by
  have hskip : ∀ k, k < Str.length →
      FCString.StartsWithIgnoreCase (Str.drop k ++ Rest) (TEXT " ") = false := by
    intro k hk
    have hmem : Str[k] ∈ Str := List.getElem_mem hk
    have hne : Str[k] ≠ ' ' := fun e => hStr (e ▸ hmem)
    have hup : TChar.ToUpper Str[k] ≠ TChar.ToUpper ' ' :=
      fun e => hne (TChar.ToUpper_eq_space _ e)
    rw [List.drop_eq_getElem_cons hk]
    have e : TEXT " " = [' '] := rfl
    simp [e, FCString.StartsWithIgnoreCase, hup]
  rw [FCString.Stristr_append _ _ _ hskip]
  rcases hRest with rfl | ⟨Tail, rfl⟩
  · simp [FCString.Stristr]
  · have e : TEXT " " = [' '] := rfl
    rw [FCString.Stristr_found _ _ (by rw [e]; simp)
      (by rw [e]; exact FCString.StartsWithIgnoreCase_self [' '] Tail)]
    simp

theorem FString.Mid_segment (X Y Z : FString) (c : Int)
    (hc : c = Y.length ∨ (Z = [] ∧ (Y.length : Int) ≤ c)) :
    FString.Mid (X ++ (Y ++ Z)) X.length c = Y := by
  have hc0 : c ≥ 0 := by
    rcases hc with h | ⟨_, h⟩ <;> omega
  have hStart : FMath.Clamp (X.length : Int) 0 (FString.Len (X ++ (Y ++ Z))) = X.length := by
    unfold FMath.Clamp FString.Len
    simp only [List.length_append, Nat.cast_add]
    split_ifs <;> omega
  have hEnd : FMath.Clamp (c + X.length) X.length (FString.Len (X ++ (Y ++ Z)))
      = (X.length + Y.length : Int) := by
    unfold FMath.Clamp FString.Len
    rcases hc with h | ⟨hz, h⟩
    · subst h
      simp only [List.length_append, Nat.cast_add]
      split_ifs <;> omega
    · subst hz
      simp only [List.length_append, Nat.cast_add, List.length_nil, Nat.cast_zero]
      split_ifs <;> omega
  have e1 : ((X.length : Int)).toNat = X.length := by omega
  have e2 : ((X.length : Int) + Y.length - X.length).toNat = Y.length := by omega
  unfold FString.Mid
  simp only [hc0, if_true, hStart, hEnd, e1, e2]
  rw [List.drop_left, List.take_left]

theorem FString.Find_from_start (Input SubStr : FString) :
    FString.Find Input SubStr INDEX_NONE
      = match FCString.Stristr Input SubStr with
        | some Offset => (Offset : Int)
        | none => INDEX_NONE := by
  unfold FString.Find
  simp only [ne_eq, not_true_eq_false, if_false, Int.toNat_zero, List.drop_zero]
  cases FCString.Stristr Input SubStr <;> simp

theorem ParseRayTracingEntryPoint.ParseEntry_none (Input Marker : FString)
    (h : FCString.Stristr Input Marker = none) :
    ParseRayTracingEntryPoint.ParseEntry Input Marker = [] := by
  unfold ParseRayTracingEntryPoint.ParseEntry
  simp [FString.Find_from_start, h]

theorem ParseRayTracingEntryPoint.ParseEntry_segment (P Mk Name R Marker : FString)
    (hfind : FCString.Stristr (P ++ (Mk ++ (Name ++ R))) Marker = some P.length)
    (hlen : Mk.length = Marker.length) (hpos : Marker ≠ [])
    (hMk : ' ' ∉ Mk) (hName : ' ' ∉ Name) (hR : R = [] ∨ ∃ Tail, R = ' ' :: Tail) :
    ParseRayTracingEntryPoint.ParseEntry (P ++ (Mk ++ (Name ++ R))) Marker = Name := by
  have hMkpos : 0 < Mk.length := by
    rw [hlen]
    exact List.length_pos.mpr hpos
  have hB : FString.Find (P ++ (Mk ++ (Name ++ R))) Marker INDEX_NONE = (P.length : Int) := by
    rw [FString.Find_from_start, hfind]
  have hne : (P.length : Int) ≠ INDEX_NONE := by
    unfold INDEX_NONE
    omega
  have hClamp : FMath.Clamp (P.length : Int) 0 (FString.Len (P ++ (Mk ++ (Name ++ R))) - 1)
      = P.length := by
    unfold FMath.Clamp FString.Len
    simp only [List.length_append, Nat.cast_add]
    split_ifs <;> omega
  have hsp : ' ' ∉ Mk ++ Name := by
    simp [hMk, hName]
  have hE : FString.Find (P ++ (Mk ++ (Name ++ R))) (TEXT " ") (P.length : Int)
      = if R = [] then INDEX_NONE else ((P.length + (Mk ++ Name).length : Nat) : Int) := by
    unfold FString.Find
    have e1 : ((P.length : Int)).toNat = P.length := by omega
    simp only [hne, ne_eq, not_false_eq_true, if_true, hClamp, e1, List.drop_left]
    rw [← List.append_assoc, FCString.Stristr_space _ _ hsp hR]
    split_ifs <;> simp
  unfold ParseRayTracingEntryPoint.ParseEntry
  simp only [hB, hne, ne_eq, not_false_eq_true, if_true, hE]
  have hform : P ++ (Mk ++ (Name ++ R)) = (P ++ Mk) ++ (Name ++ R) := by
    rw [List.append_assoc]
  have hstart : (P.length : Int) + FCString.Strlen Marker = ((P ++ Mk).length : Int) := by
    unfold FCString.Strlen
    rw [List.length_append, ← hlen]
    push_cast
    rfl
  rw [hstart]
  conv_lhs => rw [hform]
  apply FString.Mid_segment
  rcases hR with rfl | ⟨Tail, rfl⟩
  · right
    refine ⟨rfl, ?_⟩
    simp only [if_true, FString.Len, FCString.Strlen, INDEX_NONE, List.length_append,
      List.length_nil, Nat.cast_add, Nat.cast_zero]
    omega
  · left
    simp only [List.cons_ne_nil, if_false, FString.Len, FCString.Strlen, INDEX_NONE,
      List.length_append, Nat.cast_add]
    split_ifs <;> omega

theorem Markers_no_space (Marker : FString) (hM : Marker ∈ Markers) :
    ∀ f ∈ Marker, TChar.ToUpper ' ' ≠ TChar.ToUpper f := by
  have h : ∀ M ∈ Markers, ∀ f ∈ M, TChar.ToUpper ' ' ≠ TChar.ToUpper f := by decide
  exact h Marker hM

theorem Markers_ne_nil (Marker : FString) (hM : Marker ∈ Markers) : Marker ≠ [] := by
  have h : ∀ M ∈ Markers, M ≠ [] := by decide
  exact h Marker hM

theorem FCString.Stristr_skip_name (Name Rest Marker : FString) (hM : Marker ∈ Markers)
    (hName : ContainsNoMarker Name) (hRest : Rest = [] ∨ ∃ Tail, Rest = ' ' :: Tail) :
    FCString.Stristr (Name ++ Rest) Marker
      = (FCString.Stristr Rest Marker).map (fun Offset => Offset + Name.length) := by
  apply FCString.Stristr_append
  intro k hk
  rcases hRest with rfl | ⟨Tail, rfl⟩
  · rw [List.append_nil]
    exact hName Marker hM k hk
  · rw [FCString.StartsWithIgnoreCase_append_space Marker (Markers_no_space Marker hM)]
    exact hName Marker hM k hk

theorem FCString.Stristr_skip_space (Rest Marker : FString) (hM : Marker ∈ Markers) :
    FCString.Stristr (' ' :: Rest) Marker
      = (FCString.Stristr Rest Marker).map (fun Offset => Offset + 1) := by
  have h := FCString.StartsWithIgnoreCase_append_space Marker (Markers_no_space Marker hM) [] Rest
  have h2 : FCString.StartsWithIgnoreCase [] Marker = false := by
    cases Marker with
    | nil => exact absurd rfl (Markers_ne_nil _ hM)
    | cons f fs => rfl
  rw [List.nil_append, h2] at h
  simp [FCString.Stristr, h]

theorem FCString.Stristr_skip_closesthit_anyhit (Rest : FString) :
    FCString.Stristr (TEXT "closesthit=" ++ Rest) (TEXT "anyhit=")
      = (FCString.Stristr Rest (TEXT "anyhit=")).map (fun Offset => Offset + 11) := by
  apply FCString.Stristr_append
  intro k hk
  have hk : k < 11 := hk
  interval_cases k <;> rfl

theorem FCString.Stristr_skip_closesthit_intersection (Rest : FString) :
    FCString.Stristr (TEXT "closesthit=" ++ Rest) (TEXT "intersection=")
      = (FCString.Stristr Rest (TEXT "intersection=")).map (fun Offset => Offset + 11) := by
  apply FCString.Stristr_append
  intro k hk
  have hk : k < 11 := hk
  interval_cases k <;> rfl

theorem FCString.Stristr_skip_anyhit_intersection (Rest : FString) :
    FCString.Stristr (TEXT "anyhit=" ++ Rest) (TEXT "intersection=")
      = (FCString.Stristr Rest (TEXT "intersection=")).map (fun Offset => Offset + 7) := by
  apply FCString.Stristr_append
  intro k hk
  have hk : k < 7 := hk
  interval_cases k <;> rfl

theorem FCString.Stristr_skip_intersection_anyhit (Rest : FString) :
    FCString.Stristr (TEXT "intersection=" ++ Rest) (TEXT "anyhit=")
      = (FCString.Stristr Rest (TEXT "anyhit=")).map (fun Offset => Offset + 13) := by
  apply FCString.Stristr_append
  intro k hk
  have hk : k < 13 := hk
  interval_cases k <;> rfl

theorem ParseEntry_closesthit (A R : FString) (hA : ' ' ∉ A)
    (hR : R = [] ∨ ∃ Tail, R = ' ' :: Tail) :
    ParseRayTracingEntryPoint.ParseEntry (TEXT "closesthit=" ++ (A ++ R)) (TEXT "closesthit=")
      = A := by
  have h := ParseRayTracingEntryPoint.ParseEntry_segment [] (TEXT "closesthit=") A R
    (TEXT "closesthit=")
    (FCString.Stristr_found _ _ (by decide) (FCString.StartsWithIgnoreCase_self _ _))
    rfl (by decide) (by decide) hA hR
  exact h

theorem ParseEntry_anyhit (A B R : FString) (hA : ContainsNoMarker A) (hB : ' ' ∉ B)
    (hR : R = [] ∨ ∃ Tail, R = ' ' :: Tail) :
    ParseRayTracingEntryPoint.ParseEntry
        (TEXT "closesthit=" ++ (A ++ ' ' :: (TEXT "anyhit=" ++ (B ++ R)))) (TEXT "anyhit=")
      = B := by
  have hM : TEXT "anyhit=" ∈ Markers := by decide
  have hfind : FCString.Stristr
      (TEXT "closesthit=" ++ (A ++ ' ' :: (TEXT "anyhit=" ++ (B ++ R)))) (TEXT "anyhit=")
      = some (TEXT "closesthit=" ++ (A ++ [' '])).length := by
    rw [FCString.Stristr_skip_closesthit_anyhit,
      FCString.Stristr_skip_name A _ _ hM hA (Or.inr ⟨_, rfl⟩),
      FCString.Stristr_skip_space _ _ hM,
      FCString.Stristr_found _ _ (by decide) (FCString.StartsWithIgnoreCase_self _ _)]
    have e : (TEXT "closesthit=").length = 11 := rfl
    simp only [Option.map_some', List.length_append, e, List.length_singleton]
    congr 1
    omega
  have hshape : TEXT "closesthit=" ++ (A ++ ' ' :: (TEXT "anyhit=" ++ (B ++ R)))
      = (TEXT "closesthit=" ++ (A ++ [' '])) ++ (TEXT "anyhit=" ++ (B ++ R)) := by
    simp
  rw [hshape] at hfind ⊢
  exact ParseRayTracingEntryPoint.ParseEntry_segment _ _ B R _ hfind rfl (by decide) (by decide)
    hB hR

theorem ParseEntry_intersection_after_name (A C : FString) (hA : ContainsNoMarker A)
    (hC : ' ' ∉ C) :
    ParseRayTracingEntryPoint.ParseEntry
        (TEXT "closesthit=" ++ (A ++ ' ' :: (TEXT "intersection=" ++ (C ++ []))))
        (TEXT "intersection=")
      = C := by
  have hM : TEXT "intersection=" ∈ Markers := by decide
  have hfind : FCString.Stristr
      (TEXT "closesthit=" ++ (A ++ ' ' :: (TEXT "intersection=" ++ (C ++ []))))
      (TEXT "intersection=")
      = some (TEXT "closesthit=" ++ (A ++ [' '])).length := by
    rw [FCString.Stristr_skip_closesthit_intersection,
      FCString.Stristr_skip_name A _ _ hM hA (Or.inr ⟨_, rfl⟩),
      FCString.Stristr_skip_space _ _ hM,
      FCString.Stristr_found _ _ (by decide) (FCString.StartsWithIgnoreCase_self _ _)]
    have e : (TEXT "closesthit=").length = 11 := rfl
    simp only [Option.map_some', List.length_append, e, List.length_singleton]
    congr 1
    omega
  have hshape : TEXT "closesthit=" ++ (A ++ ' ' :: (TEXT "intersection=" ++ (C ++ [])))
      = (TEXT "closesthit=" ++ (A ++ [' '])) ++ (TEXT "intersection=" ++ (C ++ [])) := by
    simp
  rw [hshape] at hfind ⊢
  exact ParseRayTracingEntryPoint.ParseEntry_segment _ _ C [] _ hfind rfl (by decide) (by decide)
    hC (Or.inl rfl)

theorem ParseEntry_intersection_after_anyhit (A B C : FString) (hA : ContainsNoMarker A)
    (hB : ContainsNoMarker B) (hC : ' ' ∉ C) :
    ParseRayTracingEntryPoint.ParseEntry
        (TEXT "closesthit=" ++ (A ++ ' ' :: (TEXT "anyhit=" ++
          (B ++ ' ' :: (TEXT "intersection=" ++ (C ++ []))))))
        (TEXT "intersection=")
      = C := by
  have hM : TEXT "intersection=" ∈ Markers := by decide
  have hfind : FCString.Stristr
      (TEXT "closesthit=" ++ (A ++ ' ' :: (TEXT "anyhit=" ++
          (B ++ ' ' :: (TEXT "intersection=" ++ (C ++ []))))))
      (TEXT "intersection=")
      = some (TEXT "closesthit=" ++ (A ++ ' ' :: (TEXT "anyhit=" ++ (B ++ [' '])))).length := by
    rw [FCString.Stristr_skip_closesthit_intersection,
      FCString.Stristr_skip_name A _ _ hM hA (Or.inr ⟨_, rfl⟩),
      FCString.Stristr_skip_space _ _ hM,
      FCString.Stristr_skip_anyhit_intersection,
      FCString.Stristr_skip_name B _ _ hM hB (Or.inr ⟨_, rfl⟩),
      FCString.Stristr_skip_space _ _ hM,
      FCString.Stristr_found _ _ (by decide) (FCString.StartsWithIgnoreCase_self _ _)]
    have e : (TEXT "closesthit=").length = 11 := rfl
    have e2 : (TEXT "anyhit=").length = 7 := rfl
    simp only [Option.map_some', List.length_append, List.length_cons, e, e2,
      List.length_singleton, List.length_nil]
    congr 1
    omega
  have hshape : TEXT "closesthit=" ++ (A ++ ' ' :: (TEXT "anyhit=" ++
          (B ++ ' ' :: (TEXT "intersection=" ++ (C ++ [])))))
      = (TEXT "closesthit=" ++ (A ++ ' ' :: (TEXT "anyhit=" ++ (B ++ [' ']))))
        ++ (TEXT "intersection=" ++ (C ++ [])) := by
    simp
  rw [hshape] at hfind ⊢
  exact ParseRayTracingEntryPoint.ParseEntry_segment _ _ C [] _ hfind rfl (by decide) (by decide)
    hC (Or.inl rfl)

theorem ParseEntry_anyhit_absent (A R : FString) (hA : ContainsNoMarker A)
    (hR : R = [] ∨ ∃ C, ContainsNoMarker C ∧ R = ' ' :: (TEXT "intersection=" ++ (C ++ []))) :
    ParseRayTracingEntryPoint.ParseEntry (TEXT "closesthit=" ++ (A ++ R)) (TEXT "anyhit=")
      = [] := by
  have hM : TEXT "anyhit=" ∈ Markers := by decide
  apply ParseRayTracingEntryPoint.ParseEntry_none
  rcases hR with rfl | ⟨C, hC, rfl⟩
  · rw [FCString.Stristr_skip_closesthit_anyhit,
      FCString.Stristr_skip_name A _ _ hM hA (Or.inl rfl)]
    rfl
  · rw [FCString.Stristr_skip_closesthit_anyhit,
      FCString.Stristr_skip_name A _ _ hM hA (Or.inr ⟨_, rfl⟩),
      FCString.Stristr_skip_space _ _ hM,
      FCString.Stristr_skip_intersection_anyhit,
      FCString.Stristr_skip_name C _ _ hM hC (Or.inl rfl)]
    rfl

theorem ParseEntry_intersection_absent (A R : FString) (hA : ContainsNoMarker A)
    (hR : R = [] ∨ ∃ B, ContainsNoMarker B ∧ R = ' ' :: (TEXT "anyhit=" ++ (B ++ []))) :
    ParseRayTracingEntryPoint.ParseEntry (TEXT "closesthit=" ++ (A ++ R)) (TEXT "intersection=")
      = [] := by
  have hM : TEXT "intersection=" ∈ Markers := by decide
  apply ParseRayTracingEntryPoint.ParseEntry_none
  rcases hR with rfl | ⟨B, hB, rfl⟩
  · rw [FCString.Stristr_skip_closesthit_intersection,
      FCString.Stristr_skip_name A _ _ hM hA (Or.inl rfl)]
    rfl
  · rw [FCString.Stristr_skip_closesthit_intersection,
      FCString.Stristr_skip_name A _ _ hM hA (Or.inr ⟨_, rfl⟩),
      FCString.Stristr_skip_space _ _ hM,
      FCString.Stristr_skip_anyhit_intersection,
      FCString.Stristr_skip_name B _ _ hM hB (Or.inl rfl)]
    rfl

theorem ParseEntry_no_marker (Input Marker : FString) (hM : Marker ∈ Markers)
    (h : ContainsNoMarker Input) :
    ParseRayTracingEntryPoint.ParseEntry Input Marker = [] :=
  ParseRayTracingEntryPoint.ParseEntry_none _ _ (FCString.Stristr_none _ _ (h Marker hM))

/-- C25: for entry-point names `A`, `B`, `C` that are not empty and contain neither a
space nor, up to case, one of the markers `closesthit=`, `anyhit=`, `intersection=`:
`ParseRayTracingEntryPoint` on `closesthit=A`, `closesthit=A anyhit=B`,
`closesthit=A anyhit=B intersection=C` and `closesthit=A intersection=C` sets
`OutMain` to `A`, `OutAnyHit` to `B` and `OutIntersection` to `C`, each of the last two
being empty when its marker is absent; on an input that contains none of the markers
it sets `OutMain` to the whole input and the other two outputs to the empty string. -/
theorem C25_ParseRayTracingEntryPoint_forms (A B C Input : FString)
    (hA : IsEntryPointName A) (hB : IsEntryPointName B) (hC : IsEntryPointName C)
    (hInput : ContainsNoMarker Input) :
    ParseRayTracingEntryPoint (TEXT "closesthit=" ++ A) = (A, [], []) ∧
    ParseRayTracingEntryPoint (TEXT "closesthit=" ++ A ++ TEXT " anyhit=" ++ B)
      = (A, B, []) ∧
    ParseRayTracingEntryPoint
        (TEXT "closesthit=" ++ A ++ TEXT " anyhit=" ++ B ++ TEXT " intersection=" ++ C)
      = (A, B, C) ∧
    ParseRayTracingEntryPoint (TEXT "closesthit=" ++ A ++ TEXT " intersection=" ++ C)
      = (A, [], C) ∧
    ParseRayTracingEntryPoint Input = (Input, [], []) := by
  obtain ⟨hA1, hA2, hA3⟩ := hA
  obtain ⟨hB1, hB2, hB3⟩ := hB
  obtain ⟨hC1, hC2, hC3⟩ := hC
  have hAe : FString.IsEmpty A = false := by
    cases A with
    | nil => exact absurd rfl hA1
    | cons a as => rfl
  have e2 : TEXT " anyhit=" = ' ' :: TEXT "anyhit=" := rfl
  have e3 : TEXT " intersection=" = ' ' :: TEXT "intersection=" := rfl
  have s1 : TEXT "closesthit=" ++ A = TEXT "closesthit=" ++ (A ++ []) := by simp
  have s2 : TEXT "closesthit=" ++ A ++ TEXT " anyhit=" ++ B
      = TEXT "closesthit=" ++ (A ++ ' ' :: (TEXT "anyhit=" ++ (B ++ []))) := by
    rw [e2]
    simp
  have s3 : TEXT "closesthit=" ++ A ++ TEXT " anyhit=" ++ B ++ TEXT " intersection=" ++ C
      = TEXT "closesthit=" ++ (A ++ ' ' :: (TEXT "anyhit=" ++
          (B ++ ' ' :: (TEXT "intersection=" ++ (C ++ []))))) := by
    rw [e2, e3]
    simp
  have s4 : TEXT "closesthit=" ++ A ++ TEXT " intersection=" ++ C
      = TEXT "closesthit=" ++ (A ++ ' ' :: (TEXT "intersection=" ++ (C ++ []))) := by
    rw [e3]
    simp
  refine ⟨?_, ?_, ?_, ?_, ?_⟩
  · rw [s1]
    simp only [ParseRayTracingEntryPoint]
    rw [ParseEntry_closesthit A [] hA2 (Or.inl rfl),
      ParseEntry_anyhit_absent A [] hA3 (Or.inl rfl),
      ParseEntry_intersection_absent A [] hA3 (Or.inl rfl)]
    simp [hAe]
  · rw [s2]
    simp only [ParseRayTracingEntryPoint]
    rw [ParseEntry_closesthit A _ hA2 (Or.inr ⟨_, rfl⟩),
      ParseEntry_anyhit A B [] hA3 hB2 (Or.inl rfl),
      ParseEntry_intersection_absent A _ hA3 (Or.inr ⟨B, hB3, rfl⟩)]
    simp [hAe]
  · rw [s3]
    simp only [ParseRayTracingEntryPoint]
    rw [ParseEntry_closesthit A _ hA2 (Or.inr ⟨_, rfl⟩),
      ParseEntry_anyhit A B _ hA3 hB2 (Or.inr ⟨_, rfl⟩),
      ParseEntry_intersection_after_anyhit A B C hA3 hB3 hC2]
    simp [hAe]
  · rw [s4]
    simp only [ParseRayTracingEntryPoint]
    rw [ParseEntry_closesthit A _ hA2 (Or.inr ⟨_, rfl⟩),
      ParseEntry_anyhit_absent A _ hA3 (Or.inr ⟨C, hC3, rfl⟩),
      ParseEntry_intersection_after_name A C hA3 hC2]
    simp [hAe]
  · simp only [ParseRayTracingEntryPoint]
    rw [ParseEntry_no_marker Input _ (by decide) hInput,
      ParseEntry_no_marker Input _ (by decide) hInput,
      ParseEntry_no_marker Input _ (by decide) hInput]
    simp [FString.IsEmpty]

/-- Witness for C25: the names `MainCHS`, `MainAHS` and `MainIS` of the source's comment,
and the verbatim entry point `MainRGS`. -/
theorem C25_ParseRayTracingEntryPoint_forms_witness :
    (IsEntryPointName (TEXT "MainCHS") ∧ IsEntryPointName (TEXT "MainAHS") ∧
      IsEntryPointName (TEXT "MainIS") ∧ ContainsNoMarker (TEXT "MainRGS")) ∧
    ParseRayTracingEntryPoint (TEXT "closesthit=" ++ TEXT "MainCHS")
      = (TEXT "MainCHS", [], []) ∧
    ParseRayTracingEntryPoint (TEXT "closesthit=" ++ TEXT "MainCHS" ++ TEXT " anyhit="
        ++ TEXT "MainAHS")
      = (TEXT "MainCHS", TEXT "MainAHS", []) ∧
    ParseRayTracingEntryPoint
        (TEXT "closesthit=" ++ TEXT "MainCHS" ++ TEXT " anyhit=" ++ TEXT "MainAHS"
          ++ TEXT " intersection=" ++ TEXT "MainIS")
      = (TEXT "MainCHS", TEXT "MainAHS", TEXT "MainIS") ∧
    ParseRayTracingEntryPoint (TEXT "closesthit=" ++ TEXT "MainCHS" ++ TEXT " intersection="
        ++ TEXT "MainIS")
      = (TEXT "MainCHS", [], TEXT "MainIS") ∧
    ParseRayTracingEntryPoint (TEXT "MainRGS") = (TEXT "MainRGS", [], []) :=
  ⟨by decide,
    C25_ParseRayTracingEntryPoint_forms (TEXT "MainCHS") (TEXT "MainAHS") (TEXT "MainIS")
      (TEXT "MainRGS") (by decide) (by decide) (by decide) (by decide)⟩

end ShaderFormatD3D

namespace D3D12RHI

/-! ## Pipeline state names -/

theorem FastHashName.rol_eq (Hash : Nat) (h : Hash < 2 ^ 64) :
    FastHashName.rol Hash = Hash % 2 ^ 60 * 16 + Hash / 2 ^ 60 := by
  unfold FastHashName.rol
  rw [Nat.shiftLeft_eq, Nat.shiftRight_eq_div_pow]
  have e : Hash * 2 ^ 4 % 2 ^ 64 = 2 ^ 4 * (Hash % 2 ^ 60) := by
    norm_num at h ⊢
    omega
  have hlt : Hash / 2 ^ 60 < 2 ^ 4 := by
    norm_num at h ⊢
    omega
  rw [e, ← Nat.mul_add_lt_is_or hlt]
  norm_num
  omega

theorem FastHashName.rol_shift (A B Hash : Nat) (hAB : A * B = 2 ^ 60) (h : Hash < 2 ^ 64) :
    FastHashName.rol (Hash % (16 * A) * B + Hash / (16 * A)) = Hash % A * (16 * B) + Hash / A := by
  have hA : 0 < A := by
    rcases Nat.eq_zero_or_pos A with h0 | h0
    · rw [h0] at hAB
      simp at hAB
    · exact h0
  have hHqr : Hash = 16 * A * (Hash / (16 * A)) + Hash % (16 * A) :=
    (Nat.div_add_mod Hash (16 * A)).symm
  have hr_lt : Hash % (16 * A) < 16 * A := Nat.mod_lt _ (by omega)
  have hq_lt : Hash / (16 * A) < B := by
    apply Nat.div_lt_of_lt_mul
    calc Hash < 2 ^ 64 := h
      _ = 16 * A * B := by rw [Nat.mul_assoc, hAB]; norm_num
  generalize Hash / (16 * A) = q at hHqr hq_lt ⊢
  generalize Hash % (16 * A) = r at hHqr hr_lt ⊢
  have hrt : r = A * (r / A) + r % A := (Nat.div_add_mod r A).symm
  have hs_lt : r % A < A := Nat.mod_lt _ hA
  have ht : r / A < 16 := Nat.div_lt_of_lt_mul (by omega)
  generalize r / A = t at hrt ht
  generalize r % A = s at hrt hs_lt
  have hv : r * B + q = 2 ^ 60 * t + (s * B + q) := by
    rw [hrt, ← hAB]
    ring
  have hlow : s * B + q < 2 ^ 60 := by
    rw [← hAB]
    nlinarith
  generalize hl : s * B + q = low at hv hlow
  have hvlt : r * B + q < 2 ^ 64 := by
    rw [hv]
    norm_num at hlow ⊢
    omega
  rw [FastHashName.rol_eq _ hvlt]
  have hdiv : (r * B + q) / 2 ^ 60 = t := by
    rw [hv]
    norm_num at hlow ⊢
    omega
  have hmod : (r * B + q) % 2 ^ 60 = low := by
    rw [hv]
    norm_num at hlow ⊢
    omega
  rw [hdiv, hmod]
  have hHA : Hash = A * (16 * q + t) + s := by
    rw [hHqr, hrt]
    ring
  have hdivA : Hash / A = 16 * q + t := by
    rw [hHA, Nat.mul_add_div hA, Nat.div_eq_of_lt hs_lt, Nat.add_zero]
  have hmodA : Hash % A = s := by
    rw [hHA, Nat.mul_add_mod, Nat.mod_eq_of_lt hs_lt]
  rw [hdivA, hmodA, ← hl]
  ring


theorem FastHashName.rol_iterate (Hash : Nat) (h : Hash < 2 ^ 64) :
    ∀ k, k ≤ 16 →
      FastHashName.rol^[k] Hash
        = Hash % 2 ^ (64 - 4 * k) * 2 ^ (4 * k) + Hash / 2 ^ (64 - 4 * k) := by
  intro k
  induction k with
  | zero =>
    intro _
    rw [Function.iterate_zero_apply, Nat.mod_eq_of_lt h, Nat.div_eq_of_lt h]
    simp
  | succ k ih =>
    intro hk
    rw [Function.iterate_succ_apply', ih (by omega)]
    have hAB : 2 ^ (64 - 4 * (k + 1)) * 2 ^ (4 * k) = 2 ^ 60 := by
      rw [← pow_add]
      congr 1
      omega
    have e1 : 2 ^ (64 - 4 * k) = 16 * 2 ^ (64 - 4 * (k + 1)) := by
      have : 64 - 4 * k = (64 - 4 * (k + 1)) + 4 := by omega
      rw [this, pow_add]
      ring
    have e2 : 2 ^ (4 * (k + 1)) = 16 * 2 ^ (4 * k) := by
      have : 4 * (k + 1) = 4 * k + 4 := by omega
      rw [this, pow_add]
      ring
    rw [e1, e2]
    exact FastHashName.rol_shift _ _ Hash hAB h

theorem FastHashName.rol_iterate_mod (Hash : Nat) (h : Hash < 2 ^ 64) (k : Nat) (hk : k < 16) :
    FastHashName.rol^[k + 1] Hash % 16 = nibbleFromTop Hash k := by
  rw [FastHashName.rol_iterate Hash h (k + 1) (by omega)]
  unfold nibbleFromTop
  have e1 : 2 ^ (4 * (k + 1)) = 16 * 2 ^ (4 * k) := by
    have : 4 * (k + 1) = 4 * k + 4 := by omega
    rw [this, pow_add]
    ring
  have e2 : 2 ^ (64 - 4 * (k + 1)) = 16 ^ (15 - k) := by
    have : 64 - 4 * (k + 1) = 4 * (15 - k) := by omega
    rw [this, pow_mul]
    norm_num
  rw [e1, e2, ← Nat.mul_assoc, Nat.mul_comm _ 16, Nat.mul_assoc, Nat.mul_add_mod]

theorem FastHashName.digit_eq (Hash : Nat) :
    FastHashName.digit Hash = upperHexDigit (Hash % 16) := by
  unfold FastHashName.digit
  have e : Hash &&& 0xF = Hash % 16 := Nat.and_pow_two_sub_one_eq_mod Hash 4
  simp only [e]
  have hlt : Hash % 16 < 16 := Nat.mod_lt _ (by decide)
  generalize Hash % 16 = n at hlt
  interval_cases n <;> rfl

theorem upperHexDigit_inj (m n : Nat) (hm : m < 16) (hn : n < 16)
    (h : upperHexDigit m = upperHexDigit n) : m = n := by
  interval_cases m <;> interval_cases n <;> first | rfl | exact absurd h (by decide)

theorem FastHashName.loop_apply (Remaining : Nat) :
    ∀ (i : Nat) (Name : Fin 17 → wchar_t) (Hash : Nat) (j : Fin 17),
      FastHashName.loop Remaining i Name Hash j
        = if i ≤ j.val ∧ j.val < i + Remaining then
            FastHashName.digit (FastHashName.rol^[j.val - i + 1] Hash)
          else Name j := by
  induction Remaining with
  | zero =>
    intro i Name Hash j
    have hno : ¬ (i ≤ j.val ∧ j.val < i + 0) := by omega
    rw [if_neg hno]
    rfl
  | succ n ih =>
    intro i Name Hash j
    simp only [FastHashName.loop]
    rw [ih]
    by_cases hji : j.val = i
    · have h1 : ¬ (i + 1 ≤ j.val ∧ j.val < i + 1 + n) := by omega
      have h2 : i ≤ j.val ∧ j.val < i + (n + 1) := by omega
      rw [if_neg h1, if_pos h2]
      simp [setAt, hji]
    · by_cases hin : i + 1 ≤ j.val ∧ j.val < i + 1 + n
      · have h2 : i ≤ j.val ∧ j.val < i + (n + 1) := by omega
        rw [if_pos hin, if_pos h2]
        have e : j.val - i + 1 = (j.val - (i + 1) + 1) + 1 := by omega
        rw [e]
        rfl
      · have h2 : ¬ (i ≤ j.val ∧ j.val < i + (n + 1)) := by omega
        rw [if_neg hin, if_neg h2]
        simp [setAt, hji]

theorem FastHashName_apply (Name : Fin 17 → wchar_t) (Hash : Nat)
    (h : Hash < 2 ^ 64) (i : Fin 17) (hi : i.val < 16) :
    FastHashName Name Hash i = upperHexDigit (nibbleFromTop Hash i.val) := by
  have hne : i.val ≠ 16 := by omega
  have hin : 0 ≤ i.val ∧ i.val < 0 + 16 := by omega
  simp only [FastHashName, setAt, if_neg hne]
  rw [FastHashName.loop_apply, if_pos hin, FastHashName.digit_eq, Nat.sub_zero,
    FastHashName.rol_iterate_mod Hash h i.val hi]

theorem nibbleFromTop_inj (a b : Nat) (ha : a < 2 ^ 64) (hb : b < 2 ^ 64)
    (h : ∀ k, k < 16 → nibbleFromTop a k = nibbleFromTop b k) : a = b := by
  have key : ∀ m, m ≤ 16 → a / 16 ^ (16 - m) = b / 16 ^ (16 - m) := by
    intro m
    induction m with
    | zero =>
      intro _
      have e : (16 : Nat) ^ (16 - 0) = 2 ^ 64 := by norm_num
      rw [e, Nat.div_eq_of_lt ha, Nat.div_eq_of_lt hb]
    | succ m ih =>
      intro hm
      have hk := h m (by omega)
      unfold nibbleFromTop at hk
      have e1 : 16 - (m + 1) = 15 - m := by omega
      have e2 : (16 : Nat) ^ (16 - m) = 16 ^ (15 - m) * 16 := by
        have : 16 - m = (15 - m) + 1 := by omega
        rw [this, pow_succ]
      have ih2 := ih (by omega)
      rw [e2, ← Nat.div_div_eq_div_mul, ← Nat.div_div_eq_div_mul] at ih2
      rw [e1]
      omega
  have := key 16 (by decide)
  simpa using this

/-- C27: for every 64-bit `Hash` and every content of the array on entry,
`FastHashName` writes into `Name[0..15]` the sixteen uppercase hexadecimal digits
(`'0'`-`'9'`, `'A'`-`'F'`) of `Hash`, from the most significant nibble to the least
significant, and writes 0 into `Name[16]`; hence two different 64-bit hashes give two
different names. -/
theorem C27_FastHashName_hex (Name Name2 : Fin 17 → wchar_t) (Hash Hash2 : Nat)
    (h : Hash < 2 ^ 64) (h2 : Hash2 < 2 ^ 64) :
    (∀ i : Fin 17, i.val < 16 →
      Hash / 16 ^ (15 - i.val) % 16 < upperHexDigits.length ∧
      FastHashName Name Hash i
        = (upperHexDigits.getD (Hash / 16 ^ (15 - i.val) % 16) '0').toNat) ∧
    FastHashName Name Hash ⟨16, by decide⟩ = 0 ∧
    (Hash ≠ Hash2 → FastHashName Name Hash ≠ FastHashName Name2 Hash2) := by
  refine ⟨?_, ?_, ?_⟩
  · intro i hi
    exact ⟨Nat.mod_lt _ (by decide), FastHashName_apply Name Hash h i hi⟩
  · simp only [FastHashName, setAt]
    rfl
  · intro hne heq
    apply hne
    apply nibbleFromTop_inj Hash Hash2 h h2
    intro k hk
    have e := congrFun heq ⟨k, by omega⟩
    rw [FastHashName_apply Name Hash h ⟨k, by omega⟩ hk,
      FastHashName_apply Name2 Hash2 h2 ⟨k, by omega⟩ hk] at e
    exact upperHexDigit_inj _ _ (Nat.mod_lt _ (by decide)) (Nat.mod_lt _ (by decide)) e

/-- Witness for C27: the hash `0x0123456789ABCDEF` against the hash 0, written over
arrays that hold 7 and 9 everywhere. -/
theorem C27_FastHashName_hex_witness :
    (∀ i : Fin 17, i.val < 16 →
      0x0123456789ABCDEF / 16 ^ (15 - i.val) % 16 < upperHexDigits.length ∧
      FastHashName (fun _ => 7) 0x0123456789ABCDEF i
        = (upperHexDigits.getD (0x0123456789ABCDEF / 16 ^ (15 - i.val) % 16) '0').toNat) ∧
    FastHashName (fun _ => 7) 0x0123456789ABCDEF ⟨16, by decide⟩ = 0 ∧
    ((0x0123456789ABCDEF : Nat) ≠ 0 →
      FastHashName (fun _ => 7) 0x0123456789ABCDEF ≠ FastHashName (fun _ => 9) 0) :=
  C27_FastHashName_hex (fun _ => 7) (fun _ => 9) 0x0123456789ABCDEF 0 (by decide) (by decide)

end D3D12RHI
